import Mathlib

/-! Pulcher physics core and player movement

A shallow embedding of `plugins/base/src/base/physics/physics.cpp` (tile
collision layer, tile queries, entity queries) and of `UpdatePlayer` of
`plugins/entity/src/player.cpp`.

Conventions of the embedding.

* `size_t` and `uint32_t` values are natural numbers; where the C++ arithmetic
  can wrap, the reduction modulo `2^32` is written out.
* A `float` sample is a rational number: the code only stores samples and
  compares them with `0.0f`.
* A read that C++ leaves undefined (an index past the end of a sequence, a
  null tileset that is dereferenced) makes the embedded function return
  `none`.
* The process-wide `tilemapLayer` and the debug recorder of the scene are
  passed in and returned explicitly.
* `PUL_ASSERT(cond, action)` and `PUL_ASSERT_CMP(a, op, b, action)` are macros
  defined outside the sources at hand; following the spec (a violation is
  logged and the element skipped) they run `action` when the condition fails.
  Logging has no effect on the state and is left out.
-/

namespace Pulcher

/-! ## Data model -/

/-- The `size_t` value `-1ul`, used to mark an empty cell. -/
def SENTINEL : Nat := 2 ^ 64 - 1

/-- Number of values of a `uint32_t`. -/
def U32 : Nat := 2 ^ 32

/-- Modelled from the spec: `pul::core::TileOrientation` is declared outside the
sources at hand.  The spec describes it as a bitmask of three flags that may
combine; each field is the outcome of the bit test the code performs for that
flag. -/
structure TileOrientation where
  flipHorizontal : Bool
  flipVertical : Bool
  flipDiagonal : Bool
deriving DecidableEq, Repr

/-- Orientation with no flag set. -/
def TileOrientation.None : TileOrientation := ⟨false, false, false⟩

/-- Modelled from the spec: `pul::physics::Tile::gridSize`, the side of the
sample grid of a tile (`32` in the spec). -/
def gridSize : Nat := 32

/-- A physics tile: `signedDistanceField[x][y]`, meaningful for
`x, y < gridSize`. -/
structure Tile where
  signedDistanceField : Nat → Nat → ℚ

/-- An ordered sequence of tiles. -/
structure Tileset where
  tiles : List Tile

/-- One cell of the map grid. -/
structure TileInfo where
  imageTileIdx : Nat
  tilesetIdx : Nat
  origin : Nat × Nat
  orientation : TileOrientation
deriving DecidableEq, Repr

/-- Modelled from the spec: the value of a freshly created `TileInfo` (the
declaration is outside the sources at hand): both indices hold the sentinel. -/
def TileInfo.empty : TileInfo := ⟨SENTINEL, SENTINEL, (0, 0), TileOrientation.None⟩

/-- Modelled from the spec: `TileInfo::Valid`, false exactly for the empty
sentinel `imageTileIdx == -1ul`. -/
def TileInfo.Valid (tileInfo : TileInfo) : Bool := tileInfo.imageTileIdx != SENTINEL

/-- The collision layer: the tilesets it points to (`none` is a null pointer),
the flat grid of cells and the width of the grid in tiles. -/
structure TilemapLayer where
  tilesets : List (Option Tileset)
  tileInfo : List TileInfo
  width : Nat

/-- The value-initialised layer `tilemapLayer = {}`. -/
def TilemapLayer.cleared : TilemapLayer := ⟨[], [], 0⟩

/-! ## Sampling a tile -/

/-- The function `CalculateSdfDistance`.  After the test on `tilesetIdx` the
tileset pointer is read from the layer's vector, before the validity test: an
index past the end of `tilesets` is an undefined read, also for a cell whose
image tile index is the sentinel.  The pointer read is only dereferenced after
the validity test, where a null pointer or a tile index past the end of the
tileset makes the result undefined. -/
def CalculateSdfDistance (layer : TilemapLayer) (tileInfo : TileInfo)
    (texel : Nat × Nat) : Option ℚ :=
  if tileInfo.tilesetIdx = SENTINEL then some 0
  else
    match layer.tilesets[tileInfo.tilesetIdx]? with
    | none => none
    | some tileset =>
      if !tileInfo.Valid then some 0
      else
        match tileset with
        | some ts =>
          match ts.tiles[tileInfo.imageTileIdx]? with
          | some physicsTile =>
            let texel : Nat × Nat :=
              if tileInfo.orientation.flipHorizontal
              then ((31 + U32 - texel.1) % U32, texel.2) else texel
            let texel : Nat × Nat :=
              if tileInfo.orientation.flipVertical
              then (texel.1, (31 + U32 - texel.2) % U32) else texel
            let texel : Nat × Nat :=
              if tileInfo.orientation.flipDiagonal then (texel.2, texel.1) else texel
            if texel.1 < gridSize ∧ texel.2 < gridSize
            then some (physicsTile.signedDistanceField texel.1 texel.2)
            else none
          | none => none
        | none => none

/-- The remapping of a texel that the spec prescribes: horizontal flip, then
vertical flip, then diagonal swap. -/
def orientTexel (o : TileOrientation) (texel : Nat × Nat) : Nat × Nat :=
  let afterH : Nat × Nat := if o.flipHorizontal then (31 - texel.1, texel.2) else texel
  let afterV : Nat × Nat := if o.flipVertical then (afterH.1, 31 - afterH.2) else afterH
  if o.flipDiagonal then (afterV.2, afterV.1) else afterV

/-! ## Processing a tileset image -/

/-- Modelled from the spec: the decoded image handed to `Physics_ProcessTileset`
(`pul::gfx::Image` is declared outside the sources at hand): its dimensions
and, per pixel in row-major order, the alpha channel, the only channel read. -/
structure Image where
  width : Nat
  height : Nat
  data : List ℚ

/-- The tile declared by `pul::physics::Tile tile;` before any sample is
written; every sample is overwritten by the texel loops. -/
def Tile.fresh : Tile := ⟨fun _ _ => 0⟩

/-- The values taken by `texelX` and `texelY`: from 0 while below 32, in steps
of `32 / gridSize`. -/
def texelSteps : List Nat := (List.range 32).filter (fun t => t % (32 / gridSize) = 0)

/-- The body of the texel loops of `Physics_ProcessTileset`: read the alpha of
one image pixel and store it in the tile. -/
def processTexel (image : Image) (tileX tileY texelX texelY : Nat) (tile : Tile) :
    Option Tile :=
  let imageTexelX := tileX * 32 + texelX
  let imageTexelY := tileY * 32 + texelY
  let gridTexelX := texelX * gridSize / 32
  let gridTexelY := texelY * gridSize / 32
  match image.data[(image.height - imageTexelY - 1) * image.width + imageTexelX]? with
  | none => none
  | some alpha =>
    if gridTexelX < gridSize ∧ gridTexelY < gridSize then
      some ⟨fun a b =>
        if a = gridTexelX ∧ b = gridTexelY then alpha else tile.signedDistanceField a b⟩
    else none

/-- The two texel loops of `Physics_ProcessTileset` for the tile at
`(tileX, tileY)`. -/
def processTile (image : Image) (tileX tileY : Nat) : Option Tile :=
  texelSteps.foldlM
    (fun tile texelY =>
      texelSteps.foldlM
        (fun tile texelX => processTexel image tileX tileY texelX texelY tile) tile)
    Tile.fresh

/-- The function `Physics_ProcessTileset`: the tileset starts empty and one tile
is appended per 32x32 block of the image, rows of blocks outermost. -/
def Physics_ProcessTileset (image : Image) : Option Tileset :=
  ((List.range (image.height / 32)).foldlM
    (fun tiles tileY =>
      (List.range (image.width / 32)).foldlM
        (fun tiles tileX =>
          match processTile image tileX tileY with
          | none => none
          | some tile => some (tiles ++ [tile]))
        tiles)
    []).map Tileset.mk

/-! ## Loading the map geometry -/

/-- The first pair of loops of `Physics_LoadMapGeometry`: the `uint32_t` width
and height of the grid. -/
def mapDims (mapTileOrigins : List (List (Nat × Nat))) : Nat × Nat :=
  mapTileOrigins.foldl
    (fun dims tileOrigins =>
      tileOrigins.foldl
        (fun dims origin =>
          (max dims.1 ((origin.1 + 1) % U32), max dims.2 ((origin.2 + 1) % U32)))
        dims)
    (0, 0)

/-- The flat index `tileOrigin.y * width + tileOrigin.x`, computed in `uint32_t`
arithmetic. -/
def cellIndex (width : Nat) (tileOrigin : Nat × Nat) : Nat :=
  (tileOrigin.2 * width + tileOrigin.1) % U32

/-- The body of the inner loop of `Physics_LoadMapGeometry` once its three
elements are read: both index checks, the occupied-cell check and the write.
`numTiles` is `tilesets[tilesetIdx]->tiles.size()`. -/
def loadTile (numTiles width tilesetIdx imageTileIdx : Nat) (tileOrigin : Nat × Nat)
    (tileOrientation : TileOrientation) (tileInfo : List TileInfo) : List TileInfo :=
  if ¬ imageTileIdx < numTiles then tileInfo
  else
    let tileIdx := cellIndex width tileOrigin
    if ¬ tileIdx < tileInfo.length then tileInfo
    else
      match tileInfo[tileIdx]? with
      | none => tileInfo
      | some tile =>
        if tile.imageTileIdx ≠ SENTINEL then tileInfo
        else tileInfo.set tileIdx ⟨imageTileIdx, tilesetIdx, tileOrigin, tileOrientation⟩

/-- The inner loop of `Physics_LoadMapGeometry` over the placed tiles of one
tileset. -/
def loadTilesetTiles (tileset : Tileset) (width tilesetIdx : Nat)
    (tileIndices : List Nat) (tileOrigins : List (Nat × Nat))
    (tileOrientations : List TileOrientation) (tileInfo : List TileInfo) :
    Option (List TileInfo) :=
  (List.range tileIndices.length).foldlM
    (fun info i =>
      match tileIndices[i]?, tileOrigins[i]?, tileOrientations[i]? with
      | some imageTileIdx, some tileOrigin, some tileOrientation =>
        some (loadTile tileset.tiles.length width tilesetIdx imageTileIdx tileOrigin
          tileOrientation info)
      | _, _, _ => none)
    tileInfo

/-- The outer loop of `Physics_LoadMapGeometry` over the tilesets; a null
tileset is skipped. -/
def loadTilesets (tilesets : List (Option Tileset)) (mapTileIndices : List (List Nat))
    (mapTileOrigins : List (List (Nat × Nat)))
    (mapTileOrientations : List (List TileOrientation)) (width : Nat)
    (tileInfo : List TileInfo) : Option (List TileInfo) :=
  (List.range tilesets.length).foldlM
    (fun info tilesetIdx =>
      match mapTileIndices[tilesetIdx]?, mapTileOrigins[tilesetIdx]?,
          mapTileOrientations[tilesetIdx]?, tilesets[tilesetIdx]? with
      | some tileIndices, some tileOrigins, some tileOrientations, some tileset =>
        match tileset with
        | none => some info
        | some ts =>
          loadTilesetTiles ts width tilesetIdx tileIndices tileOrigins tileOrientations info
      | _, _, _, _ => none)
    tileInfo

/-- The function `Physics_LoadMapGeometry`; the result is the new value of the
process-wide layer, which is cleared first. -/
def Physics_LoadMapGeometry (tilesets : List (Option Tileset))
    (mapTileIndices : List (List Nat)) (mapTileOrigins : List (List (Nat × Nat)))
    (mapTileOrientations : List (List TileOrientation)) : Option TilemapLayer :=
  if tilesets.length ≠ mapTileOrigins.length then some TilemapLayer.cleared
  else if mapTileIndices.length ≠ mapTileOrigins.length then some TilemapLayer.cleared
  else
    let width := (mapDims mapTileOrigins).1
    let height := (mapDims mapTileOrigins).2
    match loadTilesets tilesets mapTileIndices mapTileOrigins mapTileOrientations width
        (List.replicate ((width * height) % U32) TileInfo.empty) with
    | none => none
    | some tileInfo => some ⟨tilesets, tileInfo, width⟩

/-! ### Vocabulary for the load: placed tiles and their order -/

/-- The four sequences are parallel: equally long, and so are the three inner
sequences of every tileset. -/
def Parallel (tilesets : List (Option Tileset)) (mapTileIndices : List (List Nat))
    (mapTileOrigins : List (List (Nat × Nat)))
    (mapTileOrientations : List (List TileOrientation)) : Prop :=
  mapTileIndices.length = tilesets.length ∧ mapTileOrigins.length = tilesets.length
    ∧ mapTileOrientations.length = tilesets.length
    ∧ ∀ k, k < tilesets.length →
        (mapTileOrigins.getD k []).length = (mapTileIndices.getD k []).length
          ∧ (mapTileOrientations.getD k []).length = (mapTileIndices.getD k []).length

/-- Every tileset has a number of tiles that a `size_t` other than `-1ul` can
hold. -/
def TilesetsFit (tilesets : List (Option Tileset)) : Prop :=
  ∀ k, k < tilesets.length →
    match tilesets.getD k none with
    | some ts => ts.tiles.length ≤ SENTINEL
    | none => True

/-- The cell written for placed tile `i` of tileset `k`, when that tile exists,
its tileset is not null and its image tile index is within the tileset. -/
def placedTile (tilesets : List (Option Tileset)) (mapTileIndices : List (List Nat))
    (mapTileOrigins : List (List (Nat × Nat)))
    (mapTileOrientations : List (List TileOrientation)) (k i : Nat) : Option TileInfo :=
  match tilesets.getD k none, (mapTileIndices.getD k [])[i]?, (mapTileOrigins.getD k [])[i]?,
      (mapTileOrientations.getD k [])[i]? with
  | some ts, some imageTileIdx, some tileOrigin, some tileOrientation =>
    if imageTileIdx < ts.tiles.length
    then some ⟨imageTileIdx, k, tileOrigin, tileOrientation⟩ else none
  | _, _, _, _ => none

/-- Processing order of placed tiles: lower tileset index first, then lower
position in the sequence of the tileset. -/
def Before (k0 i0 k i : Nat) : Prop := k0 < k ∨ (k0 = k ∧ i0 < i)

/-- No valid placed tile processed before tile `i` of tileset `k` is written to
cell `c` of a grid of the given width. -/
def Unclaimed (tilesets : List (Option Tileset)) (mapTileIndices : List (List Nat))
    (mapTileOrigins : List (List (Nat × Nat)))
    (mapTileOrientations : List (List TileOrientation)) (width c k i : Nat) : Prop :=
  ∀ k0 i0 t0, Before k0 i0 k i →
    placedTile tilesets mapTileIndices mapTileOrigins mapTileOrientations k0 i0 = some t0 →
    cellIndex width t0.origin ≠ c

/-- The widest extent `origin.x + 1` over all tile origins, as a natural number
(0 when there is no origin). -/
def maxOriginX (mapTileOrigins : List (List (Nat × Nat))) : Nat :=
  (mapTileOrigins.flatten.map (fun origin => origin.1 + 1)).foldl max 0

/-- The tallest extent `origin.y + 1` over all tile origins, as a natural number
(0 when there is no origin). -/
def maxOriginY (mapTileOrigins : List (List (Nat × Nat))) : Nat :=
  (mapTileOrigins.flatten.map (fun origin => origin.2 + 1)).foldl max 0

/-- Every cell of the layer can be sampled: its tileset index is the sentinel,
or it is an index into the tilesets of the layer and either the image tile index
is the sentinel or the tileset is not null and holds the tile.  The layers
written by `Physics_LoadMapGeometry` are of this kind. -/
def LayerResolves (layer : TilemapLayer) : Prop :=
  ∀ tileInfo, tileInfo ∈ layer.tileInfo →
    tileInfo.tilesetIdx = SENTINEL
      ∨ (tileInfo.tilesetIdx < layer.tilesets.length
        ∧ (tileInfo.imageTileIdx = SENTINEL
          ∨ match layer.tilesets.getD tileInfo.tilesetIdx none with
            | some ts => tileInfo.imageTileIdx < ts.tiles.length
            | none => False))

/-- Every sample of every tile of the tilesets of the layer is zero or positive:
the samples stored by `Physics_ProcessTileset` are alpha values of an image. -/
def SamplesNonneg (layer : TilemapLayer) : Prop :=
  ∀ ts tile, some ts ∈ layer.tilesets → tile ∈ ts.tiles →
    ∀ x y, x < gridSize → y < gridSize → 0 ≤ tile.signedDistanceField x y

/-- State of one cell while the load is about to process tile `i` of tileset
`k`: either the cell is still empty and no valid tile processed so far is
written to it, or it holds the first valid tile written to it. -/
def CellInv (tilesets : List (Option Tileset)) (mapTileIndices : List (List Nat))
    (mapTileOrigins : List (List (Nat × Nat)))
    (mapTileOrientations : List (List TileOrientation)) (width k i c : Nat)
    (cur : TileInfo) : Prop :=
  (cur = TileInfo.empty
      ∧ Unclaimed tilesets mapTileIndices mapTileOrigins mapTileOrientations width c k i)
    ∨ ∃ k0 i0, Before k0 i0 k i
        ∧ placedTile tilesets mapTileIndices mapTileOrigins mapTileOrientations k0 i0 = some cur
        ∧ cellIndex width cur.origin = c
        ∧ Unclaimed tilesets mapTileIndices mapTileOrigins mapTileOrientations width c k0 i0

/-- Loop invariant of the load: the grid keeps its length and every cell
satisfies `CellInv`. -/
def LoadInv (tilesets : List (Option Tileset)) (mapTileIndices : List (List Nat))
    (mapTileOrigins : List (List (Nat × Nat)))
    (mapTileOrientations : List (List TileOrientation)) (width len k i : Nat)
    (info : List TileInfo) : Prop :=
  info.length = len ∧ ∀ c, c < len →
    ∃ cur, info[c]? = some cur
      ∧ CellInv tilesets mapTileIndices mapTileOrigins mapTileOrientations width k i c cur

/-! ## Tile queries -/

/-- A point query; the origin is a world coordinate in texels. -/
structure IntersectorPoint where
  origin : Int × Int
deriving DecidableEq, Repr

/-- A ray query between two world coordinates. -/
structure IntersectorRay where
  beginOrigin : Int × Int
  endOrigin : Int × Int
deriving DecidableEq, Repr

/-- The result of a tile query, in the field order of the aggregate
`IntersectionResults { collision, origin, imageTileIdx, tilesetIdx }`. -/
structure IntersectionResults where
  collision : Bool
  origin : Int × Int
  imageTileIdx : Nat
  tilesetIdx : Nat
deriving DecidableEq, Repr

/-- Modelled from the spec: the value `IntersectionResults {}` of a query
without a hit (the declaration used by the code is outside the sources at
hand): no collision, origin zero, no tile. -/
def IntersectionResults.noCollision : IntersectionResults :=
  ⟨false, (0, 0), SENTINEL, SENTINEL⟩

/-- The debug recorder of the scene: the queries of the current frame with
their results, points and rays apart. -/
structure DebugQueries where
  intersectorPoints : List (IntersectorPoint × IntersectionResults)
  intersectorRays : List (IntersectorRay × IntersectionResults)
deriving DecidableEq, Repr

/-- Modelled from the spec: `DebugQueries::Add` for a point (defined outside the
sources at hand) appends the pair to the accumulation buffer of the points. -/
def DebugQueries.AddPoint (queries : DebugQueries) (point : IntersectorPoint)
    (results : IntersectionResults) : DebugQueries :=
  { queries with intersectorPoints := queries.intersectorPoints ++ [(point, results)] }

/-- Modelled from the spec: `DebugQueries::Add` for a ray (defined outside the
sources at hand) appends the pair to the accumulation buffer of the rays. -/
def DebugQueries.AddRay (queries : DebugQueries) (ray : IntersectorRay)
    (results : IntersectionResults) : DebugQueries :=
  { queries with intersectorRays := queries.intersectorRays ++ [(ray, results)] }

/-- Modelled from the spec: `pul::util::CalculateTileIndices` (defined outside
the sources at hand) converts a world coordinate into the flat index of its
grid cell and the texel inside the cell; it fails when the tile coordinate is
outside `[0, width) x [0, height)`, the height being the grid length divided by
the width, or when the index exceeds the grid length. -/
def CalculateTileIndices (origin : Int × Int) (tilemapWidth tilemapLength : Nat) :
    Option (Nat × (Nat × Nat)) :=
  if origin.1 < 0 ∨ origin.2 < 0 then none
  else
    let tileX := origin.1.toNat / 32
    let tileY := origin.2.toNat / 32
    if tilemapWidth ≤ tileX ∨ tilemapLength / tilemapWidth ≤ tileY then none
    else
      let tileIdx := tileY * tilemapWidth + tileX
      if tilemapLength < tileIdx then none
      else some (tileIdx, (origin.1.toNat % 32, origin.2.toNat % 32))

/-- Fuel-bounded walk of the integer line algorithm: visit the current cell,
stop at the end point, otherwise step along x, y or both by the error term. -/
def bresenhamWalk (x1 y1 dx dy sx sy : Int) : Nat → Int → Int → Int → List (Int × Int)
  | 0, _, _, _ => []
  | fuel + 1, x, y, err =>
    if x = x1 ∧ y = y1 then [(x, y)]
    else
      let e2 := 2 * err
      let stepX := decide (dy ≤ e2)
      let stepY := decide (e2 ≤ dx)
      (x, y) :: bresenhamWalk x1 y1 dx dy sx sy fuel
        (if stepX then x + sx else x) (if stepY then y + sy else y)
        ((if stepX then err + dy else err) + (if stepY then dx else 0))

/-- Modelled from the spec: `pul::physics::BresenhamLine` (defined outside the
sources at hand), the cells of the discretised line from the begin point to the
end point in the order in which the callback is invoked on them. -/
def BresenhamLine (f0 f1 : Int × Int) : List (Int × Int) :=
  let dx : Int := |f1.1 - f0.1|
  let dy : Int := -|f1.2 - f0.2|
  bresenhamWalk f1.1 f1.2 dx dy (if f0.1 < f1.1 then 1 else -1) (if f0.2 < f1.2 then 1 else -1)
    (dx.toNat + (-dy).toNat + 1) f0.1 f0.2 (dx + dy)

/-- The sample of the texel at a world coordinate: the tile lookup followed by
`CalculateSdfDistance`; `none` when the coordinate is outside the grid. -/
def sampleAt (layer : TilemapLayer) (origin : Int × Int) : Option ℚ :=
  match CalculateTileIndices origin layer.width layer.tileInfo.length with
  | none => none
  | some (tileIdx, texelOrigin) =>
    match layer.tileInfo[tileIdx]? with
    | none => none
    | some tileInfo => CalculateSdfDistance layer tileInfo texelOrigin

/-- The grid cell that contains a world coordinate with non-negative
components. -/
def cellOf (layer : TilemapLayer) (origin : Int × Int) : Option TileInfo :=
  layer.tileInfo[(origin.2.toNat / 32) * layer.width + origin.1.toNat / 32]?

/-- The callback that `Physics_IntersectionRaycast` hands to `BresenhamLine`,
as a transformer of the results captured by reference. -/
def raycastVisit (layer : TilemapLayer) (intersectionResults : IntersectionResults)
    (origin : Int × Int) : Option IntersectionResults :=
  if intersectionResults.collision then some intersectionResults
  else
    match CalculateTileIndices origin layer.width layer.tileInfo.length with
    | none => some intersectionResults
    | some (tileIdx, texelOrigin) =>
      if ¬ layer.tileInfo.length > tileIdx then some intersectionResults
      else
        match layer.tileInfo[tileIdx]? with
        | none => none
        | some tileInfo =>
          match CalculateSdfDistance layer tileInfo texelOrigin with
          | none => none
          | some distance =>
            if distance > 0
            then some ⟨true, origin, tileInfo.imageTileIdx, tileInfo.tilesetIdx⟩
            else some intersectionResults

/-- The callback that `Physics_InverseSceneIntersectionRaycast` hands to
`BresenhamLine`. -/
def inverseRaycastVisit (layer : TilemapLayer) (intersectionResults : IntersectionResults)
    (origin : Int × Int) : Option IntersectionResults :=
  if intersectionResults.collision then some intersectionResults
  else
    match CalculateTileIndices origin layer.width layer.tileInfo.length with
    | none => some intersectionResults
    | some (tileIdx, texelOrigin) =>
      if ¬ layer.tileInfo.length > tileIdx then some intersectionResults
      else
        match layer.tileInfo[tileIdx]? with
        | none => none
        | some tileInfo =>
          match CalculateSdfDistance layer tileInfo texelOrigin with
          | none => none
          | some distance =>
            if distance = 0
            then some ⟨true, origin, tileInfo.imageTileIdx, tileInfo.tilesetIdx⟩
            else some intersectionResults

/-- The function `Physics_IntersectionRaycast`.  `line` is the cell enumeration
`BresenhamLine`; the result is the returned flag, the results written through
the reference and the recorder after the call. -/
def Physics_IntersectionRaycast (line : Int × Int → Int × Int → List (Int × Int))
    (layer : TilemapLayer) (queries : DebugQueries) (ray : IntersectorRay) :
    Option (Bool × IntersectionResults × DebugQueries) :=
  match (line ray.beginOrigin ray.endOrigin).foldlM (raycastVisit layer)
      IntersectionResults.noCollision with
  | none => none
  | some intersectionResults =>
    some (intersectionResults.collision, intersectionResults,
      queries.AddRay ray intersectionResults)

/-- The function `Physics_InverseSceneIntersectionRaycast`, with the same
conventions as `Physics_IntersectionRaycast`. -/
def Physics_InverseSceneIntersectionRaycast
    (line : Int × Int → Int × Int → List (Int × Int))
    (layer : TilemapLayer) (queries : DebugQueries) (ray : IntersectorRay) :
    Option (Bool × IntersectionResults × DebugQueries) :=
  match (line ray.beginOrigin ray.endOrigin).foldlM (inverseRaycastVisit layer)
      IntersectionResults.noCollision with
  | none => none
  | some intersectionResults =>
    some (intersectionResults.collision, intersectionResults,
      queries.AddRay ray intersectionResults)

/-- The function `Physics_IntersectionPoint`: the returned flag, the results
written through the reference and the recorder after the call. -/
def Physics_IntersectionPoint (layer : TilemapLayer) (queries : DebugQueries)
    (point : IntersectorPoint) : Option (Bool × IntersectionResults × DebugQueries) :=
  match CalculateTileIndices point.origin layer.width layer.tileInfo.length with
  | none =>
    some (false, IntersectionResults.noCollision,
      queries.AddPoint point IntersectionResults.noCollision)
  | some (tileIdx, texelOrigin) =>
    if ¬ layer.tileInfo.length > tileIdx
    then some (false, IntersectionResults.noCollision, queries)
    else
      match layer.tileInfo[tileIdx]? with
      | none => none
      | some tileInfo =>
        match CalculateSdfDistance layer tileInfo texelOrigin with
        | none => none
        | some distance =>
          if distance > 0 then
            some (true, ⟨true, point.origin, tileInfo.imageTileIdx, tileInfo.tilesetIdx⟩,
              queries.AddPoint point
                ⟨true, point.origin, tileInfo.imageTileIdx, tileInfo.tilesetIdx⟩)
          else
            some (false, IntersectionResults.noCollision,
              queries.AddPoint point IntersectionResults.noCollision)

/-- The common shape of the two ray callbacks: the walk stops at the first cell
of the grid whose sample satisfies `stop`. -/
def visitWith (stop : ℚ → Prop) [DecidablePred stop] (layer : TilemapLayer)
    (intersectionResults : IntersectionResults) (origin : Int × Int) :
    Option IntersectionResults :=
  if intersectionResults.collision then some intersectionResults
  else
    match CalculateTileIndices origin layer.width layer.tileInfo.length with
    | none => some intersectionResults
    | some (tileIdx, texelOrigin) =>
      if ¬ layer.tileInfo.length > tileIdx then some intersectionResults
      else
        match layer.tileInfo[tileIdx]? with
        | none => none
        | some tileInfo =>
          match CalculateSdfDistance layer tileInfo texelOrigin with
          | none => none
          | some distance =>
            if stop distance
            then some ⟨true, origin, tileInfo.imageTileIdx, tileInfo.tilesetIdx⟩
            else some intersectionResults

/-- The texel at a world coordinate is solid: it lies in the grid and its sample
is positive. -/
def Solid (layer : TilemapLayer) (origin : Int × Int) : Prop :=
  ∃ d, sampleAt layer origin = some d ∧ 0 < d

/-- The texel at a world coordinate lies in the grid and its sample is zero or
negative. -/
def NonSolid (layer : TilemapLayer) (origin : Int × Int) : Prop :=
  ∃ d, sampleAt layer origin = some d ∧ d ≤ 0

/-- The texel at a world coordinate lies in the grid and its sample is exactly
zero. -/
def ZeroSample (layer : TilemapLayer) (origin : Int × Int) : Prop :=
  sampleAt layer origin = some 0

/-- A tileset list with a single tileset of one tile, used in the examples. -/
def exampleTilesets : List (Option Tileset) := [some ⟨[Tile.fresh]⟩]

/-- An image of two 32x32 blocks side by side whose pixel `n` has alpha `n`. -/
def exampleImage : Image := ⟨64, 32, (List.range 2048).map (fun (n : Nat) => (n : ℚ))⟩

/-- A layer of two cells side by side: the left one empty, the right one a tile
all of whose samples are `1`. -/
def solidLayer : TilemapLayer :=
  ⟨[some ⟨[⟨fun _ _ => 1⟩]⟩], [TileInfo.empty, ⟨0, 0, (1, 0), TileOrientation.None⟩], 2⟩

/-- A layer of one cell that refers to a tile all of whose samples are `-1`. -/
def negativeLayer : TilemapLayer :=
  ⟨[some ⟨[⟨fun _ _ => -1⟩]⟩], [⟨0, 0, (0, 0), TileOrientation.None⟩], 1⟩

/-! ## Entity queries: rays and circles against hitboxes

The `float` arithmetic of these functions is embedded as exact arithmetic in a
linearly ordered field `F`; rounding and overflow of the machine arithmetic are
not represented.  The square root used by `glm::length` and `glm::normalize`
is the parameter `sqrt`. -/

/-- The library function `glm::length` of a 2-vector. -/
def vlength {F : Type} [LinearOrderedField F] (sqrt : F → F) (v : F × F) : F :=
  sqrt (v.1 * v.1 + v.2 * v.2)

/-- The library function `glm::normalize` of a 2-vector: the vector times the
inverse square root of its dot product with itself.  On the zero vector the
machine result is NaN; the embedding has the field value `0 * (1 / sqrt 0)`
there. -/
def vnormalize {F : Type} [LinearOrderedField F] (sqrt : F → F) (v : F × F) : F × F :=
  (v.1 * (1 / sqrt (v.1 * v.1 + v.2 * v.2)), v.2 * (1 / sqrt (v.1 * v.1 + v.2 * v.2)))

/-- The function `GetAabbMin`. -/
def GetAabbMin {F : Type} [LinearOrderedField F] (aabbOrigin aabbDim : F × F) : F × F :=
  let p0 : F × F := (aabbOrigin.1 - aabbDim.1 / 2, aabbOrigin.2 - aabbDim.2 / 2)
  let p1 : F × F := (aabbOrigin.1 + aabbDim.1 / 2, aabbOrigin.2 + aabbDim.2 / 2)
  (min p0.1 p1.1, min p0.2 p1.2)

/-- The function `GetAabbMax`. -/
def GetAabbMax {F : Type} [LinearOrderedField F] (aabbOrigin aabbDim : F × F) : F × F :=
  let p0 : F × F := (aabbOrigin.1 - aabbDim.1 / 2, aabbOrigin.2 - aabbDim.2 / 2)
  let p1 : F × F := (aabbOrigin.1 + aabbDim.1 / 2, aabbOrigin.2 + aabbDim.2 / 2)
  (max p0.1 p1.1, max p0.2 p1.2)

/-- The part of `IntersectionRayAabb` that follows the `normalize` call, for a
given normalised direction `normal` and a given value `len` of
`glm::length(rayEnd - rayBegin)`.  The second component is the value written to
`intersectionLength`, `none` when the function returns before writing it. -/
def rayAabbSlab {F : Type} [LinearOrderedField F] (normal : F × F) (len : F)
    (rayBegin aabbOrigin aabbDim : F × F) : Bool × Option F :=
  let normal : F × F :=
    (if normal.1 = 0 then 1 else 1 / normal.1, if normal.2 = 0 then 1 else 1 / normal.2)
  let minT : F × F :=
    (((GetAabbMin aabbOrigin aabbDim).1 - rayBegin.1) * normal.1,
      ((GetAabbMin aabbOrigin aabbDim).2 - rayBegin.2) * normal.2)
  let maxT : F × F :=
    (((GetAabbMax aabbOrigin aabbDim).1 - rayBegin.1) * normal.1,
      ((GetAabbMax aabbOrigin aabbDim).2 - rayBegin.2) * normal.2)
  let tmin := max (min minT.1 maxT.1) (min minT.2 maxT.2)
  let tmax := min (max minT.1 maxT.1) (max minT.2 maxT.2)
  if tmax < 0 ∨ tmin > tmax then (false, none)
  else
    let t := if tmin < 0 then tmax else tmin
    (decide (t > 0 ∧ t < len), some t)

/-- The function `IntersectionRayAabb`: the returned flag and the value written
to `intersectionLength`. -/
def IntersectionRayAabb {F : Type} [LinearOrderedField F] (sqrt : F → F)
    (rayBegin rayEnd aabbOrigin aabbDim : F × F) : Bool × Option F :=
  rayAabbSlab (vnormalize sqrt (rayEnd.1 - rayBegin.1, rayEnd.2 - rayBegin.2))
    (vlength sqrt (rayEnd.1 - rayBegin.1, rayEnd.2 - rayBegin.2))
    rayBegin aabbOrigin aabbDim

/-- The library function `glm::clamp` on one component. -/
def glmClamp {F : Type} [LinearOrderedField F] (x lo hi : F) : F := min (max x lo) hi

/-- The function `IntersectionCircleAabb`: the returned flag and the value
written to `closestOrigin`. -/
def IntersectionCircleAabb {F : Type} [LinearOrderedField F] (sqrt : F → F)
    (circleOrigin : F × F) (circleRadius : F) (aabbOrigin aabbDim : F × F) :
    Bool × (F × F) :=
  let closestOrigin : F × F :=
    (glmClamp circleOrigin.1 (GetAabbMin aabbOrigin aabbDim).1 (GetAabbMax aabbOrigin aabbDim).1,
      glmClamp circleOrigin.2 (GetAabbMin aabbOrigin aabbDim).2
        (GetAabbMax aabbOrigin aabbDim).2)
  (decide (vlength sqrt (circleOrigin.1 - closestOrigin.1, circleOrigin.2 - closestOrigin.2)
      ≤ circleRadius), closestOrigin)

/-- The library function `glm::round` followed by the conversion to a 32-bit
integer: the nearest integer, halves away from zero.  Values outside the range
of the integer type are not represented. -/
def glmRound {F : Type} [LinearOrderedField F] [FloorRing F] (x : F) : Int :=
  if 0 ≤ x then ⌊x + 1 / 2⌋ else ⌈x - 1 / 2⌉

/-- One element of the registry view over `ComponentHitboxAABB` and
`ComponentOrigin`: the entity handle, the integer dimensions of its hitbox and
its origin.  The view is the list of these elements in iteration order. -/
structure HitboxEntity (F : Type) where
  entity : Nat
  dimensions : Int × Int
  origin : F × F

/-- A circle query: integer centre and radius. -/
structure IntersectorCircle (F : Type) where
  origin : Int × Int
  radius : F

/-- The results of an entity query: the collision flag and the entities hit,
each with an integer coordinate. -/
structure EntityIntersectionResults where
  collision : Bool
  entities : List ((Int × Int) × Nat)
deriving DecidableEq, Repr

/-- The body of the loop of `Physics_EntityIntersectionRaycast` for one entity
of the view. -/
def entityRaycastStep {F : Type} [LinearOrderedField F] [FloorRing F] (sqrt : F → F)
    (rayOriginBegin rayOriginEnd : F × F) (results : EntityIntersectionResults)
    (e : HitboxEntity F) : EntityIntersectionResults :=
  match IntersectionRayAabb sqrt rayOriginBegin rayOriginEnd e.origin
      ((e.dimensions.1 : F), (e.dimensions.2 : F)) with
  | (true, some intersectionLength) =>
    let direction := vnormalize sqrt
      (rayOriginEnd.1 - rayOriginBegin.1, rayOriginEnd.2 - rayOriginBegin.2)
    let intersectionOrigin : F × F :=
      (rayOriginBegin.1 + intersectionLength * direction.1,
        rayOriginBegin.2 + intersectionLength * direction.2)
    { collision := true,
      entities := results.entities
        ++ [((glmRound intersectionOrigin.1, glmRound intersectionOrigin.2), e.entity)] }
  | _ => results

/-- The function `Physics_EntityIntersectionRaycast`: the results object after
the call, given the one passed in. -/
def Physics_EntityIntersectionRaycast {F : Type} [LinearOrderedField F] [FloorRing F]
    (sqrt : F → F) (view : List (HitboxEntity F)) (ray : IntersectorRay)
    (intersectionResults : EntityIntersectionResults) : EntityIntersectionResults :=
  view.foldl
    (entityRaycastStep sqrt ((ray.beginOrigin.1 : F), (ray.beginOrigin.2 : F))
      ((ray.endOrigin.1 : F), (ray.endOrigin.2 : F)))
    { intersectionResults with entities := [] }

/-- The body of the loop of `Physics_EntityIntersectionCircle` for one entity of
the view. -/
def entityCircleStep {F : Type} [LinearOrderedField F] [FloorRing F] (sqrt : F → F)
    (circle : IntersectorCircle F) (results : EntityIntersectionResults)
    (e : HitboxEntity F) : EntityIntersectionResults :=
  match IntersectionCircleAabb sqrt ((circle.origin.1 : F), (circle.origin.2 : F))
      circle.radius e.origin ((e.dimensions.1 : F), (e.dimensions.2 : F)) with
  | (true, closestOrigin) =>
    { collision := true,
      entities := results.entities
        ++ [((glmRound closestOrigin.1, glmRound closestOrigin.2), e.entity)] }
  | (false, _) => results

/-- The function `Physics_EntityIntersectionCircle`: the results object after
the call, given the one passed in. -/
def Physics_EntityIntersectionCircle {F : Type} [LinearOrderedField F] [FloorRing F]
    (sqrt : F → F) (view : List (HitboxEntity F)) (circle : IntersectorCircle F)
    (intersectionResults : EntityIntersectionResults) : EntityIntersectionResults :=
  view.foldl (entityCircleStep sqrt circle) { intersectionResults with entities := [] }

/-- The last statements of `IntersectionRayAabb`, from the test on `tmin` and
`tmax` on. -/
def slabResult {F : Type} [LinearOrderedField F] (tmin tmax len : F) : Bool × Option F :=
  if tmax < 0 ∨ tmin > tmax then (false, none)
  else
    let t := if tmin < 0 then tmax else tmin
    (decide (t > 0 ∧ t < len), some t)

/-- The reciprocal direction of `IntersectionRayAabb` on one axis. -/
def slabInverse {F : Type} [LinearOrderedField F] (n : F) : F := if n = 0 then 1 else 1 / n

/-- A point lies inside the extent of an AABB, borders included. -/
def InsideAabb {F : Type} [LinearOrderedField F] (p aabbOrigin aabbDim : F × F) : Prop :=
  (GetAabbMin aabbOrigin aabbDim).1 ≤ p.1 ∧ p.1 ≤ (GetAabbMax aabbOrigin aabbDim).1
    ∧ (GetAabbMin aabbOrigin aabbDim).2 ≤ p.2 ∧ p.2 ≤ (GetAabbMax aabbOrigin aabbDim).2

/-- The corner of an AABB selected by two flags: `false` is the side
`origin - dim/2`, `true` the side `origin + dim/2`. -/
def aabbCorner {F : Type} [LinearOrderedField F] (aabbOrigin aabbDim : F × F)
    (right top : Bool) : F × F :=
  (if right then aabbOrigin.1 + aabbDim.1 / 2 else aabbOrigin.1 - aabbDim.1 / 2,
    if top then aabbOrigin.2 + aabbDim.2 / 2 else aabbOrigin.2 - aabbDim.2 / 2)

/-- The point of its AABB closest to a point: the point clamped to the box. -/
def closestPoint {F : Type} [LinearOrderedField F] (e : HitboxEntity F) (c : F × F) : F × F :=
  (min (max c.1 (GetAabbMin e.origin ((e.dimensions.1 : F), (e.dimensions.2 : F))).1)
      (GetAabbMax e.origin ((e.dimensions.1 : F), (e.dimensions.2 : F))).1,
    min (max c.2 (GetAabbMin e.origin ((e.dimensions.1 : F), (e.dimensions.2 : F))).2)
      (GetAabbMax e.origin ((e.dimensions.1 : F), (e.dimensions.2 : F))).2)

/-- What the spec prescribes for the circle query: the entities of the view, in
order, whose closest point lies at distance at most the radius from the centre,
each tagged with the rounded closest point. -/
def circleHits {F : Type} [LinearOrderedField F] [FloorRing F] (sqrt : F → F)
    (view : List (HitboxEntity F)) (circle : IntersectorCircle F) :
    List ((Int × Int) × Nat) :=
  let c : F × F := ((circle.origin.1 : F), (circle.origin.2 : F))
  (view.filter (fun e =>
      decide (vlength sqrt (c.1 - (closestPoint e c).1, c.2 - (closestPoint e c).2)
        ≤ circle.radius))).map
    (fun e => ((glmRound (closestPoint e c).1, glmRound (closestPoint e c).2), e.entity))

/-! ## Player movement

`plugin::entity::UpdatePlayer` of `plugins/entity/src/player.cpp`, from the
velocity check to the collision response.  The velocity read at the start of a
tick is a machine `float` that may be infinite or NaN; after the check it is
finite, and the arithmetic of the rest of the tick is embedded as exact
arithmetic in a linearly ordered field `F`.  The physics plugin, the `glm`
functions and the frame time `MsPerFrame()` are parameters.  Of the animation
block only the write to `player.landing` is kept. -/

/-- A machine float as read by the velocity check: a finite value, an infinity
or NaN. -/
inductive FloatVal (F : Type) where
  | finite (x : F)
  | posInf
  | negInf
  | nan
deriving DecidableEq, Repr

/-- The library function `glm::isnan`. -/
def FloatVal.isnan {F : Type} : FloatVal F → Bool
  | FloatVal.nan => true
  | _ => false

/-- The library function `glm::isinf`. -/
def FloatVal.isinf {F : Type} : FloatVal F → Bool
  | FloatVal.posInf => true
  | FloatVal.negInf => true
  | _ => false

/-- The test `glm::abs(v) > bound`: true for a finite value of larger magnitude
and for both infinities, false for NaN. -/
def FloatVal.absGt {F : Type} [LinearOrderedField F] (v : FloatVal F) (bound : F) : Bool :=
  match v with
  | FloatVal.finite x => decide (|x| > bound)
  | FloatVal.posInf => true
  | FloatVal.negInf => true
  | FloatVal.nan => false

/-- The value of a finite float; the velocity is finite after the check, the
default is never used on it. -/
def FloatVal.toField {F : Type} [LinearOrderedField F] : FloatVal F → F
  | FloatVal.finite x => x
  | _ => 0

/-- The enum `Controller::Movement`: `Left` and `Up` are `-1`, `Right` and `Down`
are `+1`, `None` is `0`. -/
inductive Movement where
  | Negative
  | None
  | Positive
deriving DecidableEq, Repr

/-- The integer value of a movement. -/
def Movement.toInt : Movement → Int
  | Movement.Negative => -1
  | Movement.None => 0
  | Movement.Positive => 1

/-- The fields of `Controller::Frame` that `UpdatePlayer` reads before the
animation block. -/
structure ControllerFrame where
  movementHorizontal : Movement
  movementVertical : Movement
  jump : Bool
  dash : Bool
  crouch : Bool
  walk : Bool
deriving DecidableEq, Repr

/-- The tunable variables declared at the top of `player.cpp`. -/
structure PlayerConfig (F : Type) where
  maxAirDashes : Int
  inputGroundAccelTime : F
  inputGroundAccelMultiplier : F
  inputAirAccelMultiplier : F
  inputWalkAccelMultiplier : F
  inputCrouchAccelMultiplier : F
  gravity : F
  jumpingHorizontalAccel : F
  jumpingHorizontalAccelMax : F
  jumpingVerticalAccel : F
  jumpingHorizontalTheta : F
  friction : F
  dashMultiplier : F
  dashMinimumVelocity : F
  dashCooldown : F
  horizontalGroundedVelocityStop : F

/-- The initial values of the tunable variables. -/
def PlayerConfig.initial (F : Type) [LinearOrderedField F] : PlayerConfig F :=
  { maxAirDashes := 1,
    inputGroundAccelTime := 244,
    inputGroundAccelMultiplier := 335 / 1000,
    inputAirAccelMultiplier := 5 / 100,
    inputWalkAccelMultiplier := 4 / 10,
    inputCrouchAccelMultiplier := 2 / 10,
    gravity := 3 / 10,
    jumpingHorizontalAccel := 6,
    jumpingHorizontalAccelMax := 7,
    jumpingVerticalAccel := 9,
    jumpingHorizontalTheta := 65,
    friction := 9 / 10,
    dashMultiplier := 1,
    dashMinimumVelocity := 6,
    dashCooldown := 300,
    horizontalGroundedVelocityStop := 1 / 2 }

/-- The `glm` functions used by `UpdatePlayer`. -/
structure GlmLib (F : Type) where
  sqrt : F → F
  sin : F → F
  cos : F → F
  radians : F → F

/-- The physics plugin as seen by `UpdatePlayer`: the point query on the float
position handed to it, `IntersectorRay::Construct`, and the ray query with its
results. -/
structure PhysicsPlugin (F : Type) where
  IntersectionPoint : F × F → Bool
  Construct : F × F → F × F → IntersectorRay
  IntersectionRaycast : IntersectorRay → Bool × IntersectionResults

/-- The fields of `ComponentPlayer` that the movement code reads or writes. -/
structure Player (F : Type) where
  origin : F × F
  velocity : FloatVal F × FloatVal F
  storedVelocity : F × F
  grounded : Bool
  jumping : Bool
  landing : Bool
  runTimer : F
  dashCooldown : F
  midairDashesLeft : Int

/-- The player and the local variables of `UpdatePlayer` in the course of a
tick. -/
structure TickState (F : Type) where
  origin : F × F
  velocity : F × F
  storedVelocity : F × F
  grounded : Bool
  jumping : Bool
  landing : Bool
  runTimer : F
  dashCooldown : F
  midairDashesLeft : Int
  frameVerticalJump : Bool
  frameHorizontalJump : Bool
  frameVerticalDash : Bool
  frameHorizontalDash : Bool
  prevGrounded : Bool
  frameStartGrounded : Bool

/-- The library function `glm::sign`. -/
def glmSign {F : Type} [LinearOrderedField F] (x : F) : F :=
  if 0 < x then 1 else if x < 0 then -1 else 0

/-- The error checking at the start of `UpdatePlayer`: the velocity and the
stored velocity after the three tests. -/
def sanitizeVelocity {F : Type} [LinearOrderedField F] (velocity : FloatVal F × FloatVal F)
    (storedVelocity : F × F) : (FloatVal F × FloatVal F) × (F × F) :=
  let vx := if velocity.1.absGt 1000 then FloatVal.finite 0 else velocity.1
  let vy := if velocity.2.absGt 1000 then FloatVal.finite 0 else velocity.2
  if vx.isnan ∨ vy.isnan ∨ vx.isinf ∨ vy.isinf
  then ((FloatVal.finite 0, FloatVal.finite 0), (0, 0))
  else ((vx, vy), storedVelocity)

/-- The start of a tick: the velocity check, the four frame flags and
`prevGrounded`. -/
def tickStart {F : Type} [LinearOrderedField F] (player : Player F) : TickState F :=
  { origin := player.origin,
    velocity := ((sanitizeVelocity player.velocity player.storedVelocity).1.1.toField,
      (sanitizeVelocity player.velocity player.storedVelocity).1.2.toField),
    storedVelocity := (sanitizeVelocity player.velocity player.storedVelocity).2,
    grounded := player.grounded,
    jumping := player.jumping,
    landing := player.landing,
    runTimer := player.runTimer,
    dashCooldown := player.dashCooldown,
    midairDashesLeft := player.midairDashesLeft,
    frameVerticalJump := false,
    frameHorizontalJump := false,
    frameVerticalDash := false,
    frameHorizontalDash := false,
    prevGrounded := player.grounded,
    frameStartGrounded := player.grounded }

/-- The ground check and the capture of `frameStartGrounded`. -/
def groundTest {F : Type} [LinearOrderedField F] (physics : PhysicsPlugin F)
    (s : TickState F) : TickState F :=
  let grounded :=
    if s.velocity.2 ≥ 0 then physics.IntersectionPoint (s.origin.1, s.origin.2 + 1)
    else s.grounded
  { s with grounded := grounded, frameStartGrounded := grounded }

/-- Gravity and jumping. -/
def processJump {F : Type} [LinearOrderedField F] (glm : GlmLib F) (cfg : PlayerConfig F)
    (controller : ControllerFrame) (s : TickState F) : TickState F :=
  let velocity : F × F :=
    if s.grounded then s.velocity else (s.velocity.1, s.velocity.2 + cfg.gravity)
  let jumping := controller.jump
  let storedVelocity := if jumping then s.storedVelocity else velocity
  if s.grounded ∧ jumping then
    if controller.movementHorizontal = Movement.None then
      { s with
        velocity := (velocity.1, -cfg.jumpingVerticalAccel),
        storedVelocity := storedVelocity,
        jumping := jumping,
        frameVerticalJump := true,
        grounded := false }
    else
      let thetaRad := glm.radians cfg.jumpingHorizontalTheta
      let vy := velocity.2 + -cfg.jumpingHorizontalAccel * glm.sin thetaRad
      let vx := storedVelocity.1
      let vx :=
        if |vx| < cfg.jumpingHorizontalAccelMax
        then vx + glmSign ((controller.movementHorizontal.toInt : F))
          * cfg.jumpingHorizontalAccel * glm.cos thetaRad
        else vx
      { s with
        velocity := (vx, vy),
        storedVelocity := storedVelocity,
        jumping := jumping,
        frameHorizontalJump := true,
        grounded := false }
  else
    { s with velocity := velocity, storedVelocity := storedVelocity, jumping := jumping }

/-- Horizontal movement, friction and the horizontal ground stop. -/
def processHorizontal {F : Type} [LinearOrderedField F] (cfg : PlayerConfig F)
    (msPerFrame : F) (controller controllerPrev : ControllerFrame) (s : TickState F) :
    TickState F :=
  let inputAccel : F := (controller.movementHorizontal.toInt : F)
  let runTimer :=
    if controllerPrev.movementHorizontal ≠ controller.movementHorizontal
        ∨ controller.movementHorizontal = Movement.None
    then 0 else min (s.runTimer + msPerFrame) cfg.inputGroundAccelTime
  let inputAccel :=
    if s.grounded
    then inputAccel * ((runTimer / cfg.inputGroundAccelTime) * cfg.inputGroundAccelMultiplier)
    else inputAccel * cfg.inputAirAccelMultiplier
  let inputAccel := if controller.walk then inputAccel * cfg.inputWalkAccelMultiplier
    else inputAccel
  let inputAccel := if controller.crouch then inputAccel * cfg.inputWalkAccelMultiplier
    else inputAccel
  let vx := s.velocity.1 + inputAccel
  let vx := if s.grounded ∧ ¬ s.jumping then vx * cfg.friction else vx
  let vx :=
    if inputAccel = 0 ∧ s.grounded ∧ |vx| < cfg.horizontalGroundedVelocityStop then 0 else vx
  { s with runTimer := runTimer, velocity := (vx, s.velocity.2) }

/-- The dash cooldown after the decrement of this tick. -/
def cooldownAfterDecrement {F : Type} [LinearOrderedField F] (msPerFrame dashCooldown : F) : F :=
  if dashCooldown > 0 then dashCooldown - msPerFrame else dashCooldown

/-- The air-dash budget after the reset of this tick. -/
def dashesAfterReset (maxAirDashes : Int) (frameStartGrounded : Bool)
    (midairDashesLeft : Int) : Int :=
  if frameStartGrounded then maxAirDashes else midairDashesLeft

/-- The condition of the dash block. -/
def dashCondition {F : Type} [LinearOrderedField F] (cfg : PlayerConfig F) (msPerFrame : F)
    (controller controllerPrev : ControllerFrame) (s : TickState F) : Prop :=
  controllerPrev.dash = false ∧ controller.dash = true
    ∧ cooldownAfterDecrement msPerFrame s.dashCooldown ≤ 0
    ∧ dashesAfterReset cfg.maxAirDashes s.frameStartGrounded s.midairDashesLeft > 0

/-- The direction handed to `glm::normalize` by the dash block. -/
def dashDirection {F : Type} [LinearOrderedField F] (controller : ControllerFrame)
    (grounded : Bool) : F × F :=
  ((controller.movementHorizontal.toInt : F),
    if grounded then (controller.movementVertical.toInt : F) - 1 / 2
    else (controller.movementVertical.toInt : F))

/-- The velocity set by the dash block. -/
def dashVelocity {F : Type} [LinearOrderedField F] (glm : GlmLib F) (cfg : PlayerConfig F)
    (controller : ControllerFrame) (s : TickState F) : F × F :=
  let velocityMultiplier :=
    max (cfg.dashMultiplier + vlength glm.sqrt s.velocity) cfg.dashMinimumVelocity
  let direction := vnormalize glm.sqrt (dashDirection controller s.grounded)
  (velocityMultiplier * direction.1, velocityMultiplier * direction.2)

/-- Dashing: the cooldown decrement, the reset of the air-dash budget and the
dash block. -/
def processDash {F : Type} [LinearOrderedField F] (glm : GlmLib F) (cfg : PlayerConfig F)
    (msPerFrame : F) (controller controllerPrev : ControllerFrame) (s : TickState F) :
    TickState F :=
  let dashCooldown := if s.dashCooldown > 0 then s.dashCooldown - msPerFrame
    else s.dashCooldown
  let midairDashesLeft := if s.frameStartGrounded then cfg.maxAirDashes
    else s.midairDashesLeft
  if controllerPrev.dash = false ∧ controller.dash = true ∧ dashCooldown ≤ 0
      ∧ midairDashesLeft > 0 then
    { s with
      frameVerticalDash :=
        decide (controller.movementHorizontal = Movement.None) || s.frameVerticalDash,
      frameHorizontalDash :=
        decide (controller.movementHorizontal ≠ Movement.None) || s.frameHorizontalDash,
      velocity := dashVelocity glm cfg controller s,
      grounded := false,
      dashCooldown := cfg.dashCooldown,
      midairDashesLeft := midairDashesLeft - 1 }
  else
    { s with dashCooldown := dashCooldown, midairDashesLeft := midairDashesLeft }

/-- The redirection of one velocity component after a probe ray hit at
coordinate `hit`. -/
def redirectVelocity {F : Type} [LinearOrderedField F] (origin hit v : F) : F :=
  if origin < hit then min 0 v else if origin > hit then max 0 v else 0

/-- The block "apply physics": the free movement check, the clamp of the
position and the two probe rays. -/
def applyPhysics {F : Type} [LinearOrderedField F] (physics : PhysicsPlugin F)
    (s : TickState F) : TickState F :=
  let groundedFloorOrigin : F × F := (s.origin.1, s.origin.2 - 2)
  let ray := physics.Construct groundedFloorOrigin
    (groundedFloorOrigin.1 + s.velocity.1, groundedFloorOrigin.2 + s.velocity.2)
  match physics.IntersectionRaycast ray with
  | (false, _) =>
    { s with origin := (s.origin.1 + s.velocity.1, s.origin.2 + s.velocity.2) }
  | (true, results) =>
    let originX : F :=
      if ray.beginOrigin.1 < ray.endOrigin.1 then (results.origin.1 : F) - 1
      else if ray.beginOrigin.1 > ray.endOrigin.1 then (results.origin.1 : F) + 1
      else s.origin.1
    let originY : F :=
      if ray.beginOrigin.2 < ray.endOrigin.2 then (results.origin.2 : F) - 1
      else if ray.beginOrigin.2 > ray.endOrigin.2 then (results.origin.2 : F) + 3
      else s.origin.2
    let rayY := physics.Construct (originX, originY + 1) (originX, originY + -3)
    let velocityY : F :=
      match physics.IntersectionRaycast rayY with
      | (true, resultsY) => redirectVelocity originY (resultsY.origin.2 : F) s.velocity.2
      | (false, _) => s.velocity.2
    let rayX := physics.Construct (originX + 2, originY) (originX + -2, originY)
    let velocityX : F :=
      match physics.IntersectionRaycast rayX with
      | (true, resultsX) => redirectVelocity originX (resultsX.origin.1 : F) s.velocity.1
      | (false, _) => s.velocity.1
    { s with origin := (originX, originY), velocity := (velocityX, velocityY) }

/-- The write to `player.landing` of the animation block; `landingFinished` is
`animationFinished` of the legs after the landing animation is applied. -/
def applyLanding {F : Type} (landingFinished : Bool) (s : TickState F) : TickState F :=
  if s.grounded then
    if !s.prevGrounded || s.landing then { s with landing := !landingFinished }
    else s
  else s

/-- The tick up to the dash block: velocity check, ground check, gravity and
jumping, horizontal movement. -/
def beforeDash {F : Type} [LinearOrderedField F] (glm : GlmLib F) (cfg : PlayerConfig F)
    (msPerFrame : F) (physics : PhysicsPlugin F) (controller controllerPrev : ControllerFrame)
    (player : Player F) : TickState F :=
  processHorizontal cfg msPerFrame controller controllerPrev
    (processJump glm cfg controller (groundTest physics (tickStart player)))

/-- The block "process inputs / events" as a whole: the tick up to and including
the dash block. -/
def processInputs {F : Type} [LinearOrderedField F] (glm : GlmLib F) (cfg : PlayerConfig F)
    (msPerFrame : F) (physics : PhysicsPlugin F) (controller controllerPrev : ControllerFrame)
    (player : Player F) : TickState F :=
  processDash glm cfg msPerFrame controller controllerPrev
    (beforeDash glm cfg msPerFrame physics controller controllerPrev player)

/-- The function `UpdatePlayer`: the player and the frame flags at the end of the
tick. -/
def UpdatePlayer {F : Type} [LinearOrderedField F] (glm : GlmLib F) (cfg : PlayerConfig F)
    (msPerFrame : F) (physics : PhysicsPlugin F) (landingFinished : Bool)
    (controller controllerPrev : ControllerFrame) (player : Player F) : TickState F :=
  applyLanding landingFinished
    (applyPhysics physics
      (processInputs glm cfg msPerFrame physics controller controllerPrev player))

/-- The player component stored at the end of a tick. -/
def TickState.toPlayer {F : Type} (s : TickState F) : Player F :=
  { origin := s.origin,
    velocity := (FloatVal.finite s.velocity.1, FloatVal.finite s.velocity.2),
    storedVelocity := s.storedVelocity,
    grounded := s.grounded,
    jumping := s.jumping,
    landing := s.landing,
    runTimer := s.runTimer,
    dashCooldown := s.dashCooldown,
    midairDashesLeft := s.midairDashesLeft }

/-- A dash fired in the tick: one of the two dash flags is set. -/
def TickState.dashFired {F : Type} (s : TickState F) : Bool :=
  s.frameVerticalDash || s.frameHorizontalDash

/-- An `IntersectorRay::Construct` for the examples: both end points rounded to
integers. -/
def roundedRay {F : Type} [LinearOrderedField F] [FloorRing F] (beginOrigin endOrigin : F × F) :
    IntersectorRay :=
  ⟨(glmRound beginOrigin.1, glmRound beginOrigin.2), (glmRound endOrigin.1, glmRound endOrigin.2)⟩

/-- A scene for the examples in which no ray is obstructed; `ground` is the
answer to every point query. -/
def openScene {F : Type} [LinearOrderedField F] [FloorRing F] (ground : Bool) :
    PhysicsPlugin F :=
  { IntersectionPoint := fun _ => ground,
    Construct := roundedRay,
    IntersectionRaycast := fun _ => (false, IntersectionResults.noCollision) }

/-- A player for the examples, at rest at position `(0, 0)`. -/
def restingPlayer {F : Type} [LinearOrderedField F] (grounded : Bool) (dashCooldown : F)
    (midairDashesLeft : Int) : Player F :=
  { origin := (0, 0),
    velocity := (FloatVal.finite 0, FloatVal.finite 0),
    storedVelocity := (0, 0),
    grounded := grounded,
    jumping := false,
    landing := false,
    runTimer := 0,
    dashCooldown := dashCooldown,
    midairDashesLeft := midairDashesLeft }

/-- The controller frame with nothing pressed. -/
def idleFrame : ControllerFrame :=
  { movementHorizontal := Movement.None,
    movementVertical := Movement.None,
    jump := false,
    dash := false,
    crouch := false,
    walk := false }

/-- A controller frame with the given directions, jump and dash, and neither
crouch nor walk. -/
def pressedFrame (movementHorizontal movementVertical : Movement) (jump dash : Bool) :
    ControllerFrame :=
  { movementHorizontal := movementHorizontal,
    movementVertical := movementVertical,
    jump := jump,
    dash := dash,
    crouch := false,
    walk := false }

/-- A scene for the examples: a room whose solid surroundings are a wall filling
`x ≥ wallX`, a ceiling filling `y ≤ ceilingY` and a floor filling `y ≥ floorY`.
The ray query returns the first solid cell of a horizontal or vertical ray: the
begin point when it is solid, else the cell where the ray reaches the wall, the
ceiling or the floor. -/
def roomScene {F : Type} [LinearOrderedField F] [FloorRing F] (wallX ceilingY floorY : Int) :
    PhysicsPlugin F :=
  { IntersectionPoint := fun p =>
      decide ((wallX : F) ≤ p.1 ∨ p.2 ≤ (ceilingY : F) ∨ (floorY : F) ≤ p.2),
    Construct := roundedRay,
    IntersectionRaycast := fun ray =>
      if wallX ≤ ray.beginOrigin.1 ∨ ray.beginOrigin.2 ≤ ceilingY
          ∨ floorY ≤ ray.beginOrigin.2 then
        (true, { IntersectionResults.noCollision with
          collision := true, origin := ray.beginOrigin })
      else if ray.beginOrigin.2 = ray.endOrigin.2 then
        if wallX ≤ ray.endOrigin.1 then
          (true, { IntersectionResults.noCollision with
            collision := true, origin := (wallX, ray.beginOrigin.2) })
        else (false, IntersectionResults.noCollision)
      else if ray.endOrigin.2 ≤ ceilingY then
        (true, { IntersectionResults.noCollision with
          collision := true, origin := (ray.beginOrigin.1, ceilingY) })
      else if floorY ≤ ray.endOrigin.2 then
        (true, { IntersectionResults.noCollision with
          collision := true, origin := (ray.beginOrigin.1, floorY) })
      else (false, IntersectionResults.noCollision) }

/-- A player for the examples, in the air at position `(0, 0)`, falling at speed
`vy`, with one air-dash left and no cooldown running. -/
def fallingPlayer {F : Type} [LinearOrderedField F] (vy : F) : Player F :=
  { origin := (0, 0),
    velocity := (FloatVal.finite 0, FloatVal.finite vy),
    storedVelocity := (0, vy),
    grounded := false,
    jumping := false,
    landing := false,
    runTimer := 0,
    dashCooldown := 0,
    midairDashesLeft := 1 }

/-! ## Theorems -/

/-! ### Loops as monadic folds -/

/-- A counting loop whose body is defined and re-establishes an invariant at
every index is defined as a whole and ends in the invariant. -/
theorem foldlM_range_inv {β : Type} (f : β → Nat → Option β) (P : Nat → β → Prop)
    (n : Nat) (b0 : β) (h0 : P 0 b0)
    (hstep : ∀ i b, i < n → P i b → ∃ b1, f b i = some b1 ∧ P (i + 1) b1) :
    ∃ b1, (List.range n).foldlM f b0 = some b1 ∧ P n b1 := by
  induction n with
  | zero => exact ⟨b0, by simp, h0⟩
  | succ n ih =>
    obtain ⟨b1, h1, hp1⟩ := ih (fun i b hi hp => hstep i b (by omega) hp)
    obtain ⟨b2, h2, hp2⟩ := hstep n b1 (by omega) hp1
    refine ⟨b2, ?_, hp2⟩
    rw [List.range_succ, List.foldlM_append, h1]
    simp [h2]

/-! ### Processing a tileset image -/

theorem texelSteps_eq : texelSteps = List.range 32 := by decide

/-- Every pixel read for a texel of a whole 32x32 block lies inside the image,
and the row subtraction does not wrap. -/
theorem image_index_lt (image : Image) (tileX tileY x y : Nat)
    (htx : tileX < image.width / 32) (hty : tileY < image.height / 32)
    (hx : x < 32) (hy : y < 32) :
    tileY * 32 + y < image.height
      ∧ (image.height - (tileY * 32 + y) - 1) * image.width + (tileX * 32 + x)
          < image.width * image.height := by
  have hX : tileX * 32 + x < image.width := by omega
  have hY : tileY * 32 + y < image.height := by omega
  refine ⟨hY, ?_⟩
  have hr : image.height - (tileY * 32 + y) - 1 + 1 ≤ image.height := by omega
  have h1 : (image.height - (tileY * 32 + y) - 1 + 1) * image.width
      ≤ image.height * image.width := Nat.mul_le_mul_right _ hr
  rw [Nat.add_mul, Nat.one_mul] at h1
  rw [Nat.mul_comm image.width image.height]
  omega

/-- The texel body on a texel of the 32x32 grid: the pixel is read and written
at the same coordinates of the tile. -/
theorem processTexel_eq (image : Image) (tileX tileY texelX texelY : Nat) (tile : Tile)
    (alpha : ℚ) (hx : texelX < 32) (hy : texelY < 32)
    (hread : image.data[(image.height - (tileY * 32 + texelY) - 1) * image.width
      + (tileX * 32 + texelX)]? = some alpha) :
    processTexel image tileX tileY texelX texelY tile
      = some ⟨fun a b =>
          if a = texelX ∧ b = texelY then alpha else tile.signedDistanceField a b⟩ := by
  unfold processTexel
  simp only [hread, gridSize, Nat.mul_div_cancel _ (by decide : 0 < 32), hx, hy, and_self,
    if_true]

/-- The texel loops fill every sample of the tile with the alpha of its
pixel. -/
theorem processTile_spec (image : Image) (tileX tileY : Nat)
    (hdata : image.data.length = image.width * image.height)
    (htx : tileX < image.width / 32) (hty : tileY < image.height / 32) :
    ∃ tile, processTile image tileX tileY = some tile
      ∧ ∀ x y, x < 32 → y < 32 →
          image.data[(image.height - (tileY * 32 + y) - 1) * image.width
            + (tileX * 32 + x)]? = some (tile.signedDistanceField x y) := by
  unfold processTile
  rw [texelSteps_eq]
  have hread : ∀ x y, x < 32 → y < 32 →
      ∃ alpha, image.data[(image.height - (tileY * 32 + y) - 1) * image.width
        + (tileX * 32 + x)]? = some alpha := by
    intro x y hx hy
    have h := (image_index_lt image tileX tileY x y htx hty hx hy).2
    rw [← hdata] at h
    exact ⟨_, List.getElem?_eq_getElem h⟩
  obtain ⟨tile, htile, hP⟩ := foldlM_range_inv
    (fun tile texelY =>
      (List.range 32).foldlM
        (fun tile texelX => processTexel image tileX tileY texelX texelY tile) tile)
    (fun j tile => ∀ x y, x < 32 → y < j →
      image.data[(image.height - (tileY * 32 + y) - 1) * image.width
        + (tileX * 32 + x)]? = some (tile.signedDistanceField x y))
    32 Tile.fresh (fun x y _ hy => absurd hy (Nat.not_lt_zero y))
    (by
      intro j tile hj hrows
      obtain ⟨tile1, h1, hP1⟩ := foldlM_range_inv
        (fun tile texelX => processTexel image tileX tileY texelX j tile)
        (fun i tile =>
          (∀ x y, x < 32 → y < j →
            image.data[(image.height - (tileY * 32 + y) - 1) * image.width
              + (tileX * 32 + x)]? = some (tile.signedDistanceField x y))
          ∧ ∀ x, x < i →
            image.data[(image.height - (tileY * 32 + j) - 1) * image.width
              + (tileX * 32 + x)]? = some (tile.signedDistanceField x j))
        32 tile ⟨hrows, fun x hx => absurd hx (Nat.not_lt_zero x)⟩
        (by
          intro i t hi hinv
          obtain ⟨alpha, halpha⟩ := hread i j hi hj
          refine ⟨_, processTexel_eq image tileX tileY i j t alpha hi hj halpha, ?_, ?_⟩
          · intro x y hx hy
            have hne : ¬ (x = i ∧ y = j) := by omega
            simp only [hne, if_false]
            exact hinv.1 x y hx hy
          · intro x hx
            by_cases hxi : x = i
            · subst hxi
              simpa using halpha
            · have hlt : x < i := by omega
              simpa [hxi] using hinv.2 x hlt)
      refine ⟨tile1, h1, ?_⟩
      intro x y hx hy
      by_cases hyj : y = j
      · subst hyj
        exact hP1.2 x hx
      · exact hP1.1 x y hx (by omega))
  exact ⟨tile, htile, hP⟩

/-- Row-major position of a block that precedes block `(tileX, tileY)`. -/
theorem block_index_lt (w ty tx tileY tileX : Nat) (htx : tx < w)
    (h : ty < tileY ∨ (ty = tileY ∧ tx < tileX)) : ty * w + tx < tileY * w + tileX := by
  rcases h with h | ⟨h, h2⟩
  · have h1 : (ty + 1) * w ≤ tileY * w := Nat.mul_le_mul_right _ h
    rw [Nat.add_mul, Nat.one_mul] at h1
    omega
  · subst h
    omega

/-- The tileset produced from an image whose data holds `width * height`
pixels: the number of tiles, their order and their samples. -/
theorem processTileset_spec (image : Image)
    (hdata : image.data.length = image.width * image.height) :
    ∃ tileset, Physics_ProcessTileset image = some tileset
      ∧ tileset.tiles.length = (image.width / 32) * (image.height / 32)
      ∧ ∀ tileX tileY x y, tileX < image.width / 32 → tileY < image.height / 32 →
          x < 32 → y < 32 →
          ∃ tile, tileset.tiles[tileY * (image.width / 32) + tileX]? = some tile
            ∧ tileY * 32 + y < image.height
            ∧ (image.height - (tileY * 32 + y) - 1) * image.width + (tileX * 32 + x)
                < image.width * image.height
            ∧ image.data[(image.height - (tileY * 32 + y) - 1) * image.width
                + (tileX * 32 + x)]? = some (tile.signedDistanceField x y) := by
  obtain ⟨tiles, htiles, hlen, hP⟩ := foldlM_range_inv
    (fun tiles tileY =>
      (List.range (image.width / 32)).foldlM
        (fun tiles tileX =>
          match processTile image tileX tileY with
          | none => none
          | some tile => some (tiles ++ [tile]))
        tiles)
    (fun tileY (tiles : List Tile) =>
      tiles.length = tileY * (image.width / 32)
      ∧ ∀ ty tx, tx < image.width / 32 → ty < tileY →
          ∃ tile, tiles[ty * (image.width / 32) + tx]? = some tile
            ∧ ∀ x y, x < 32 → y < 32 →
              image.data[(image.height - (ty * 32 + y) - 1) * image.width
                + (tx * 32 + x)]? = some (tile.signedDistanceField x y))
    (image.height / 32) [] ⟨by simp, fun ty tx _ h => absurd h (Nat.not_lt_zero ty)⟩
    (by
      intro tileY tiles hty hinv
      obtain ⟨tiles1, h1, hlen1, hP1⟩ := foldlM_range_inv
        (fun tiles tileX =>
          match processTile image tileX tileY with
          | none => none
          | some tile => some (tiles ++ [tile]))
        (fun tileX (tiles : List Tile) =>
          tiles.length = tileY * (image.width / 32) + tileX
          ∧ ∀ ty tx, tx < image.width / 32 → (ty < tileY ∨ (ty = tileY ∧ tx < tileX)) →
              ∃ tile, tiles[ty * (image.width / 32) + tx]? = some tile
                ∧ ∀ x y, x < 32 → y < 32 →
                  image.data[(image.height - (ty * 32 + y) - 1) * image.width
                    + (tx * 32 + x)]? = some (tile.signedDistanceField x y))
        (image.width / 32) tiles
        ⟨by simpa using hinv.1, by
          intro ty tx htx h
          rcases h with h | ⟨_, h⟩
          · exact hinv.2 ty tx htx h
          · exact absurd h (Nat.not_lt_zero tx)⟩
        (by
          intro tileX ts htx hinv1
          obtain ⟨tile, htile, hsamples⟩ := processTile_spec image tileX tileY hdata htx hty
          refine ⟨ts ++ [tile], by simp [htile], by simp [hinv1.1]; omega, ?_⟩
          intro ty tx htx1 h
          by_cases hold : ty < tileY ∨ (ty = tileY ∧ tx < tileX)
          · obtain ⟨t, ht, hs⟩ := hinv1.2 ty tx htx1 hold
            have hlt := block_index_lt (image.width / 32) ty tx tileY tileX htx1 hold
            rw [← hinv1.1] at hlt
            exact ⟨t, by rw [List.getElem?_append_left hlt]; exact ht, hs⟩
          · have hty1 : ty = tileY := by omega
            have htx2 : tx = tileX := by omega
            subst hty1 htx2
            refine ⟨tile, ?_, hsamples⟩
            rw [← hinv1.1]
            simp)
      refine ⟨tiles1, h1, by rw [hlen1, Nat.add_mul, Nat.one_mul], ?_⟩
      intro ty tx htx h
      by_cases hlt : ty < tileY
      · exact hP1 ty tx htx (Or.inl hlt)
      · exact hP1 ty tx htx (Or.inr ⟨by omega, htx⟩))
  refine ⟨⟨tiles⟩, by simp [Physics_ProcessTileset, htiles], ?_, ?_⟩
  · show tiles.length = _
    rw [hlen, Nat.mul_comm]
  · intro tileX tileY x y htx hty hx hy
    obtain ⟨tile, ht, hs⟩ := hP tileY tileX htx hty
    have hb := image_index_lt image tileX tileY x y htx hty hx hy
    exact ⟨tile, ht, hb.1, hb.2, hs x y hx hy⟩

/-- C5: for an image whose data holds `width * height` pixels (in particular
one whose dimensions are multiples of 32), `Physics_ProcessTileset` produces a
tileset of exactly `(width/32) * (height/32)` tiles in row-major block order;
the sample `signedDistanceField[x][y]` of the tile of block `(tileX, tileY)` is
the alpha of the pixel at column `tileX*32 + x` and row
`height - 1 - (tileY*32 + y)`, and every pixel index read is below
`width * height`. -/
theorem ProcessTileset_samples (image : Image)
    (hdata : image.data.length = image.width * image.height) :
    ∃ tileset, Physics_ProcessTileset image = some tileset
      ∧ tileset.tiles.length = (image.width / 32) * (image.height / 32)
      ∧ ∀ tileX tileY x y, tileX < image.width / 32 → tileY < image.height / 32 →
          x < 32 → y < 32 →
          ∃ tile, tileset.tiles[tileY * (image.width / 32) + tileX]? = some tile
            ∧ tileY * 32 + y < image.height
            ∧ (image.height - (tileY * 32 + y) - 1) * image.width + (tileX * 32 + x)
                < image.width * image.height
            ∧ image.data[(image.height - (tileY * 32 + y) - 1) * image.width
                + (tileX * 32 + x)]? = some (tile.signedDistanceField x y) :=
  processTileset_spec image hdata

/-- The samples of a tileset produced from an image whose alpha values are zero
or positive are zero or positive. -/
theorem processTileset_nonneg (image : Image)
    (hdata : image.data.length = image.width * image.height)
    (halpha : ∀ a, a ∈ image.data → 0 ≤ a) :
    ∃ tileset, Physics_ProcessTileset image = some tileset
      ∧ ∀ tile, tile ∈ tileset.tiles → ∀ x y, x < gridSize → y < gridSize →
          0 ≤ tile.signedDistanceField x y := by
  obtain ⟨tileset, hrun, hlen, hall⟩ := processTileset_spec image hdata
  refine ⟨tileset, hrun, ?_⟩
  intro tile hmem x y hx hy
  obtain ⟨n, hn, hget⟩ := List.getElem_of_mem hmem
  rw [hlen] at hn
  have hW : 0 < image.width / 32 := by
    rcases Nat.eq_zero_or_pos (image.width / 32) with h0 | hpos
    · rw [h0, Nat.zero_mul] at hn
      exact absurd hn (Nat.not_lt_zero n)
    · exact hpos
  have htx : n % (image.width / 32) < image.width / 32 := Nat.mod_lt _ hW
  have hty : n / (image.width / 32) < image.height / 32 :=
    Nat.div_lt_of_lt_mul hn
  obtain ⟨tile1, ht1, _, _, hsample⟩ := hall (n % (image.width / 32))
    (n / (image.width / 32)) x y htx hty hx hy
  rw [Nat.div_add_mod' n (image.width / 32)] at ht1
  have hn2 : n < tileset.tiles.length := by rw [hlen]; exact hn
  rw [List.getElem?_eq_getElem hn2, hget] at ht1
  simp only [Option.some.injEq] at ht1
  subst ht1
  exact halpha _ (List.getElem?_mem hsample)

/-- A layer all of whose tilesets were produced by `Physics_ProcessTileset` from
images with alpha values zero or positive has samples zero or positive. -/
theorem samplesNonneg_of_processed (layer : TilemapLayer)
    (h : ∀ ts, some ts ∈ layer.tilesets →
      ∃ image, image.data.length = image.width * image.height
        ∧ (∀ a, a ∈ image.data → 0 ≤ a) ∧ Physics_ProcessTileset image = some ts) :
    SamplesNonneg layer := by
  intro ts tile hts htile x y hx hy
  obtain ⟨image, hdata, halpha, hrun⟩ := h ts hts
  obtain ⟨tileset, hrun1, hnn⟩ := processTileset_nonneg image hdata halpha
  rw [hrun] at hrun1
  simp only [Option.some.injEq] at hrun1
  subst hrun1
  exact hnn tile htile x y hx hy

/-- C5 on an image of two blocks whose pixel `n` has alpha `n`: two tiles, and
sample `[3][5]` of the second tile is pixel `26 * 64 + 35 = 1699`. -/
theorem ProcessTileset_samples_witness :
    exampleImage.data.length = exampleImage.width * exampleImage.height
      ∧ ∃ tileset tile, Physics_ProcessTileset exampleImage = some tileset
          ∧ tileset.tiles.length = 2 ∧ tileset.tiles[1]? = some tile
          ∧ tile.signedDistanceField 3 5 = 1699 := by
  have hdata : exampleImage.data.length = exampleImage.width * exampleImage.height := by
    simp only [exampleImage, List.length_map, List.length_range]
  obtain ⟨tileset, hrun, hlen, hall⟩ := ProcessTileset_samples exampleImage hdata
  obtain ⟨tile, htile, _, _, hsample⟩ :=
    hall 1 0 3 5 (by decide) (by decide) (by decide) (by decide)
  refine ⟨hdata, tileset, tile, hrun, hlen, htile, ?_⟩
  have h1699 : exampleImage.data[1699]? = some 1699 := by
    simp only [exampleImage, List.getElem?_map,
      List.getElem?_range (by decide : 1699 < 2048), Option.map_some', Nat.cast_ofNat]
  have hidx : (exampleImage.height - (0 * 32 + 5) - 1) * exampleImage.width + (1 * 32 + 3)
      = 1699 := by decide
  rw [hidx, h1699] at hsample
  simp only [Option.some.injEq] at hsample
  exact hsample.symm

/-! ### Loading the map geometry -/

theorem placedTile_eq_some {T : List (Option Tileset)} {I : List (List Nat)}
    {O : List (List (Nat × Nat))} {R : List (List TileOrientation)} {k i : Nat}
    {t : TileInfo} (h : placedTile T I O R k i = some t) :
    ∃ ts n o r, T.getD k none = some ts ∧ (I.getD k [])[i]? = some n
      ∧ (O.getD k [])[i]? = some o ∧ (R.getD k [])[i]? = some r
      ∧ n < ts.tiles.length ∧ t = ⟨n, k, o, r⟩ := by
  unfold placedTile at h
  split at h
  · rename_i ts n o r h1 h2 h3 h4
    split at h
    · rename_i hlt
      simp only [Option.some.injEq] at h
      exact ⟨ts, n, o, r, h1, h2, h3, h4, hlt, h.symm⟩
    · simp at h
  · simp at h

theorem placedTile_of_reads {T : List (Option Tileset)} {I : List (List Nat)}
    {O : List (List (Nat × Nat))} {R : List (List TileOrientation)} {k i : Nat}
    {ts : Tileset} {n : Nat} {o : Nat × Nat} {r : TileOrientation}
    (h1 : T.getD k none = some ts) (h2 : (I.getD k [])[i]? = some n)
    (h3 : (O.getD k [])[i]? = some o) (h4 : (R.getD k [])[i]? = some r) :
    placedTile T I O R k i = if n < ts.tiles.length then some ⟨n, k, o, r⟩ else none := by
  unfold placedTile
  simp only [h1, h2, h3, h4]

theorem loadTile_length (numTiles width k m : Nat) (o : Nat × Nat) (r : TileOrientation)
    (info : List TileInfo) : (loadTile numTiles width k m o r info).length = info.length := by
  unfold loadTile
  split
  · rfl
  · simp only []
    split
    · rfl
    · split
      · rfl
      · split
        · rfl
        · simp

theorem loadTile_getElem_ne (numTiles width k m : Nat) (o : Nat × Nat) (r : TileOrientation)
    (info : List TileInfo) (c : Nat) (hc : cellIndex width o ≠ c) :
    (loadTile numTiles width k m o r info)[c]? = info[c]? := by
  unfold loadTile
  split
  · rfl
  · simp only []
    split
    · rfl
    · split
      · rfl
      · split
        · rfl
        · rw [List.getElem?_set]
          simp [hc]

theorem loadTile_invalid (numTiles width k m : Nat) (o : Nat × Nat) (r : TileOrientation)
    (info : List TileInfo) (h : ¬ m < numTiles) : loadTile numTiles width k m o r info = info := by
  unfold loadTile
  simp [h]

theorem loadTile_occupied (numTiles width k m : Nat) (o : Nat × Nat) (r : TileOrientation)
    (info : List TileInfo) (cur : TileInfo) (hcur : info[cellIndex width o]? = some cur)
    (hocc : cur.imageTileIdx ≠ SENTINEL) : loadTile numTiles width k m o r info = info := by
  unfold loadTile
  split
  · rfl
  · simp only []
    split
    · rfl
    · simp [hcur, hocc]

theorem loadTile_write (numTiles width k m : Nat) (o : Nat × Nat) (r : TileOrientation)
    (info : List TileInfo) (cur : TileInfo) (hm : m < numTiles)
    (hcur : info[cellIndex width o]? = some cur) (hemp : cur.imageTileIdx = SENTINEL) :
    (loadTile numTiles width k m o r info)[cellIndex width o]? = some ⟨m, k, o, r⟩ := by
  have hlt : cellIndex width o < info.length := by
    by_contra hge
    rw [List.getElem?_eq_none (by omega)] at hcur
    exact Option.noConfusion hcur
  unfold loadTile
  simp [hm, hlt, hcur, hemp, List.getElem?_set]

theorem before_succ (k0 i0 k i : Nat) :
    Before k0 i0 k (i + 1) ↔ Before k0 i0 k i ∨ (k0 = k ∧ i0 = i) := by
  unfold Before
  omega

theorem getD_some_lt {α : Type} (l : List (Option α)) (k : Nat) (a : α)
    (h : l.getD k none = some a) : k < l.length := by
  by_contra hge
  rw [List.getD_eq_default _ _ (by omega)] at h
  exact Option.noConfusion h

theorem getElem?_eq_some_getD {α : Type} (l : List α) (k : Nat) (d : α) (h : k < l.length) :
    l[k]? = some (l.getD k d) := by
  simp [List.getD_eq_getElem?_getD, List.getElem?_eq_getElem h]

/-- A valid placed tile never carries the sentinel as its image tile index. -/
theorem placed_not_empty {T : List (Option Tileset)} {I : List (List Nat)}
    {O : List (List (Nat × Nat))} {R : List (List TileOrientation)} {k i : Nat}
    {t : TileInfo} (hfit : TilesetsFit T) (h : placedTile T I O R k i = some t) :
    t.imageTileIdx ≠ SENTINEL := by
  obtain ⟨ts, n, o, r, h1, _, _, _, hlt, rfl⟩ := placedTile_eq_some h
  have hk := getD_some_lt T k ts h1
  have hf := hfit k hk
  rw [h1] at hf
  simp only at hf
  show n ≠ SENTINEL
  omega

/-- One iteration of the inner loop of the load keeps the invariant. -/
theorem LoadInv_step {T : List (Option Tileset)} {I : List (List Nat)}
    {O : List (List (Nat × Nat))} {R : List (List TileOrientation)} {W L : Nat}
    (hfit : TilesetsFit T) (k i : Nat) (ts : Tileset) (m : Nat) (o : Nat × Nat)
    (r : TileOrientation) (info : List TileInfo)
    (h1 : T.getD k none = some ts) (h2 : (I.getD k [])[i]? = some m)
    (h3 : (O.getD k [])[i]? = some o) (h4 : (R.getD k [])[i]? = some r)
    (hinv : LoadInv T I O R W L k i info) :
    LoadInv T I O R W L k (i + 1) (loadTile ts.tiles.length W k m o r info) := by
  refine ⟨by rw [loadTile_length]; exact hinv.1, ?_⟩
  intro c hc
  obtain ⟨cur, hcur, hci⟩ := hinv.2 c hc
  have hplaced := placedTile_of_reads h1 h2 h3 h4
  by_cases hvalid : m < ts.tiles.length ∧ cellIndex W o = c
  · obtain ⟨hm, hcell⟩ := hvalid
    rw [if_pos hm] at hplaced
    subst hcell
    rcases hci with ⟨hempty, hun⟩ | ⟨k0, i0, hb, hp, hcell0, hun0⟩
    · refine ⟨⟨m, k, o, r⟩,
        loadTile_write _ _ _ _ _ _ _ cur hm hcur (by rw [hempty]; rfl),
        Or.inr ⟨k, i, ?_, hplaced, rfl, hun⟩⟩
      unfold Before
      omega
    · have hocc := placed_not_empty hfit hp
      rw [loadTile_occupied _ _ _ _ _ _ _ cur hcur hocc]
      exact ⟨cur, hcur,
        Or.inr ⟨k0, i0, (before_succ _ _ _ _).2 (Or.inl hb), hp, hcell0, hun0⟩⟩
  · have hsame : (loadTile ts.tiles.length W k m o r info)[c]? = info[c]? := by
      by_cases hm : m < ts.tiles.length
      · exact loadTile_getElem_ne _ _ _ _ _ _ _ c (fun h => hvalid ⟨hm, h⟩)
      · rw [loadTile_invalid _ _ _ _ _ _ _ hm]
    refine ⟨cur, by rw [hsame]; exact hcur, ?_⟩
    rcases hci with ⟨hempty, hun⟩ | ⟨k0, i0, hb, hp, hcell0, hun0⟩
    · refine Or.inl ⟨hempty, ?_⟩
      intro k1 i1 t1 hb1 hp1
      rcases (before_succ _ _ _ _).1 hb1 with hb1 | ⟨hk1, hi1⟩
      · exact hun k1 i1 t1 hb1 hp1
      · subst hk1 hi1
        rw [hplaced] at hp1
        by_cases hm : m < ts.tiles.length
        · rw [if_pos hm] at hp1
          simp only [Option.some.injEq] at hp1
          subst hp1
          exact fun h => hvalid ⟨hm, h⟩
        · rw [if_neg hm] at hp1
          exact Option.noConfusion hp1
    · exact Or.inr ⟨k0, i0, (before_succ _ _ _ _).2 (Or.inl hb), hp, hcell0, hun0⟩

/-- Moving on to the next tileset keeps the invariant once no valid tile of the
current tileset is left. -/
theorem LoadInv_next {T : List (Option Tileset)} {I : List (List Nat)}
    {O : List (List (Nat × Nat))} {R : List (List TileOrientation)} {W L : Nat}
    (k i : Nat) (info : List TileInfo)
    (hnone : ∀ i0, i ≤ i0 → placedTile T I O R k i0 = none)
    (hinv : LoadInv T I O R W L k i info) : LoadInv T I O R W L (k + 1) 0 info := by
  refine ⟨hinv.1, ?_⟩
  intro c hc
  obtain ⟨cur, hcur, hci⟩ := hinv.2 c hc
  refine ⟨cur, hcur, ?_⟩
  rcases hci with ⟨hempty, hun⟩ | ⟨k0, i0, hb, hp, hcell0, hun0⟩
  · refine Or.inl ⟨hempty, ?_⟩
    intro k1 i1 t1 hb1 hp1
    by_cases hold : Before k1 i1 k i
    · exact hun k1 i1 t1 hold hp1
    · have hk : k1 = k ∧ i ≤ i1 := by
        unfold Before at hb1 hold
        omega
      rw [hk.1, hnone i1 hk.2] at hp1
      exact Option.noConfusion hp1
  · refine Or.inr ⟨k0, i0, ?_, hp, hcell0, hun0⟩
    unfold Before at hb ⊢
    omega

/-- The inner loop of the load is defined on parallel sequences and keeps the
invariant. -/
theorem loadTilesetTiles_inv {T : List (Option Tileset)} {I : List (List Nat)}
    {O : List (List (Nat × Nat))} {R : List (List TileOrientation)} {W L : Nat}
    (hfit : TilesetsFit T) (k : Nat) (ts : Tileset) (info : List TileInfo)
    (h1 : T.getD k none = some ts)
    (hO : (O.getD k []).length = (I.getD k []).length)
    (hR : (R.getD k []).length = (I.getD k []).length)
    (hinv : LoadInv T I O R W L k 0 info) :
    ∃ info1, loadTilesetTiles ts W k (I.getD k []) (O.getD k []) (R.getD k []) info
        = some info1
      ∧ LoadInv T I O R W L k (I.getD k []).length info1 := by
  unfold loadTilesetTiles
  apply foldlM_range_inv _ (fun i info => LoadInv T I O R W L k i info) _ _ hinv
  intro i b hi hb
  obtain ⟨m, h2⟩ : ∃ m, (I.getD k [])[i]? = some m := ⟨_, List.getElem?_eq_getElem hi⟩
  obtain ⟨o, h3⟩ : ∃ o, (O.getD k [])[i]? = some o :=
    ⟨_, List.getElem?_eq_getElem (by omega)⟩
  obtain ⟨r, h4⟩ : ∃ r, (R.getD k [])[i]? = some r :=
    ⟨_, List.getElem?_eq_getElem (by omega)⟩
  refine ⟨loadTile ts.tiles.length W k m o r b, by simp only [h2, h3, h4], ?_⟩
  exact LoadInv_step hfit k i ts m o r b h1 h2 h3 h4 hb

/-- The loops of the load are defined on parallel sequences and end in the
invariant for the whole input. -/
theorem loadTilesets_inv {T : List (Option Tileset)} {I : List (List Nat)}
    {O : List (List (Nat × Nat))} {R : List (List TileOrientation)} (W L : Nat)
    (hpar : Parallel T I O R) (hfit : TilesetsFit T) :
    ∃ info1, loadTilesets T I O R W (List.replicate L TileInfo.empty) = some info1
      ∧ LoadInv T I O R W L T.length 0 info1 := by
  obtain ⟨hI, hO, hR, hin⟩ := hpar
  unfold loadTilesets
  apply foldlM_range_inv _ (fun k info => LoadInv T I O R W L k 0 info)
  · refine ⟨by simp, ?_⟩
    intro c hc
    refine ⟨TileInfo.empty, by simp [List.getElem?_replicate, hc], Or.inl ⟨rfl, ?_⟩⟩
    intro k0 i0 t0 hb
    unfold Before at hb
    omega
  · intro k b hk hb
    have e1 := getElem?_eq_some_getD I k [] (by omega)
    have e2 := getElem?_eq_some_getD O k [] (by omega)
    have e3 := getElem?_eq_some_getD R k [] (by omega)
    have e4 := getElem?_eq_some_getD T k none hk
    simp only [e1, e2, e3, e4]
    cases hts : T.getD k none with
    | none =>
      refine ⟨b, rfl, LoadInv_next k 0 b ?_ hb⟩
      intro i0 _
      unfold placedTile
      split
      · rename_i e _ _ _
        rw [hts] at e
        exact Option.noConfusion e
      · rfl
    | some ts =>
      obtain ⟨info1, hrun, hinv1⟩ :=
        loadTilesetTiles_inv (W := W) (L := L) hfit k ts b hts (hin k hk).1 (hin k hk).2 hb
      refine ⟨info1, hrun, LoadInv_next k _ info1 ?_ hinv1⟩
      intro i0 hi0
      unfold placedTile
      split
      · rename_i _ e _ _
        rw [List.getElem?_eq_none hi0] at e
        exact Option.noConfusion e
      · rfl

/-- On parallel sequences the load is defined and its grid satisfies the loop
invariant for the whole input. -/
theorem LoadMapGeometry_inv (T : List (Option Tileset)) (I : List (List Nat))
    (O : List (List (Nat × Nat))) (R : List (List TileOrientation))
    (hpar : Parallel T I O R) (hfit : TilesetsFit T) :
    ∃ info, Physics_LoadMapGeometry T I O R = some ⟨T, info, (mapDims O).1⟩
      ∧ LoadInv T I O R (mapDims O).1 (((mapDims O).1 * (mapDims O).2) % U32)
          T.length 0 info := by
  obtain ⟨info, hrun, hinv⟩ :=
    loadTilesets_inv (mapDims O).1 (((mapDims O).1 * (mapDims O).2) % U32) hpar hfit
  refine ⟨info, ?_, hinv⟩
  obtain ⟨hI, hO, _, _⟩ := hpar
  unfold Physics_LoadMapGeometry
  simp only [hI, hO, ne_eq, not_true_eq_false, if_false, hrun]

theorem placedTile_lt {T : List (Option Tileset)} {I : List (List Nat)}
    {O : List (List (Nat × Nat))} {R : List (List TileOrientation)} {k i : Nat}
    {t : TileInfo} (h : placedTile T I O R k i = some t) : k < T.length := by
  obtain ⟨ts, _, _, _, h1, _⟩ := placedTile_eq_some h
  exact getD_some_lt T k ts h1

/-- After the load, the first valid tile written to a cell of the grid is the
content of that cell. -/
theorem LoadInv_first {T : List (Option Tileset)} {I : List (List Nat)}
    {O : List (List (Nat × Nat))} {R : List (List TileOrientation)} {W L : Nat}
    {info : List TileInfo} (hinv : LoadInv T I O R W L T.length 0 info)
    (k i : Nat) (t : TileInfo) (hp : placedTile T I O R k i = some t)
    (hin : cellIndex W t.origin < L)
    (hfirst : Unclaimed T I O R W (cellIndex W t.origin) k i) :
    info[cellIndex W t.origin]? = some t := by
  obtain ⟨cur, hcur, hci⟩ := hinv.2 _ hin
  have hk := placedTile_lt hp
  rcases hci with ⟨_, hun⟩ | ⟨k0, i0, _, hp0, hcell0, hun0⟩
  · exact absurd rfl (hun k i t (Or.inl hk) hp)
  · by_cases hb1 : Before k0 i0 k i
    · exact absurd hcell0 (hfirst k0 i0 cur hb1 hp0)
    · by_cases hb2 : Before k i k0 i0
      · exact absurd rfl (hun0 k i t hb2 hp)
      · have hk0 : k0 = k ∧ i0 = i := by
          unfold Before at hb1 hb2
          omega
        rw [hk0.1, hk0.2, hp] at hp0
        rw [hcur, ← hp0]

/-- After the load, a cell of the grid that no valid tile is written to is
empty. -/
theorem LoadInv_untouched {T : List (Option Tileset)} {I : List (List Nat)}
    {O : List (List (Nat × Nat))} {R : List (List TileOrientation)} {W L : Nat}
    {info : List TileInfo} (hinv : LoadInv T I O R W L T.length 0 info)
    (c : Nat) (hc : c < L)
    (hun : ∀ k i t, placedTile T I O R k i = some t → cellIndex W t.origin ≠ c) :
    info[c]? = some TileInfo.empty := by
  obtain ⟨cur, hcur, hci⟩ := hinv.2 c hc
  rcases hci with ⟨hempty, _⟩ | ⟨k0, i0, _, hp0, hcell0, _⟩
  · rw [hcur, hempty]
  · exact absurd hcell0 (hun k0 i0 cur hp0)

/-- After the load, every cell is empty or refers to a tile of a tileset that
is not null. -/
theorem LoadInv_cells {T : List (Option Tileset)} {I : List (List Nat)}
    {O : List (List (Nat × Nat))} {R : List (List TileOrientation)} {W L : Nat}
    {info : List TileInfo} (hinv : LoadInv T I O R W L T.length 0 info)
    (cell : TileInfo) (hmem : cell ∈ info) :
    cell = TileInfo.empty
      ∨ ∃ ts, T.getD cell.tilesetIdx none = some ts ∧ cell.imageTileIdx < ts.tiles.length := by
  obtain ⟨c, hc, hget⟩ := List.getElem_of_mem hmem
  have hcL : c < L := by rw [← hinv.1]; exact hc
  obtain ⟨cur, hcur, hci⟩ := hinv.2 c hcL
  rw [List.getElem?_eq_getElem hc, hget] at hcur
  simp only [Option.some.injEq] at hcur
  subst hcur
  rcases hci with ⟨hempty, _⟩ | ⟨k0, i0, _, hp0, _, _⟩
  · exact Or.inl hempty
  · obtain ⟨ts, n, o, r, h1, _, _, _, hlt, rfl⟩ := placedTile_eq_some hp0
    exact Or.inr ⟨ts, h1, hlt⟩

theorem exampleTilesets_fit : TilesetsFit exampleTilesets := by
  intro k hk
  have hk0 : k = 0 := by
    simp only [exampleTilesets, List.length_singleton] at hk
    omega
  subst hk0
  show 1 ≤ SENTINEL
  decide

theorem placedTile_example_none (I : List (List Nat)) (O : List (List (Nat × Nat)))
    (R : List (List TileOrientation)) (k i : Nat) (hk : 1 ≤ k) :
    placedTile exampleTilesets I O R k i = none := by
  unfold placedTile
  split
  · rename_i e _ _ _
    rw [List.getD_eq_default _ _ (by simpa [exampleTilesets] using hk)] at e
    exact Option.noConfusion e
  · rfl

/-- C1: on parallel input sequences the load is defined, and whenever two
placed tiles with valid tile indices are written to the same cell of the grid,
the earlier one (lower tileset index, then lower position) being the first
valid tile of that cell, the cell holds the whole record of the earlier tile
after the load; the loop body of the later tile returns unchanged every grid
in which the cell is occupied. -/
theorem LoadMapGeometry_first_write_wins (T : List (Option Tileset)) (I : List (List Nat))
    (O : List (List (Nat × Nat))) (R : List (List TileOrientation))
    (hpar : Parallel T I O R) (hfit : TilesetsFit T) :
    ∃ layer, Physics_LoadMapGeometry T I O R = some layer
      ∧ ∀ k i k2 j t t2, placedTile T I O R k i = some t →
          placedTile T I O R k2 j = some t2 → Before k i k2 j →
          cellIndex (mapDims O).1 t2.origin = cellIndex (mapDims O).1 t.origin →
          cellIndex (mapDims O).1 t.origin < layer.tileInfo.length →
          Unclaimed T I O R (mapDims O).1 (cellIndex (mapDims O).1 t.origin) k i →
          layer.tileInfo[cellIndex (mapDims O).1 t.origin]? = some t
            ∧ ∀ numTiles info cur, info[cellIndex (mapDims O).1 t.origin]? = some cur →
                cur.imageTileIdx ≠ SENTINEL →
                loadTile numTiles (mapDims O).1 k2 t2.imageTileIdx t2.origin t2.orientation
                  info = info := by
  obtain ⟨info, hrun, hinv⟩ := LoadMapGeometry_inv T I O R hpar hfit
  refine ⟨_, hrun, ?_⟩
  intro k i k2 j t t2 hp _ _ hcell hin hfirst
  have hlen : info.length = ((mapDims O).1 * (mapDims O).2) % U32 := hinv.1
  refine ⟨LoadInv_first hinv k i t hp (by rw [← hlen]; exact hin) hfirst, ?_⟩
  intro numTiles g cur hcur hocc
  rw [← hcell] at hcur
  exact loadTile_occupied _ _ _ _ _ _ g cur hcur hocc

/-- C1 on two tiles placed at cell `(0, 0)`, the second one flipped: the cell
holds the first. -/
theorem LoadMapGeometry_first_write_wins_witness :
    Parallel exampleTilesets [[0, 0]] [[(0, 0), (0, 0)]]
        [[TileOrientation.None, ⟨true, false, false⟩]]
      ∧ TilesetsFit exampleTilesets
      ∧ ∃ layer, Physics_LoadMapGeometry exampleTilesets [[0, 0]] [[(0, 0), (0, 0)]]
            [[TileOrientation.None, ⟨true, false, false⟩]] = some layer
          ∧ layer.tileInfo[0]? = some ⟨0, 0, (0, 0), TileOrientation.None⟩ := by
  have hpar : Parallel exampleTilesets [[0, 0]] [[(0, 0), (0, 0)]]
      [[TileOrientation.None, ⟨true, false, false⟩]] := by
    unfold Parallel exampleTilesets
    decide
  obtain ⟨layer, hrun, hall⟩ := LoadMapGeometry_first_write_wins exampleTilesets [[0, 0]]
    [[(0, 0), (0, 0)]] [[TileOrientation.None, ⟨true, false, false⟩]] hpar exampleTilesets_fit
  refine ⟨hpar, exampleTilesets_fit, layer, hrun, ?_⟩
  have hlen : layer.tileInfo.length = 1 := by
    have h2 : Physics_LoadMapGeometry exampleTilesets [[0, 0]] [[(0, 0), (0, 0)]]
        [[TileOrientation.None, ⟨true, false, false⟩]]
        = some ⟨exampleTilesets, [⟨0, 0, (0, 0), TileOrientation.None⟩], 1⟩ := rfl
    rw [h2] at hrun
    cases hrun
    rfl
  exact (hall 0 0 0 1 ⟨0, 0, (0, 0), TileOrientation.None⟩ ⟨0, 0, (0, 0), ⟨true, false, false⟩⟩
    rfl rfl (Or.inr ⟨rfl, by decide⟩) rfl (by rw [hlen]; decide)
    (by
      intro k0 i0 t0 hb
      unfold Before at hb
      omega)).1

/-- C2, the checked part: when the number of tilesets or of index sequences
differs from the number of origin sequences the load stops and leaves the
cleared layer. -/
theorem LoadMapGeometry_length_mismatch (T : List (Option Tileset)) (I : List (List Nat))
    (O : List (List (Nat × Nat))) (R : List (List TileOrientation))
    (h : T.length ≠ O.length ∨ I.length ≠ O.length) :
    Physics_LoadMapGeometry T I O R = some TilemapLayer.cleared := by
  unfold Physics_LoadMapGeometry
  by_cases h1 : T.length = O.length
  · rcases h with h | h
    · exact absurd h1 h
    · simp [h1, h]
  · simp [h1]

/-- C2, the unchecked part: with one tileset, one index sequence, one origin
sequence and two orientation sequences, the load is not aborted: the layer has
width 1 and its only cell holds the placed tile. -/
theorem LoadMapGeometry_orientation_length_unchecked :
    ([some (⟨[Tile.fresh]⟩ : Tileset)].length ≠
        [[TileOrientation.None], [TileOrientation.None]].length)
      ∧ ∃ layer, Physics_LoadMapGeometry [some ⟨[Tile.fresh]⟩] [[0]] [[(0, 0)]]
            [[TileOrientation.None], [TileOrientation.None]] = some layer
          ∧ layer.width = 1
          ∧ layer.tileInfo = [⟨0, 0, (0, 0), TileOrientation.None⟩] :=
  ⟨by decide, _, rfl, rfl, rfl⟩

/-- C3: on parallel input sequences the load is defined; the loop body of a
placed tile whose image tile index is not below the number of tiles of its
tileset returns every grid unchanged; every valid placed tile processed after
such a tile whose cell lies in the grid and was not written before holds that
cell after the load; and every cell of the loaded layer is empty or refers to a
tile index within the bounds of a tileset of the layer. -/
theorem LoadMapGeometry_skips_invalid (T : List (Option Tileset)) (I : List (List Nat))
    (O : List (List (Nat × Nat))) (R : List (List TileOrientation))
    (hpar : Parallel T I O R) (hfit : TilesetsFit T) :
    ∃ layer, Physics_LoadMapGeometry T I O R = some layer
      ∧ (∀ k i ts m o r, T.getD k none = some ts → (I.getD k [])[i]? = some m →
          (O.getD k [])[i]? = some o → (R.getD k [])[i]? = some r →
          ¬ m < ts.tiles.length →
          (∀ info, loadTile ts.tiles.length (mapDims O).1 k m o r info = info)
            ∧ ∀ k2 j t2, Before k i k2 j → placedTile T I O R k2 j = some t2 →
                cellIndex (mapDims O).1 t2.origin < layer.tileInfo.length →
                Unclaimed T I O R (mapDims O).1 (cellIndex (mapDims O).1 t2.origin) k2 j →
                layer.tileInfo[cellIndex (mapDims O).1 t2.origin]? = some t2)
      ∧ ∀ cell, cell ∈ layer.tileInfo →
          cell = TileInfo.empty
            ∨ ∃ ts, layer.tilesets.getD cell.tilesetIdx none = some ts
                ∧ cell.imageTileIdx < ts.tiles.length := by
  obtain ⟨info, hrun, hinv⟩ := LoadMapGeometry_inv T I O R hpar hfit
  refine ⟨_, hrun, ?_, ?_⟩
  · intro k i ts m o r _ _ _ _ hbad
    refine ⟨fun g => loadTile_invalid _ _ _ _ _ _ g hbad, ?_⟩
    intro k2 j t2 _ hp hin hfirst
    have hlen : info.length = ((mapDims O).1 * (mapDims O).2) % U32 := hinv.1
    exact LoadInv_first hinv k2 j t2 hp (by rw [← hlen]; exact hin) hfirst
  · intro cell hmem
    exact LoadInv_cells hinv cell hmem

/-- C3 on a tile with image tile index 5 in a tileset of one tile, followed by
a valid tile at `(1, 0)`: the first leaves the grid alone, the second is
placed. -/
theorem LoadMapGeometry_skips_invalid_witness :
    Parallel exampleTilesets [[5, 0]] [[(0, 0), (1, 0)]]
        [[TileOrientation.None, TileOrientation.None]]
      ∧ TilesetsFit exampleTilesets
      ∧ ∃ layer, Physics_LoadMapGeometry exampleTilesets [[5, 0]] [[(0, 0), (1, 0)]]
            [[TileOrientation.None, TileOrientation.None]] = some layer
          ∧ loadTile 1 2 0 5 (0, 0) TileOrientation.None [TileInfo.empty, TileInfo.empty]
              = [TileInfo.empty, TileInfo.empty]
          ∧ layer.tileInfo[1]? = some ⟨0, 0, (1, 0), TileOrientation.None⟩ := by
  have hpar : Parallel exampleTilesets [[5, 0]] [[(0, 0), (1, 0)]]
      [[TileOrientation.None, TileOrientation.None]] := by
    unfold Parallel exampleTilesets
    decide
  obtain ⟨layer, hrun, hskip, _⟩ := LoadMapGeometry_skips_invalid exampleTilesets [[5, 0]]
    [[(0, 0), (1, 0)]] [[TileOrientation.None, TileOrientation.None]] hpar exampleTilesets_fit
  refine ⟨hpar, exampleTilesets_fit, layer, hrun, ?_⟩
  have hlen : layer.tileInfo.length = 2 := by
    have h2 : Physics_LoadMapGeometry exampleTilesets [[5, 0]] [[(0, 0), (1, 0)]]
        [[TileOrientation.None, TileOrientation.None]]
        = some ⟨exampleTilesets, [TileInfo.empty, ⟨0, 0, (1, 0), TileOrientation.None⟩], 2⟩ :=
      rfl
    rw [h2] at hrun
    cases hrun
    rfl
  obtain ⟨hnoop, hlater⟩ := hskip 0 0 ⟨[Tile.fresh]⟩ 5 (0, 0) TileOrientation.None rfl rfl rfl
    rfl (by decide)
  refine ⟨hnoop _, ?_⟩
  refine hlater 0 1 ⟨0, 0, (1, 0), TileOrientation.None⟩ (Or.inr ⟨rfl, by decide⟩) rfl
    (by rw [hlen]; decide) ?_
  intro k0 i0 t0 hb hp
  have hk0 : k0 = 0 ∧ i0 = 0 := by
    unfold Before at hb
    omega
  rw [hk0.1, hk0.2] at hp
  exact Option.noConfusion hp

theorem le_foldl_max (l : List Nat) (a : Nat) : a ≤ l.foldl max a := by
  induction l generalizing a with
  | nil => simp
  | cons x xs ih =>
    simp only [List.foldl_cons]
    exact le_trans (le_max_left a x) (ih _)

theorem mem_le_foldl_max (l : List Nat) (a x : Nat) (h : x ∈ l) : x ≤ l.foldl max a := by
  induction l generalizing a with
  | nil => cases h
  | cons y ys ih =>
    simp only [List.foldl_cons]
    rcases List.mem_cons.1 h with hxy | h
    · subst hxy
      exact le_trans (le_max_right a x) (le_foldl_max ys _)
    · exact ih _ h

/-- Without wrap-around the width and height loops compute the two maxima. -/
theorem dims_fold (l : List (Nat × Nat)) (a b : Nat)
    (h : ∀ o, o ∈ l → o.1 + 1 < U32 ∧ o.2 + 1 < U32) :
    l.foldl
        (fun dims origin =>
          (max dims.1 ((origin.1 + 1) % U32), max dims.2 ((origin.2 + 1) % U32)))
        (a, b)
      = ((l.map (fun origin => origin.1 + 1)).foldl max a,
          (l.map (fun origin => origin.2 + 1)).foldl max b) := by
  induction l generalizing a b with
  | nil => rfl
  | cons o os ih =>
    have ho := h o (List.mem_cons_self _ _)
    simp only [List.foldl_cons, List.map_cons]
    rw [Nat.mod_eq_of_lt ho.1, Nat.mod_eq_of_lt ho.2]
    exact ih _ _ (fun p hp => h p (List.mem_cons_of_mem _ hp))

/-- Every origin lies within the two maxima. -/
theorem origin_le_max (O : List (List (Nat × Nat))) (o : Nat × Nat) (h : o ∈ O.flatten) :
    o.1 + 1 ≤ maxOriginX O ∧ o.2 + 1 ≤ maxOriginY O := by
  constructor
  · exact mem_le_foldl_max _ 0 _ (List.mem_map.2 ⟨o, h, rfl⟩)
  · exact mem_le_foldl_max _ 0 _ (List.mem_map.2 ⟨o, h, rfl⟩)

/-- When the product of the two maxima fits in 32 bits, so does every extent. -/
theorem origin_lt_U32 (O : List (List (Nat × Nat)))
    (hov : maxOriginX O * maxOriginY O < U32) (o : Nat × Nat) (h : o ∈ O.flatten) :
    o.1 + 1 < U32 ∧ o.2 + 1 < U32 := by
  obtain ⟨hx, hy⟩ := origin_le_max O o h
  have hmul : (o.1 + 1) * (o.2 + 1) ≤ maxOriginX O * maxOriginY O := Nat.mul_le_mul hx hy
  have h1 : o.1 + 1 ≤ (o.1 + 1) * (o.2 + 1) := Nat.le_mul_of_pos_right _ (Nat.succ_pos _)
  have h2 : o.2 + 1 ≤ (o.1 + 1) * (o.2 + 1) := Nat.le_mul_of_pos_left _ (Nat.succ_pos _)
  omega

theorem mapDims_eq (O : List (List (Nat × Nat)))
    (hov : maxOriginX O * maxOriginY O < U32) :
    mapDims O = (maxOriginX O, maxOriginY O) := by
  unfold mapDims
  rw [← List.foldl_flatten]
  exact dims_fold O.flatten 0 0 (origin_lt_U32 O hov)

theorem placedTile_origin_mem {T : List (Option Tileset)} {I : List (List Nat)}
    {O : List (List (Nat × Nat))} {R : List (List TileOrientation)} {k i : Nat}
    {t : TileInfo} (h : placedTile T I O R k i = some t) : t.origin ∈ O.flatten := by
  obtain ⟨ts, n, o, r, _, _, h3, _, _, rfl⟩ := placedTile_eq_some h
  have hk : k < O.length := by
    by_contra hge
    rw [List.getD_eq_default _ _ (by omega)] at h3
    exact Option.noConfusion h3
  refine List.mem_flatten.2 ⟨O.getD k [], ?_, List.getElem?_mem h3⟩
  have e := getElem?_eq_some_getD O k [] hk
  exact List.getElem?_mem e

/-- Without wrap-around the flat index of an origin of the input is
`y * width + x` and lies in the grid. -/
theorem cellIndex_eq (O : List (List (Nat × Nat)))
    (hov : maxOriginX O * maxOriginY O < U32) (o : Nat × Nat) (h : o ∈ O.flatten) :
    cellIndex (maxOriginX O) o = o.2 * maxOriginX O + o.1
      ∧ o.2 * maxOriginX O + o.1 < maxOriginX O * maxOriginY O := by
  obtain ⟨hx, hy⟩ := origin_le_max O o h
  have h1 : (o.2 + 1) * maxOriginX O ≤ maxOriginY O * maxOriginX O :=
    Nat.mul_le_mul_right _ hy
  rw [Nat.add_mul, Nat.one_mul, Nat.mul_comm (maxOriginY O)] at h1
  have hlt : o.2 * maxOriginX O + o.1 < maxOriginX O * maxOriginY O := by omega
  refine ⟨?_, hlt⟩
  unfold cellIndex
  exact Nat.mod_eq_of_lt (by omega)

/-- C4: on parallel input sequences whose extents satisfy
`width * height < 2^32`, the load is defined and the layer is a row-major grid:
its width is the maximum of `origin.x + 1` over all origins (0 when there are
none), it has `width * height` cells with `height` the maximum of
`origin.y + 1`, a valid placed tile lies inside the grid and, when no valid
tile processed before it has the same flat index, is stored at flat index
`origin.y * width + origin.x`; a cell that is the flat index of no valid placed
tile holds the empty sentinel. -/
theorem LoadMapGeometry_row_major (T : List (Option Tileset)) (I : List (List Nat))
    (O : List (List (Nat × Nat))) (R : List (List TileOrientation))
    (hpar : Parallel T I O R) (hfit : TilesetsFit T)
    (hov : maxOriginX O * maxOriginY O < U32) :
    ∃ layer, Physics_LoadMapGeometry T I O R = some layer
      ∧ layer.width = maxOriginX O
      ∧ layer.tileInfo.length = maxOriginX O * maxOriginY O
      ∧ (∀ k i t, placedTile T I O R k i = some t →
          t.origin.1 < maxOriginX O ∧ t.origin.2 < maxOriginY O
            ∧ ((∀ k0 i0 t0, Before k0 i0 k i → placedTile T I O R k0 i0 = some t0 →
                  t0.origin.2 * maxOriginX O + t0.origin.1
                    ≠ t.origin.2 * maxOriginX O + t.origin.1) →
                layer.tileInfo[t.origin.2 * maxOriginX O + t.origin.1]? = some t))
      ∧ ∀ c, c < maxOriginX O * maxOriginY O →
          (∀ k i t, placedTile T I O R k i = some t →
            t.origin.2 * maxOriginX O + t.origin.1 ≠ c) →
          layer.tileInfo[c]? = some TileInfo.empty := by
  obtain ⟨info, hrun, hinv⟩ := LoadMapGeometry_inv T I O R hpar hfit
  rw [mapDims_eq O hov] at hrun hinv
  simp only [Nat.mod_eq_of_lt hov] at hinv
  refine ⟨_, hrun, rfl, hinv.1, ?_, ?_⟩
  · intro k i t hp
    have hmem := placedTile_origin_mem hp
    obtain ⟨hx, hy⟩ := origin_le_max O t.origin hmem
    obtain ⟨hcell, hlt⟩ := cellIndex_eq O hov t.origin hmem
    refine ⟨by omega, by omega, ?_⟩
    intro hfirst
    rw [← hcell]
    refine LoadInv_first hinv k i t hp (by rw [hcell]; exact hlt) ?_
    intro k0 i0 t0 hb hp0
    rw [hcell, (cellIndex_eq O hov t0.origin (placedTile_origin_mem hp0)).1]
    exact hfirst k0 i0 t0 hb hp0
  · intro c hc hun
    refine LoadInv_untouched hinv c hc ?_
    intro k i t hp
    rw [(cellIndex_eq O hov t.origin (placedTile_origin_mem hp)).1]
    exact hun k i t hp

/-- C4 on an invalid tile at `(0, 0)` and a valid tile at `(1, 0)`: the grid is
2 wide and 1 high, cell 1 holds the valid tile and cell 0 stays empty. -/
theorem LoadMapGeometry_row_major_witness :
    Parallel exampleTilesets [[5, 0]] [[(0, 0), (1, 0)]]
        [[TileOrientation.None, TileOrientation.None]]
      ∧ TilesetsFit exampleTilesets
      ∧ maxOriginX [[(0, 0), (1, 0)]] * maxOriginY [[(0, 0), (1, 0)]] < U32
      ∧ ∃ layer, Physics_LoadMapGeometry exampleTilesets [[5, 0]] [[(0, 0), (1, 0)]]
            [[TileOrientation.None, TileOrientation.None]] = some layer
          ∧ layer.width = 2 ∧ layer.tileInfo.length = 2
          ∧ layer.tileInfo[1]? = some ⟨0, 0, (1, 0), TileOrientation.None⟩
          ∧ layer.tileInfo[0]? = some TileInfo.empty := by
  have hpar : Parallel exampleTilesets [[5, 0]] [[(0, 0), (1, 0)]]
      [[TileOrientation.None, TileOrientation.None]] := by
    unfold Parallel exampleTilesets
    decide
  have hov : maxOriginX [[(0, 0), (1, 0)]] * maxOriginY [[(0, 0), (1, 0)]] < U32 := by decide
  obtain ⟨layer, hrun, hwidth, hlen, hplaced, hempty⟩ := LoadMapGeometry_row_major
    exampleTilesets [[5, 0]] [[(0, 0), (1, 0)]] [[TileOrientation.None, TileOrientation.None]]
    hpar exampleTilesets_fit hov
  have hnone : placedTile exampleTilesets [[5, 0]] [[(0, 0), (1, 0)]]
      [[TileOrientation.None, TileOrientation.None]] 0 0 = none := rfl
  refine ⟨hpar, exampleTilesets_fit, hov, layer, hrun, hwidth, hlen, ?_, ?_⟩
  · refine (hplaced 0 1 ⟨0, 0, (1, 0), TileOrientation.None⟩ rfl).2.2 ?_
    intro k0 i0 t0 hb hp
    have hk0 : k0 = 0 ∧ i0 = 0 := by
      unfold Before at hb
      omega
    rw [hk0.1, hk0.2, hnone] at hp
    exact Option.noConfusion hp
  · refine hempty 0 (by decide) ?_
    intro k i t hp
    match k, i with
    | 0, 0 =>
      rw [hnone] at hp
      exact Option.noConfusion hp
    | 0, 1 =>
      have ht : t = ⟨0, 0, (1, 0), TileOrientation.None⟩ := by
        have h2 : placedTile exampleTilesets [[5, 0]] [[(0, 0), (1, 0)]]
            [[TileOrientation.None, TileOrientation.None]] 0 1
            = some ⟨0, 0, (1, 0), TileOrientation.None⟩ := rfl
        rw [h2] at hp
        simp only [Option.some.injEq] at hp
        exact hp.symm
      rw [ht]
      decide
    | 0, i + 2 =>
      have h2 : placedTile exampleTilesets [[5, 0]] [[(0, 0), (1, 0)]]
          [[TileOrientation.None, TileOrientation.None]] 0 (i + 2) = none := by
        unfold placedTile
        split
        · rename_i _ e _ _
          simp at e
        · rfl
      rw [h2] at hp
      exact Option.noConfusion hp
    | k + 1, i =>
      rw [placedTile_example_none _ _ _ (k + 1) i (by omega)] at hp
      exact Option.noConfusion hp

/-! ### Sampling a tile -/

/-- A resolved, non-empty tile reference sampled at a texel of the 32x32 grid
yields the sample stored at the remapped texel. -/
theorem CalculateSdfDistance_resolved (layer : TilemapLayer) (tileInfo : TileInfo)
    (ts : Tileset) (physicsTile : Tile) (x y : Nat)
    (hts : tileInfo.tilesetIdx ≠ SENTINEL) (hidx : tileInfo.imageTileIdx ≠ SENTINEL)
    (hset : layer.tilesets[tileInfo.tilesetIdx]? = some (some ts))
    (htile : ts.tiles[tileInfo.imageTileIdx]? = some physicsTile)
    (hx : x < 32) (hy : y < 32) :
    CalculateSdfDistance layer tileInfo (x, y)
        = some (physicsTile.signedDistanceField
            (orientTexel tileInfo.orientation (x, y)).1
            (orientTexel tileInfo.orientation (x, y)).2)
      ∧ (orientTexel tileInfo.orientation (x, y)).1 < 32
      ∧ (orientTexel tileInfo.orientation (x, y)).2 < 32 := by
  have hmod : ∀ a : Nat, a < 32 → (31 + U32 - a) % U32 = 31 - a := by
    intro a ha
    unfold U32
    omega
  have hval : tileInfo.Valid = true := by
    simp [TileInfo.Valid, hidx]
  rcases tileInfo with ⟨imageTileIdx, tilesetIdx, origin, ⟨fh, fv, fd⟩⟩
  simp only at hts hidx hset htile
  unfold CalculateSdfDistance orientTexel
  simp only [hts, hval, hset, htile, if_false, Bool.not_true]
  cases fh <;> cases fv <;> cases fd <;>
    simp [hmod x hx, hmod y hy, gridSize, hx, hy] <;> omega

/-- C6: for a non-empty tile reference that resolves to `physicsTile` and a
texel with both coordinates below 32, `CalculateSdfDistance` returns the sample
stored at the texel remapped by horizontal flip, vertical flip and diagonal
swap in that order, whatever the combination of flags; the remapped
coordinates are again below 32; with horizontal and diagonal set (vertical
clear) the remapped texel is `(y, 31 - x)`, the sample stored at
`[y][31 - x]`. -/
theorem CalculateSdfDistance_orientation (layer : TilemapLayer) (tileInfo : TileInfo)
    (ts : Tileset) (physicsTile : Tile) (x y : Nat)
    (hts : tileInfo.tilesetIdx ≠ SENTINEL) (hidx : tileInfo.imageTileIdx ≠ SENTINEL)
    (hset : layer.tilesets[tileInfo.tilesetIdx]? = some (some ts))
    (htile : ts.tiles[tileInfo.imageTileIdx]? = some physicsTile)
    (hx : x < 32) (hy : y < 32) :
    CalculateSdfDistance layer tileInfo (x, y)
        = some (physicsTile.signedDistanceField
            (orientTexel tileInfo.orientation (x, y)).1
            (orientTexel tileInfo.orientation (x, y)).2)
      ∧ (orientTexel tileInfo.orientation (x, y)).1 < 32
      ∧ (orientTexel tileInfo.orientation (x, y)).2 < 32
      ∧ orientTexel tileInfo.orientation (x, y)
          = ((if tileInfo.orientation.flipDiagonal
                then (if tileInfo.orientation.flipVertical then 31 - y else y)
                else (if tileInfo.orientation.flipHorizontal then 31 - x else x)),
             (if tileInfo.orientation.flipDiagonal
                then (if tileInfo.orientation.flipHorizontal then 31 - x else x)
                else (if tileInfo.orientation.flipVertical then 31 - y else y)))
      ∧ orientTexel ⟨true, false, true⟩ (x, y) = (y, 31 - x) := by
  obtain ⟨h1, h2, h3⟩ :=
    CalculateSdfDistance_resolved layer tileInfo ts physicsTile x y hts hidx hset htile hx hy
  refine ⟨h1, h2, h3, ?_, by simp [orientTexel]⟩
  rcases tileInfo with ⟨imageTileIdx, tilesetIdx, origin, ⟨fh, fv, fd⟩⟩
  cases fh <;> cases fv <;> cases fd <;> simp [orientTexel]

/-- C6 at a concrete tile: one tileset with one tile whose sample at `[a][b]`
is `a`, horizontal and diagonal flips set, texel `(3, 5)`: the result is the
sample stored at `[5][28]`, which is 5. -/
theorem CalculateSdfDistance_orientation_witness :
    CalculateSdfDistance ⟨[some ⟨[⟨fun a _ => (a : ℚ)⟩]⟩], [], 0⟩
        ⟨0, 0, (0, 0), ⟨true, false, true⟩⟩ (3, 5) = some 5
      ∧ orientTexel ⟨true, false, true⟩ (3, 5) = (5, 28) := by
  have h := CalculateSdfDistance_orientation ⟨[some ⟨[⟨fun a _ => (a : ℚ)⟩]⟩], [], 0⟩
    ⟨0, 0, (0, 0), ⟨true, false, true⟩⟩ ⟨[⟨fun a _ => (a : ℚ)⟩]⟩ ⟨fun a _ => (a : ℚ)⟩ 3 5
    (by decide) (by decide) rfl rfl (by decide) (by decide)
  refine ⟨?_, by decide⟩
  rw [h.1]
  simp [orientTexel]

/-- The two early returns of `CalculateSdfDistance`: a sentinel tileset index
gives the sample 0, and so does a sentinel image tile index when the tileset
index is an index into the tilesets of the layer. -/
theorem sdf_of_sentinel (layer : TilemapLayer) (tileInfo : TileInfo)
    (texel : Nat × Nat)
    (h : tileInfo.tilesetIdx = SENTINEL
      ∨ (tileInfo.imageTileIdx = SENTINEL ∧ tileInfo.tilesetIdx < layer.tilesets.length)) :
    CalculateSdfDistance layer tileInfo texel = some 0 := by
  unfold CalculateSdfDistance
  by_cases hts : tileInfo.tilesetIdx = SENTINEL
  · simp [hts]
  · rcases h with h | ⟨h, hlt⟩
    · exact absurd h hts
    · rw [if_neg hts, List.getElem?_eq_getElem hlt]
      simp [TileInfo.Valid, h]

/-- A tileset index that is neither the sentinel nor an index into the tilesets
of the layer: the read of the tileset pointer is undefined, whatever the image
tile index. -/
theorem sdf_tileset_out_of_range (layer : TilemapLayer) (tileInfo : TileInfo)
    (texel : Nat × Nat) (hts : tileInfo.tilesetIdx ≠ SENTINEL)
    (hge : layer.tilesets.length ≤ tileInfo.tilesetIdx) :
    CalculateSdfDistance layer tileInfo texel = none := by
  unfold CalculateSdfDistance
  rw [if_neg hts, List.getElem?_eq_none hge]

/-- The cells of a layer written by `Physics_LoadMapGeometry` can be sampled,
and a cell of it whose tileset index or image tile index is the sentinel is the
empty cell, with both indices the sentinel. -/
theorem LoadMapGeometry_resolves (T : List (Option Tileset)) (I : List (List Nat))
    (O : List (List (Nat × Nat))) (R : List (List TileOrientation))
    (hpar : Parallel T I O R) (hfit : TilesetsFit T) :
    ∃ layer, Physics_LoadMapGeometry T I O R = some layer
      ∧ LayerResolves layer
      ∧ ∀ cell, cell ∈ layer.tileInfo →
          cell.tilesetIdx = SENTINEL ∨ cell.imageTileIdx = SENTINEL →
          cell.tilesetIdx = SENTINEL := by
  obtain ⟨info, hrun, hinv⟩ := LoadMapGeometry_inv T I O R hpar hfit
  refine ⟨_, hrun, ?_, ?_⟩
  · intro cell hmem
    rcases LoadInv_cells hinv cell hmem with hempty | ⟨ts, hget, hlt⟩
    · exact Or.inl (by rw [hempty]; rfl)
    · refine Or.inr ⟨getD_some_lt T _ ts hget, Or.inr ?_⟩
      show match T.getD cell.tilesetIdx none with
        | some ts => cell.imageTileIdx < ts.tiles.length
        | none => False
      rw [hget]
      exact hlt
  · intro cell hmem hs
    rcases hs with hs | hs
    · exact hs
    · rcases LoadInv_cells hinv cell hmem with hempty | ⟨ts, hget, hlt⟩
      · rw [hempty]
        rfl
      · have hk := getD_some_lt T _ ts hget
        have hfit1 := hfit cell.tilesetIdx hk
        rw [hget] at hfit1
        rw [hs] at hlt
        exact absurd hlt (not_lt.2 hfit1)

/-- C7: for every texel, `CalculateSdfDistance` returns 0, a sample that is not
solid, when the tileset index of the cell is the sentinel, and when its image
tile index is the sentinel with a tileset index inside the tilesets of the
layer, the case in which the read of the tileset pointer before the validity
test is defined; in a layer written by `Physics_LoadMapGeometry` this covers
every cell whose tileset index or image tile index is the sentinel: an empty
cell is never solid. -/
theorem CalculateSdfDistance_empty (layer : TilemapLayer) (tileInfo : TileInfo)
    (texel : Nat × Nat) :
    (tileInfo.tilesetIdx = SENTINEL ∨
        (tileInfo.imageTileIdx = SENTINEL ∧ tileInfo.tilesetIdx < layer.tilesets.length) →
        CalculateSdfDistance layer tileInfo texel = some 0
          ∧ ¬ ∃ d, CalculateSdfDistance layer tileInfo texel = some d ∧ 0 < d)
      ∧ (∀ (T : List (Option Tileset)) (I : List (List Nat)) (O : List (List (Nat × Nat)))
          (R : List (List TileOrientation)), Parallel T I O R → TilesetsFit T →
          Physics_LoadMapGeometry T I O R = some layer → tileInfo ∈ layer.tileInfo →
          (tileInfo.tilesetIdx = SENTINEL ∨ tileInfo.imageTileIdx = SENTINEL) →
          CalculateSdfDistance layer tileInfo texel = some 0
            ∧ ¬ ∃ d, CalculateSdfDistance layer tileInfo texel = some d ∧ 0 < d) := by
  have hzero : CalculateSdfDistance layer tileInfo texel = some 0 →
      CalculateSdfDistance layer tileInfo texel = some 0
        ∧ ¬ ∃ d, CalculateSdfDistance layer tileInfo texel = some d ∧ 0 < d := by
    intro h0
    refine ⟨h0, ?_⟩
    rintro ⟨d, hd, hpos⟩
    rw [h0] at hd
    simp only [Option.some.injEq] at hd
    rw [← hd] at hpos
    exact absurd hpos (lt_irrefl 0)
  refine ⟨fun h => hzero (sdf_of_sentinel layer tileInfo texel h), ?_⟩
  intro T I O R hpar hfit hrun hmem hs
  obtain ⟨layer1, hrun1, _, hcells⟩ := LoadMapGeometry_resolves T I O R hpar hfit
  rw [hrun] at hrun1
  simp only [Option.some.injEq] at hrun1
  subst hrun1
  exact hzero (sdf_of_sentinel layer tileInfo texel (Or.inl (hcells tileInfo hmem hs)))

/-- C7 at the empty cell of a cleared layer and at a cell whose image tile index
alone is the sentinel, its tileset index being that of the one tileset of the
layer. -/
theorem CalculateSdfDistance_empty_witness :
    CalculateSdfDistance TilemapLayer.cleared TileInfo.empty (7, 9) = some 0
      ∧ CalculateSdfDistance negativeLayer ⟨SENTINEL, 0, (0, 0), TileOrientation.None⟩ (7, 9)
          = some 0 :=
  ⟨((CalculateSdfDistance_empty TilemapLayer.cleared TileInfo.empty (7, 9)).1
      (Or.inl rfl)).1,
    ((CalculateSdfDistance_empty negativeLayer ⟨SENTINEL, 0, (0, 0), TileOrientation.None⟩
      (7, 9)).1 (Or.inr ⟨rfl, by decide⟩)).1⟩

/-! ### Tile queries -/

/-- A successful tile lookup yields the flat index of the cell that contains the
coordinate, inside the grid, and a texel of the 32x32 grid. -/
theorem CalculateTileIndices_some (origin : Int × Int) (w len idx : Nat) (texel : Nat × Nat)
    (h : CalculateTileIndices origin w len = some (idx, texel)) :
    idx = (origin.2.toNat / 32) * w + origin.1.toNat / 32 ∧ idx < len
      ∧ texel.1 < 32 ∧ texel.2 < 32 := by
  unfold CalculateTileIndices at h
  split at h
  · exact Option.noConfusion h
  · simp only [] at h
    split at h
    · exact Option.noConfusion h
    · rename_i hrange
      split at h
      · exact Option.noConfusion h
      · simp only [Option.some.injEq, Prod.mk.injEq] at h
        obtain ⟨hidx, htexel⟩ := h
        subst htexel
        have hw : origin.1.toNat / 32 < w := by omega
        have hh : origin.2.toNat / 32 + 1 ≤ len / w := by omega
        have h1 : (origin.2.toNat / 32 + 1) * w ≤ len / w * w := Nat.mul_le_mul_right _ hh
        have h2 : len / w * w ≤ len := Nat.div_mul_le_self len w
        rw [Nat.add_mul, Nat.one_mul] at h1
        exact ⟨hidx.symm, by omega, Nat.mod_lt _ (by decide), Nat.mod_lt _ (by decide)⟩

/-- In a layer whose cells resolve, every cell has a defined sample at every
texel of the 32x32 grid. -/
theorem CalculateSdfDistance_defined (layer : TilemapLayer) (hres : LayerResolves layer)
    (tileInfo : TileInfo) (hmem : tileInfo ∈ layer.tileInfo) (texel : Nat × Nat)
    (hx : texel.1 < 32) (hy : texel.2 < 32) :
    ∃ d, CalculateSdfDistance layer tileInfo texel = some d := by
  rcases hres tileInfo hmem with h | ⟨hlt, h⟩
  · exact ⟨0, sdf_of_sentinel layer tileInfo texel (Or.inl h)⟩
  · rcases h with h | h
    · exact ⟨0, sdf_of_sentinel layer tileInfo texel (Or.inr ⟨h, hlt⟩)⟩
    · by_cases hts : tileInfo.tilesetIdx = SENTINEL
      · exact ⟨0, sdf_of_sentinel layer tileInfo texel (Or.inl hts)⟩
      · by_cases hidx : tileInfo.imageTileIdx = SENTINEL
        · exact ⟨0, sdf_of_sentinel layer tileInfo texel (Or.inr ⟨hidx, hlt⟩)⟩
        · cases hget : layer.tilesets.getD tileInfo.tilesetIdx none with
          | none =>
            rw [hget] at h
            exact absurd h id
          | some ts =>
            rw [hget] at h
            simp only at h
            have hk := getD_some_lt layer.tilesets _ ts hget
            have hset : layer.tilesets[tileInfo.tilesetIdx]? = some (some ts) := by
              rw [getElem?_eq_some_getD layer.tilesets _ none hk, hget]
            have htile : ts.tiles[tileInfo.imageTileIdx]?
                = some (ts.tiles[tileInfo.imageTileIdx]) :=
              List.getElem?_eq_getElem h
            obtain ⟨x, y⟩ := texel
            exact ⟨_, (CalculateSdfDistance_resolved layer tileInfo ts _ x y hts hidx hset
              htile hx hy).1⟩

/-- One call of a ray callback on results without a collision: in a layer whose
cells resolve it is defined; it records the cell with the indices of its grid
cell when the sample of the cell satisfies the stop test, and changes nothing
otherwise. -/
theorem visitWith_spec (stop : ℚ → Prop) [DecidablePred stop] (layer : TilemapLayer)
    (hres : LayerResolves layer) (res : IntersectionResults) (cell : Int × Int)
    (hnc : res.collision = false) :
    (∃ d ti, sampleAt layer cell = some d ∧ stop d ∧ cellOf layer cell = some ti
        ∧ visitWith stop layer res cell
            = some ⟨true, cell, ti.imageTileIdx, ti.tilesetIdx⟩)
      ∨ ((¬ ∃ d, sampleAt layer cell = some d ∧ stop d)
          ∧ visitWith stop layer res cell = some res) := by
  unfold visitWith sampleAt cellOf
  simp only [hnc, Bool.false_eq_true, if_false]
  cases hlook : CalculateTileIndices cell layer.width layer.tileInfo.length with
  | none =>
    refine Or.inr ⟨?_, rfl⟩
    rintro ⟨d, hd, _⟩
    exact Option.noConfusion hd
  | some p =>
    obtain ⟨idx, texel⟩ := p
    obtain ⟨hidx, hlt, hx, hy⟩ := CalculateTileIndices_some cell _ _ idx texel hlook
    have hget : layer.tileInfo[idx]? = some (layer.tileInfo[idx]) := List.getElem?_eq_getElem hlt
    obtain ⟨d, hd⟩ := CalculateSdfDistance_defined layer hres (layer.tileInfo[idx])
      (List.getElem_mem hlt) texel hx hy
    simp only [hget, hd, gt_iff_lt, hlt, not_true_eq_false, if_false]
    by_cases hstop : stop d
    · refine Or.inl ⟨d, layer.tileInfo[idx], rfl, hstop, ?_, by simp [hstop]⟩
      rw [← hidx]
      exact hget
    · refine Or.inr ⟨?_, by simp [hstop]⟩
      rintro ⟨d1, hd1, hs1⟩
      simp only [Option.some.injEq] at hd1
      rw [← hd1] at hs1
      exact hstop hs1

/-- Once a collision is recorded the remaining calls of the callback change
nothing. -/
theorem foldlM_visitWith_collided (stop : ℚ → Prop) [DecidablePred stop]
    (layer : TilemapLayer) (cells : List (Int × Int)) (res : IntersectionResults)
    (h : res.collision = true) : cells.foldlM (visitWith stop layer) res = some res := by
  induction cells with
  | nil => rfl
  | cons c cs ih =>
    have hstep : visitWith stop layer res c = some res := by
      unfold visitWith
      simp [h]
    simp only [List.foldlM_cons, hstep]
    exact ih

/-- The walk over a sequence of cells, started without a collision: it is
defined in a layer whose cells resolve, and its result is either the untouched
start value, no cell satisfying the stop test, or the record of the first cell
that satisfies it. -/
theorem foldlM_visitWith_spec (stop : ℚ → Prop) [DecidablePred stop] (layer : TilemapLayer)
    (hres : LayerResolves layer) (cells : List (Int × Int)) (res0 : IntersectionResults)
    (hnc : res0.collision = false) :
    ∃ res, cells.foldlM (visitWith stop layer) res0 = some res
      ∧ ((res = res0 ∧ ∀ c, c ∈ cells → ¬ ∃ d, sampleAt layer c = some d ∧ stop d)
          ∨ ∃ pre c post d ti, cells = pre ++ c :: post
              ∧ (∀ p, p ∈ pre → ¬ ∃ d, sampleAt layer p = some d ∧ stop d)
              ∧ sampleAt layer c = some d ∧ stop d ∧ cellOf layer c = some ti
              ∧ res = ⟨true, c, ti.imageTileIdx, ti.tilesetIdx⟩) := by
  induction cells with
  | nil => exact ⟨res0, rfl, Or.inl ⟨rfl, fun c hc => absurd hc (List.not_mem_nil c)⟩⟩
  | cons c cs ih =>
    rcases visitWith_spec stop layer hres res0 c hnc with
      ⟨d, ti, hd, hstop, hcell, hvisit⟩ | ⟨hno, hvisit⟩
    · refine ⟨⟨true, c, ti.imageTileIdx, ti.tilesetIdx⟩, ?_, Or.inr
        ⟨[], c, cs, d, ti, rfl, fun p hp => absurd hp (List.not_mem_nil p), hd, hstop, hcell,
          rfl⟩⟩
      simp only [List.foldlM_cons, hvisit]
      exact foldlM_visitWith_collided stop layer cs _ rfl
    · obtain ⟨res, hrun, hcases⟩ := ih
      refine ⟨res, by simp only [List.foldlM_cons, hvisit]; exact hrun, ?_⟩
      rcases hcases with ⟨heq, hall⟩ | ⟨pre, c1, post, d, ti, hsplit, hpre, hd, hstop, hcell, hr⟩
      · refine Or.inl ⟨heq, ?_⟩
        intro p hp
        rcases List.mem_cons.1 hp with hpc | hp
        · rw [hpc]
          exact hno
        · exact hall p hp
      · refine Or.inr ⟨c :: pre, c1, post, d, ti, by rw [hsplit]; rfl, ?_, hd, hstop, hcell, hr⟩
        intro p hp
        rcases List.mem_cons.1 hp with hpc | hp
        · rw [hpc]
          exact hno
        · exact hpre p hp

theorem raycastVisit_eq (layer : TilemapLayer) :
    raycastVisit layer = visitWith (fun d => d > 0) layer := rfl

theorem inverseRaycastVisit_eq (layer : TilemapLayer) :
    inverseRaycastVisit layer = visitWith (fun d => d = 0) layer := rfl

theorem solidLayer_resolves : LayerResolves solidLayer := by
  intro tileInfo hmem
  simp only [solidLayer, List.mem_cons, List.mem_singleton, List.not_mem_nil, or_false] at hmem
  rcases hmem with h | h
  · exact Or.inl (by rw [h]; rfl)
  · refine Or.inr ⟨?_, Or.inr ?_⟩
    · rw [h]
      show 0 < 1
      decide
    · rw [h]
      show 0 < 1
      decide

/-- C8: in a layer whose cells resolve, `Physics_IntersectionRaycast` is defined
for every ray and every enumeration `line` of the cells of the ray; it reports
a collision exactly when some visited cell is solid (positive sample); the
origin of the result is then the first solid cell of the sequence and its tile
and tileset indices are those of the grid cell that contains it; when no
visited cell is solid the result is the no-collision value. -/
theorem IntersectionRaycast_first_solid (line : Int × Int → Int × Int → List (Int × Int))
    (layer : TilemapLayer) (queries : DebugQueries) (ray : IntersectorRay)
    (hres : LayerResolves layer) :
    ∃ res, Physics_IntersectionRaycast line layer queries ray
        = some (res.collision, res, queries.AddRay ray res)
      ∧ (res.collision = true ↔
          ∃ c, c ∈ line ray.beginOrigin ray.endOrigin ∧ Solid layer c)
      ∧ (res.collision = true →
          ∃ pre post ti, line ray.beginOrigin ray.endOrigin = pre ++ res.origin :: post
            ∧ (∀ p, p ∈ pre → ¬ Solid layer p) ∧ Solid layer res.origin
            ∧ cellOf layer res.origin = some ti
            ∧ res.imageTileIdx = ti.imageTileIdx ∧ res.tilesetIdx = ti.tilesetIdx)
      ∧ ((∀ c, c ∈ line ray.beginOrigin ray.endOrigin → ¬ Solid layer c) →
          res = IntersectionResults.noCollision) := by
  obtain ⟨res, hrun, hcases⟩ := foldlM_visitWith_spec (fun d => d > 0) layer hres
    (line ray.beginOrigin ray.endOrigin) IntersectionResults.noCollision rfl
  refine ⟨res, ?_, ?_⟩
  · unfold Physics_IntersectionRaycast
    rw [raycastVisit_eq, hrun]
  · rcases hcases with ⟨heq, hall⟩ | ⟨pre, c, post, d, ti, hsplit, hpre, hd, hstop, hcell, hr⟩
    · have hfalse : res.collision = false := by rw [heq]; rfl
      refine ⟨?_, ?_, fun _ => heq⟩
      · constructor
        · intro h
          rw [hfalse] at h
          exact Bool.noConfusion h
        · rintro ⟨c, hc, d, hd, hpos⟩
          exact absurd ⟨d, hd, hpos⟩ (hall c hc)
      · intro h
        rw [hfalse] at h
        exact Bool.noConfusion h
    · have hsolid : Solid layer c := ⟨d, hd, hstop⟩
      subst hr
      refine ⟨?_, ?_, ?_⟩
      · exact ⟨fun _ => ⟨c, by rw [hsplit]; simp, hsolid⟩, fun _ => rfl⟩
      · intro _
        exact ⟨pre, post, ti, hsplit, fun p hp hs => hpre p hp hs, hsolid, hcell, rfl, rfl⟩
      · intro hnone
        exact absurd hsolid (hnone c (by rw [hsplit]; simp))

/-- C8 on the ray from `(0, 0)` to `(40, 3)` over an empty cell followed by a
solid one: the hit is the first cell of the line inside the solid tile. -/
theorem IntersectionRaycast_first_solid_witness :
    LayerResolves solidLayer
      ∧ ∃ res, Physics_IntersectionRaycast BresenhamLine solidLayer ⟨[], []⟩
            ⟨(0, 0), (40, 3)⟩
          = some (res.collision, res,
              DebugQueries.AddRay ⟨[], []⟩ ⟨(0, 0), (40, 3)⟩ res)
          ∧ res = ⟨true, (32, 2), 0, 0⟩ := by
  obtain ⟨res, hrun, _, _, _⟩ := IntersectionRaycast_first_solid BresenhamLine solidLayer
    ⟨[], []⟩ ⟨(0, 0), (40, 3)⟩ solidLayer_resolves
  refine ⟨solidLayer_resolves, res, hrun, ?_⟩
  have h2 : Physics_IntersectionRaycast BresenhamLine solidLayer ⟨[], []⟩ ⟨(0, 0), (40, 3)⟩
      = some (true, ⟨true, (32, 2), 0, 0⟩,
          ⟨[], [(⟨(0, 0), (40, 3)⟩, ⟨true, (32, 2), 0, 0⟩)]⟩) := by decide
  rw [h2] at hrun
  simp only [Option.some.injEq, Prod.mk.injEq] at hrun
  exact hrun.2.1.symm

/-- The callback of the inverse walk compares the sample with `0.0f` for
equality: over a tile whose samples are all `-1`, which no tileset processed
from an image holds, the ray from `(0, 0)` to `(2, 0)` passes the cell
`(0, 0)` and no collision is reported. -/
theorem InverseRaycast_passes_negative_sample :
    ((0, 0) ∈ BresenhamLine (0, 0) (2, 0) ∧ NonSolid negativeLayer (0, 0))
      ∧ Physics_InverseSceneIntersectionRaycast BresenhamLine negativeLayer ⟨[], []⟩
          ⟨(0, 0), (2, 0)⟩
        = some (false, IntersectionResults.noCollision,
            ⟨[], [(⟨(0, 0), (2, 0)⟩, IntersectionResults.noCollision)]⟩) := by
  refine ⟨⟨by decide, -1, by decide, by decide⟩, by decide⟩

/-- In a layer whose cells resolve, `Physics_InverseSceneIntersectionRaycast` is
defined for every ray and every enumeration `line` of the cells of the ray; it
reports a collision exactly when some visited cell lies in the grid and has a
sample equal to zero; the origin of the result is then the first such cell of
the sequence and its tile and tileset indices are those of the grid cell that
contains it; otherwise the result is the no-collision value. -/
theorem inverseRaycast_zero_sample (line : Int × Int → Int × Int → List (Int × Int))
    (layer : TilemapLayer) (queries : DebugQueries) (ray : IntersectorRay)
    (hres : LayerResolves layer) :
    ∃ res, Physics_InverseSceneIntersectionRaycast line layer queries ray
        = some (res.collision, res, queries.AddRay ray res)
      ∧ (res.collision = true ↔
          ∃ c, c ∈ line ray.beginOrigin ray.endOrigin ∧ ZeroSample layer c)
      ∧ (res.collision = true →
          ∃ pre post ti, line ray.beginOrigin ray.endOrigin = pre ++ res.origin :: post
            ∧ (∀ p, p ∈ pre → ¬ ZeroSample layer p) ∧ ZeroSample layer res.origin
            ∧ cellOf layer res.origin = some ti
            ∧ res.imageTileIdx = ti.imageTileIdx ∧ res.tilesetIdx = ti.tilesetIdx)
      ∧ ((∀ c, c ∈ line ray.beginOrigin ray.endOrigin → ¬ ZeroSample layer c) →
          res = IntersectionResults.noCollision) := by
  have hzero : ∀ c, ZeroSample layer c ↔ ∃ d, sampleAt layer c = some d ∧ d = 0 := by
    intro c
    constructor
    · intro h
      exact ⟨0, h, rfl⟩
    · rintro ⟨d, hd, h0⟩
      rw [h0] at hd
      exact hd
  obtain ⟨res, hrun, hcases⟩ := foldlM_visitWith_spec (fun d => d = 0) layer hres
    (line ray.beginOrigin ray.endOrigin) IntersectionResults.noCollision rfl
  refine ⟨res, ?_, ?_⟩
  · unfold Physics_InverseSceneIntersectionRaycast
    rw [inverseRaycastVisit_eq, hrun]
  · rcases hcases with ⟨heq, hall⟩ | ⟨pre, c, post, d, ti, hsplit, hpre, hd, hstop, hcell, hr⟩
    · have hfalse : res.collision = false := by rw [heq]; rfl
      refine ⟨?_, ?_, fun _ => heq⟩
      · constructor
        · intro h
          rw [hfalse] at h
          exact Bool.noConfusion h
        · rintro ⟨c, hc, hz⟩
          exact absurd ((hzero c).1 hz) (hall c hc)
      · intro h
        rw [hfalse] at h
        exact Bool.noConfusion h
    · have hz : ZeroSample layer c := (hzero c).2 ⟨d, hd, hstop⟩
      subst hr
      refine ⟨?_, ?_, ?_⟩
      · exact ⟨fun _ => ⟨c, by rw [hsplit]; simp, hz⟩, fun _ => rfl⟩
      · intro _
        exact ⟨pre, post, ti, hsplit, fun p hp hs => hpre p hp ((hzero p).1 hs), hz, hcell,
          rfl, rfl⟩
      · intro hnone
        exact absurd hz (hnone c (by rw [hsplit]; simp))

/-- A defined sample of a layer whose stored samples are zero or positive is
zero or positive. -/
theorem CalculateSdfDistance_nonneg (layer : TilemapLayer) (hnn : SamplesNonneg layer)
    (tileInfo : TileInfo) (texel : Nat × Nat) (d : ℚ)
    (h : CalculateSdfDistance layer tileInfo texel = some d) : 0 ≤ d := by
  unfold CalculateSdfDistance at h
  split at h
  · simp only [Option.some.injEq] at h
    rw [← h]
  · split at h
    · exact Option.noConfusion h
    · rename_i tileset hset
      split at h
      · simp only [Option.some.injEq] at h
        rw [← h]
      · split at h
        · rename_i ts
          split at h
          · rename_i physicsTile htile
            have hlast : ∀ t : Nat × Nat,
                (if t.1 < gridSize ∧ t.2 < gridSize
                  then some (physicsTile.signedDistanceField t.1 t.2) else none) = some d →
                0 ≤ d := by
              intro t ht
              by_cases hlt : t.1 < gridSize ∧ t.2 < gridSize
              · rw [if_pos hlt] at ht
                simp only [Option.some.injEq] at ht
                rw [← ht]
                exact hnn ts physicsTile (List.getElem?_mem hset)
                  (List.getElem?_mem htile) _ _ hlt.1 hlt.2
              · rw [if_neg hlt] at ht
                exact Option.noConfusion ht
            exact hlast _ h
          · exact Option.noConfusion h
        · exact Option.noConfusion h

/-- In a layer whose stored samples are zero or positive, a texel is not solid
exactly when its sample is zero. -/
theorem nonSolid_iff_zeroSample (layer : TilemapLayer) (hnn : SamplesNonneg layer)
    (c : Int × Int) : NonSolid layer c ↔ ZeroSample layer c := by
  constructor
  · rintro ⟨d, hd, hle⟩
    have hge : 0 ≤ d := by
      unfold sampleAt at hd
      split at hd
      · exact Option.noConfusion hd
      · split at hd
        · exact Option.noConfusion hd
        · exact CalculateSdfDistance_nonneg layer hnn _ _ d hd
    have h0 : d = 0 := le_antisymm hle hge
    rw [h0] at hd
    exact hd
  · intro h
    exact ⟨0, h, le_refl 0⟩

theorem solidLayer_nonneg : SamplesNonneg solidLayer := by
  intro ts tile hts htile x y _ _
  simp only [solidLayer, List.mem_singleton, Option.some.injEq] at hts
  subst hts
  simp only [List.mem_singleton] at htile
  subst htile
  show (0 : ℚ) ≤ 1
  decide

/-- C9: in a layer whose cells resolve and whose stored samples are zero or
positive (alpha values, as `Physics_ProcessTileset` writes them),
`Physics_InverseSceneIntersectionRaycast` is defined for every ray and every
enumeration `line` of the cells of the ray; it stops at the first cell of the
sequence whose sample is zero or negative: it reports a collision exactly when
such a cell is visited, the origin of the result is then the first such cell and
its tile and tileset indices are those of the grid cell that contains it; when
no such cell is visited the result is the no-collision value. -/
theorem InverseRaycast_first_nonsolid (line : Int × Int → Int × Int → List (Int × Int))
    (layer : TilemapLayer) (queries : DebugQueries) (ray : IntersectorRay)
    (hres : LayerResolves layer) (hnn : SamplesNonneg layer) :
    ∃ res, Physics_InverseSceneIntersectionRaycast line layer queries ray
        = some (res.collision, res, queries.AddRay ray res)
      ∧ (res.collision = true ↔
          ∃ c, c ∈ line ray.beginOrigin ray.endOrigin ∧ NonSolid layer c)
      ∧ (res.collision = true →
          ∃ pre post ti, line ray.beginOrigin ray.endOrigin = pre ++ res.origin :: post
            ∧ (∀ p, p ∈ pre → ¬ NonSolid layer p) ∧ NonSolid layer res.origin
            ∧ cellOf layer res.origin = some ti
            ∧ res.imageTileIdx = ti.imageTileIdx ∧ res.tilesetIdx = ti.tilesetIdx)
      ∧ ((∀ c, c ∈ line ray.beginOrigin ray.endOrigin → ¬ NonSolid layer c) →
          res = IntersectionResults.noCollision) := by
  obtain ⟨res, hrun, hiff, hfirst, hnone⟩ :=
    inverseRaycast_zero_sample line layer queries ray hres
  have hz := nonSolid_iff_zeroSample layer hnn
  refine ⟨res, hrun, ?_, ?_, ?_⟩
  · constructor
    · intro h
      obtain ⟨c, hc, hzero⟩ := hiff.1 h
      exact ⟨c, hc, (hz c).2 hzero⟩
    · rintro ⟨c, hc, hns⟩
      exact hiff.2 ⟨c, hc, (hz c).1 hns⟩
  · intro h
    obtain ⟨pre, post, ti, hsplit, hpre, hzero, hcell, h1, h2⟩ := hfirst h
    exact ⟨pre, post, ti, hsplit, fun p hp hns => hpre p hp ((hz p).1 hns),
      (hz res.origin).2 hzero, hcell, h1, h2⟩
  · intro hall
    exact hnone (fun c hc hzero => hall c hc ((hz c).2 hzero))

/-- C9 on the ray from `(40, 0)` to `(20, 3)` that starts inside the solid cell:
the walk stops at the first texel of the empty cell. -/
theorem InverseRaycast_first_nonsolid_witness :
    LayerResolves solidLayer ∧ SamplesNonneg solidLayer
      ∧ ∃ res, Physics_InverseSceneIntersectionRaycast BresenhamLine solidLayer ⟨[], []⟩
            ⟨(40, 0), (20, 3)⟩
          = some (res.collision, res,
              DebugQueries.AddRay ⟨[], []⟩ ⟨(40, 0), (20, 3)⟩ res)
          ∧ res = ⟨true, (31, 1), SENTINEL, SENTINEL⟩ := by
  obtain ⟨res, hrun, _, _, _⟩ := InverseRaycast_first_nonsolid BresenhamLine solidLayer
    ⟨[], []⟩ ⟨(40, 0), (20, 3)⟩ solidLayer_resolves solidLayer_nonneg
  refine ⟨solidLayer_resolves, solidLayer_nonneg, res, hrun, ?_⟩
  have h2 : Physics_InverseSceneIntersectionRaycast BresenhamLine solidLayer ⟨[], []⟩
      ⟨(40, 0), (20, 3)⟩
      = some (true, ⟨true, (31, 1), SENTINEL, SENTINEL⟩,
          ⟨[], [(⟨(40, 0), (20, 3)⟩, ⟨true, (31, 1), SENTINEL, SENTINEL⟩)]⟩) := by decide
  rw [h2] at hrun
  simp only [Option.some.injEq, Prod.mk.injEq] at hrun
  exact hrun.2.1.symm

/-- C10: in a layer whose cells resolve, `Physics_IntersectionPoint` is defined
for every point and appends exactly one record `(point, result)` to the point
buffer of the recorder, leaving the ray buffer alone; it returns true exactly
when the tile lookup succeeds and the sample is positive; the recorded result is
then the returned hit, whose origin is the queried point and whose indices are
those of the grid cell, and it is the no-collision value when the call returns
false. -/
theorem IntersectionPoint_records (layer : TilemapLayer) (queries : DebugQueries)
    (point : IntersectorPoint) (hres : LayerResolves layer) :
    ∃ hit res queries1, Physics_IntersectionPoint layer queries point
        = some (hit, res, queries1)
      ∧ queries1.intersectorPoints = queries.intersectorPoints ++ [(point, res)]
      ∧ queries1.intersectorRays = queries.intersectorRays
      ∧ (hit = true ↔ Solid layer point.origin)
      ∧ (hit = true →
          res.collision = true ∧ res.origin = point.origin
            ∧ ∃ ti, cellOf layer point.origin = some ti
                ∧ res.imageTileIdx = ti.imageTileIdx ∧ res.tilesetIdx = ti.tilesetIdx)
      ∧ (hit = false → res = IntersectionResults.noCollision) := by
  unfold Physics_IntersectionPoint Solid sampleAt cellOf
  cases hlook : CalculateTileIndices point.origin layer.width layer.tileInfo.length with
  | none =>
    refine ⟨false, IntersectionResults.noCollision, _, rfl, rfl, rfl, ?_, ?_, fun _ => rfl⟩
    · constructor
      · intro h
        exact Bool.noConfusion h
      · rintro ⟨d, hd, _⟩
        exact Option.noConfusion hd
    · intro h
      exact Bool.noConfusion h
  | some p =>
    obtain ⟨idx, texel⟩ := p
    obtain ⟨hidx, hlt, hx, hy⟩ := CalculateTileIndices_some point.origin _ _ idx texel hlook
    have hget : layer.tileInfo[idx]? = some (layer.tileInfo[idx]) := List.getElem?_eq_getElem hlt
    obtain ⟨d, hd⟩ := CalculateSdfDistance_defined layer hres (layer.tileInfo[idx])
      (List.getElem_mem hlt) texel hx hy
    simp only [hget, hd, gt_iff_lt, hlt, not_true_eq_false, if_false]
    by_cases hpos : 0 < d
    · simp only [hpos, if_true]
      refine ⟨true, _, _, rfl, rfl, rfl, ?_, ?_, ?_⟩
      · exact ⟨fun _ => ⟨d, rfl, hpos⟩, fun _ => rfl⟩
      · intro _
        refine ⟨rfl, rfl, layer.tileInfo[idx], ?_, rfl, rfl⟩
        rw [← hidx]
        exact hget
      · intro h
        exact Bool.noConfusion h
    · simp only [hpos, if_false]
      refine ⟨false, IntersectionResults.noCollision, _, rfl, rfl, rfl, ?_, ?_, fun _ => rfl⟩
      · constructor
        · intro h
          exact Bool.noConfusion h
        · rintro ⟨d1, hd1, hpos1⟩
          simp only [Option.some.injEq] at hd1
          rw [← hd1] at hpos1
          exact absurd hpos1 hpos
      · intro h
        exact Bool.noConfusion h

/-- C10 on a point inside the solid cell, with one earlier record in the
recorder: the call returns true and appends the hit after the earlier
record. -/
theorem IntersectionPoint_records_witness :
    LayerResolves solidLayer
      ∧ ∃ hit res queries1, Physics_IntersectionPoint solidLayer
            ⟨[(⟨(4, 3)⟩, IntersectionResults.noCollision)], []⟩ ⟨(40, 3)⟩
          = some (hit, res, queries1)
          ∧ queries1.intersectorPoints
              = [(⟨(4, 3)⟩, IntersectionResults.noCollision)] ++ [(⟨(40, 3)⟩, res)]
          ∧ hit = true ∧ res = ⟨true, (40, 3), 0, 0⟩ := by
  obtain ⟨hit, res, queries1, hrun, hpoints, _, _, _, _⟩ := IntersectionPoint_records
    solidLayer ⟨[(⟨(4, 3)⟩, IntersectionResults.noCollision)], []⟩ ⟨(40, 3)⟩
    solidLayer_resolves
  refine ⟨solidLayer_resolves, hit, res, queries1, hrun, hpoints, ?_⟩
  have h2 : Physics_IntersectionPoint solidLayer
      ⟨[(⟨(4, 3)⟩, IntersectionResults.noCollision)], []⟩ ⟨(40, 3)⟩
      = some (true, ⟨true, (40, 3), 0, 0⟩,
          ⟨[(⟨(4, 3)⟩, IntersectionResults.noCollision),
            (⟨(40, 3)⟩, ⟨true, (40, 3), 0, 0⟩)], []⟩) := by decide
  rw [h2] at hrun
  simp only [Option.some.injEq, Prod.mk.injEq] at hrun
  exact ⟨hrun.1.symm, hrun.2.1.symm⟩

/-! ### Entity queries: rays and circles against hitboxes -/

/-- The slab computation written with its parts named. -/
theorem rayAabbSlab_eq {F : Type} [LinearOrderedField F] (normal : F × F) (len : F)
    (rayBegin aabbOrigin aabbDim : F × F) :
    rayAabbSlab normal len rayBegin aabbOrigin aabbDim
      = slabResult
          (max
            (min (((GetAabbMin aabbOrigin aabbDim).1 - rayBegin.1) * slabInverse normal.1)
              (((GetAabbMax aabbOrigin aabbDim).1 - rayBegin.1) * slabInverse normal.1))
            (min (((GetAabbMin aabbOrigin aabbDim).2 - rayBegin.2) * slabInverse normal.2)
              (((GetAabbMax aabbOrigin aabbDim).2 - rayBegin.2) * slabInverse normal.2)))
          (min
            (max (((GetAabbMin aabbOrigin aabbDim).1 - rayBegin.1) * slabInverse normal.1)
              (((GetAabbMax aabbOrigin aabbDim).1 - rayBegin.1) * slabInverse normal.1))
            (max (((GetAabbMin aabbOrigin aabbDim).2 - rayBegin.2) * slabInverse normal.2)
              (((GetAabbMax aabbOrigin aabbDim).2 - rayBegin.2) * slabInverse normal.2)))
          len := rfl

/-- A ray whose length is not positive is never reported: the function returns
early or fails `t > 0 && t < len`. -/
theorem slabResult_nonpos_len {F : Type} [LinearOrderedField F] (tmin tmax len : F)
    (hlen : len ≤ 0) : (slabResult tmin tmax len).1 = false := by
  unfold slabResult
  split
  · rfl
  · simp only [decide_eq_false_iff_not, not_and, not_lt, gt_iff_lt]
    intro h
    exact le_trans hlen (le_of_lt h)

/-- A ray whose length is not positive is never reported, whatever the
normalised direction. -/
theorem rayAabbSlab_nonpos_len {F : Type} [LinearOrderedField F] (normal : F × F) (len : F)
    (rayBegin aabbOrigin aabbDim : F × F) (hlen : len ≤ 0) :
    (rayAabbSlab normal len rayBegin aabbOrigin aabbDim).1 = false := by
  rw [rayAabbSlab_eq]
  exact slabResult_nonpos_len _ _ _ hlen

/-- The square root of `0` being `0`, the length of the zero vector is `0`. -/
theorem vlength_self_sub {F : Type} [LinearOrderedField F] (sqrt : F → F) (hsqrt : sqrt 0 = 0)
    (p : F × F) : vlength sqrt (p.1 - p.1, p.2 - p.2) = 0 := by
  unfold vlength
  simp [hsqrt]

/-- The ray loop over the registry view leaves the results untouched when no
hitbox is reported. -/
theorem foldl_raycast_none {F : Type} [LinearOrderedField F] [FloorRing F] (sqrt : F → F)
    (rayOriginBegin rayOriginEnd : F × F) (view : List (HitboxEntity F))
    (results : EntityIntersectionResults)
    (hall : ∀ e, e ∈ view →
      (IntersectionRayAabb sqrt rayOriginBegin rayOriginEnd e.origin
        ((e.dimensions.1 : F), (e.dimensions.2 : F))).1 = false) :
    view.foldl (entityRaycastStep sqrt rayOriginBegin rayOriginEnd) results = results := by
  induction view generalizing results with
  | nil => rfl
  | cons e es ih =>
    have he := hall e (List.mem_cons_self _ _)
    have hstep : entityRaycastStep sqrt rayOriginBegin rayOriginEnd results e = results := by
      unfold entityRaycastStep
      split
      · rename_i t heq
        rw [heq] at he
        exact Bool.noConfusion he
      · rfl
    simp only [List.foldl_cons, hstep]
    exact ih results (fun e1 h1 => hall e1 (List.mem_cons_of_mem _ h1))

/-- C13: a zero-length ray (`rayBegin = rayEnd = p`) is reported as not
intersecting by `IntersectionRayAabb` for every AABB; this holds for every value
the `normalize` step may yield on the zero vector, because the length of the ray
is 0; hence `Physics_EntityIntersectionRaycast` with a zero-length ray returns
an empty entity list for every registry view. -/
theorem IntersectionRayAabb_zero_length {F : Type} [LinearOrderedField F] [FloorRing F]
    (sqrt : F → F) (hsqrt : sqrt 0 = 0) (p aabbOrigin aabbDim : F × F) :
    (IntersectionRayAabb sqrt p p aabbOrigin aabbDim).1 = false
      ∧ (∀ normal : F × F, (rayAabbSlab normal 0 p aabbOrigin aabbDim).1 = false)
      ∧ ∀ (view : List (HitboxEntity F)) (q : Int × Int)
          (results : EntityIntersectionResults),
          (Physics_EntityIntersectionRaycast sqrt view ⟨q, q⟩ results).entities = [] := by
  refine ⟨?_, ?_, ?_⟩
  · unfold IntersectionRayAabb
    exact rayAabbSlab_nonpos_len _ _ _ _ _ (le_of_eq (vlength_self_sub sqrt hsqrt p))
  · intro normal
    exact rayAabbSlab_nonpos_len _ _ _ _ _ (le_refl 0)
  · intro view q results
    unfold Physics_EntityIntersectionRaycast
    simp only []
    rw [foldl_raycast_none sqrt ((q.1 : F), (q.2 : F)) ((q.1 : F), (q.2 : F)) view]
    intro e _
    unfold IntersectionRayAabb
    exact rayAabbSlab_nonpos_len _ _ _ _ _
      (le_of_eq (vlength_self_sub sqrt hsqrt ((q.1 : F), (q.2 : F))))

/-- C13 over the reals with the real square root: the zero-length ray at
`(2, 3)` misses the box centred at `(2, 3)`, and the entity query at `(2, 3)`
over a view with that box returns no entity. -/
theorem IntersectionRayAabb_zero_length_witness :
    Real.sqrt 0 = 0
      ∧ (IntersectionRayAabb Real.sqrt ((2 : ℝ), 3) (2, 3) (2, 3) (4, 4)).1 = false
      ∧ (Physics_EntityIntersectionRaycast Real.sqrt [⟨7, (4, 4), ((2 : ℝ), 3)⟩]
          ⟨(2, 3), (2, 3)⟩ ⟨false, []⟩).entities = [] :=
  ⟨Real.sqrt_zero,
    (IntersectionRayAabb_zero_length Real.sqrt Real.sqrt_zero ((2 : ℝ), 3) (2, 3) (4, 4)).1,
    (IntersectionRayAabb_zero_length Real.sqrt Real.sqrt_zero ((2 : ℝ), 3) (2, 3)
      (4, 4)).2.2 [⟨7, (4, 4), ((2 : ℝ), 3)⟩] (2, 3) ⟨false, []⟩⟩

/-- A coordinate on either side of a box is left unchanged by the clamp to the
box. -/
theorem glmClamp_side {F : Type} [LinearOrderedField F] (o w : F) (side : Bool) :
    glmClamp (if side then o + w / 2 else o - w / 2) (min (o - w / 2) (o + w / 2))
        (max (o - w / 2) (o + w / 2))
      = if side then o + w / 2 else o - w / 2 := by
  unfold glmClamp
  cases side
  · simp only [Bool.false_eq_true, if_false]
    rw [max_eq_left (min_le_left _ _), min_eq_left (le_max_left _ _)]
  · simp only [if_true]
    rw [max_eq_left (min_le_right _ _), min_eq_left (le_max_right _ _)]

/-- A circle centred on a corner of an AABB, with a radius that is not negative,
is reported as intersecting, the closest point being the corner. -/
theorem circle_on_corner {F : Type} [LinearOrderedField F] (sqrt : F → F)
    (hsqrt : sqrt 0 = 0) (aabbOrigin aabbDim : F × F) (right top : Bool) (r : F)
    (hr : 0 ≤ r) :
    IntersectionCircleAabb sqrt (aabbCorner aabbOrigin aabbDim right top) r aabbOrigin aabbDim
      = (true, aabbCorner aabbOrigin aabbDim right top) := by
  unfold IntersectionCircleAabb
  simp only [aabbCorner, GetAabbMin, GetAabbMax, glmClamp_side, vlength, sub_self, mul_zero,
    add_zero, hsqrt, hr, decide_True]

/-- C14, as stated, fails: over the reals, the circle of radius 0 centred on the
corner `(0, 0)` of the box with origin `(3, 4)` and dimensions `(6, 8)` is
reported as intersecting. -/
theorem IntersectionCircleAabb_zero_radius_corner_reported :
    aabbCorner ((3 : ℝ), 4) (6, 8) false false = (0, 0)
      ∧ IntersectionCircleAabb Real.sqrt ((0 : ℝ), 0) 0 (3, 4) (6, 8) = (true, (0, 0)) := by
  have hc : aabbCorner ((3 : ℝ), 4) (6, 8) false false = (0, 0) := by
    simp only [aabbCorner, Bool.false_eq_true, if_false]
    norm_num
  refine ⟨hc, ?_⟩
  have h := circle_on_corner Real.sqrt Real.sqrt_zero ((3 : ℝ), 4) (6, 8) false false 0
    (le_refl 0)
  rw [hc] at h
  exact h

/-- C14, amended: for every AABB and each of its four corners, a circle of
radius 0 centred exactly on the corner is reported as intersecting by
`IntersectionCircleAabb` (the distance 0 passes the test `<= radius`), and the
closest point written is the corner. -/
theorem IntersectionCircleAabb_corner_radius_zero {F : Type} [LinearOrderedField F]
    (sqrt : F → F) (hsqrt : sqrt 0 = 0) (aabbOrigin aabbDim : F × F) (right top : Bool) :
    IntersectionCircleAabb sqrt (aabbCorner aabbOrigin aabbDim right top) 0 aabbOrigin aabbDim
      = (true, aabbCorner aabbOrigin aabbDim right top) :=
  circle_on_corner sqrt hsqrt aabbOrigin aabbDim right top 0 (le_refl 0)

/-- C14, amended, over the reals at the upper right corner of the box with
origin `(3, 4)` and dimensions `(6, 8)`. -/
theorem IntersectionCircleAabb_corner_radius_zero_witness :
    Real.sqrt 0 = 0
      ∧ IntersectionCircleAabb Real.sqrt (aabbCorner ((3 : ℝ), 4) (6, 8) true true) 0
          (3, 4) (6, 8) = (true, aabbCorner ((3 : ℝ), 4) (6, 8) true true) :=
  ⟨Real.sqrt_zero,
    IntersectionCircleAabb_corner_radius_zero Real.sqrt Real.sqrt_zero ((3 : ℝ), 4) (6, 8)
      true true⟩

/-- Rounding an integer gives the integer. -/
theorem glmRound_intCast {F : Type} [LinearOrderedField F] [FloorRing F] (n : Int) :
    glmRound (n : F) = n := by
  unfold glmRound
  split
  · rw [Int.floor_int_add]
    have h : ⌊(1 / 2 : F)⌋ = 0 := by
      rw [Int.floor_eq_iff]
      constructor <;> norm_num
    rw [h, add_zero]
  · rw [sub_eq_add_neg, add_comm, Int.ceil_add_int]
    have h : ⌈(-(1 / 2) : F)⌉ = 0 := by
      rw [Int.ceil_eq_iff]
      constructor <;> norm_num
    rw [h, zero_add]

/-- The circle loop appends to the entity list, in order, the hits that the
spec prescribes. -/
theorem foldl_circle_entities {F : Type} [LinearOrderedField F] [FloorRing F] (sqrt : F → F)
    (circle : IntersectorCircle F) (view : List (HitboxEntity F))
    (results : EntityIntersectionResults) :
    (view.foldl (entityCircleStep sqrt circle) results).entities
      = results.entities ++ circleHits sqrt view circle := by
  induction view generalizing results with
  | nil => simp [circleHits]
  | cons e es ih =>
    rw [List.foldl_cons, ih]
    by_cases hhit : vlength sqrt
        ((circle.origin.1 : F)
            - (closestPoint e ((circle.origin.1 : F), (circle.origin.2 : F))).1,
          (circle.origin.2 : F)
            - (closestPoint e ((circle.origin.1 : F), (circle.origin.2 : F))).2)
        ≤ circle.radius
    · have hstep : (entityCircleStep sqrt circle results e).entities
          = results.entities
            ++ [((glmRound (closestPoint e ((circle.origin.1 : F), (circle.origin.2 : F))).1,
                glmRound (closestPoint e ((circle.origin.1 : F), (circle.origin.2 : F))).2),
              e.entity)] := by
        unfold entityCircleStep IntersectionCircleAabb closestPoint glmClamp at *
        simp only [hhit, decide_True]
      rw [hstep]
      simp only [circleHits, List.filter_cons, hhit, decide_True, if_true, List.map_cons,
        List.append_assoc, List.singleton_append]
    · have hstep : (entityCircleStep sqrt circle results e).entities = results.entities := by
        unfold entityCircleStep IntersectionCircleAabb closestPoint glmClamp at *
        simp only [hhit, decide_False]
      rw [hstep]
      simp only [circleHits, List.filter_cons, hhit, decide_False, Bool.false_eq_true, if_false]

/-- C15: for every circle, every registry view and every results object passed
in, the entity list produced by `Physics_EntityIntersectionCircle` is the list
of the entities of the view, in iteration order, whose closest point (the
centre clamped to the box) lies at distance at most the radius, each tagged with
the rounded closest point; an entity of the view one corner of whose box is the
centre of the circle is reported, tagged with the centre, as soon as the radius
is not negative. -/
theorem EntityIntersectionCircle_subsequence {F : Type} [LinearOrderedField F] [FloorRing F]
    (sqrt : F → F) (hsqrt : sqrt 0 = 0) (view : List (HitboxEntity F))
    (circle : IntersectorCircle F) (results : EntityIntersectionResults) :
    (Physics_EntityIntersectionCircle sqrt view circle results).entities
        = circleHits sqrt view circle
      ∧ ∀ e right top, e ∈ view → 0 ≤ circle.radius →
          ((circle.origin.1 : F), (circle.origin.2 : F))
            = aabbCorner e.origin ((e.dimensions.1 : F), (e.dimensions.2 : F)) right top →
          (circle.origin, e.entity)
            ∈ (Physics_EntityIntersectionCircle sqrt view circle results).entities := by
  have hlist : (Physics_EntityIntersectionCircle sqrt view circle results).entities
      = circleHits sqrt view circle := by
    unfold Physics_EntityIntersectionCircle
    rw [foldl_circle_entities]
    rfl
  refine ⟨hlist, ?_⟩
  intro e right top hmem hr hcorner
  rw [hlist]
  have hhit := circle_on_corner sqrt hsqrt e.origin
    ((e.dimensions.1 : F), (e.dimensions.2 : F)) right top circle.radius hr
  rw [← hcorner] at hhit
  unfold IntersectionCircleAabb at hhit
  simp only [Prod.mk.injEq, decide_eq_true_eq] at hhit
  obtain ⟨hdist, hc1, hc2⟩ := hhit
  unfold circleHits
  simp only [List.mem_map, List.mem_filter, decide_eq_true_eq]
  refine ⟨e, ⟨hmem, ?_⟩, ?_⟩
  · unfold closestPoint
    unfold glmClamp at hdist
    exact hdist
  · have h1 : (closestPoint e ((circle.origin.1 : F), (circle.origin.2 : F))).1
        = (circle.origin.1 : F) := by
      unfold closestPoint
      unfold glmClamp at hc1
      exact hc1
    have h2 : (closestPoint e ((circle.origin.1 : F), (circle.origin.2 : F))).2
        = (circle.origin.2 : F) := by
      unfold closestPoint
      unfold glmClamp at hc2
      exact hc2
    rw [h1, h2, glmRound_intCast, glmRound_intCast]

/-- C15 over the reals, on a view of two boxes and the circle of radius 1 centred
at `(0, 0)`: the first box, whose corner is the centre, is reported. -/
theorem EntityIntersectionCircle_subsequence_witness :
    Real.sqrt 0 = 0
      ∧ (Physics_EntityIntersectionCircle Real.sqrt
            [⟨7, (6, 8), ((3 : ℝ), 4)⟩, ⟨9, (2, 2), ((100 : ℝ), 100)⟩] ⟨(0, 0), 1⟩
            ⟨false, []⟩).entities
          = circleHits Real.sqrt [⟨7, (6, 8), ((3 : ℝ), 4)⟩, ⟨9, (2, 2), ((100 : ℝ), 100)⟩]
              ⟨(0, 0), 1⟩
      ∧ ((0, 0), 7) ∈ (Physics_EntityIntersectionCircle Real.sqrt
            [⟨7, (6, 8), ((3 : ℝ), 4)⟩, ⟨9, (2, 2), ((100 : ℝ), 100)⟩] ⟨(0, 0), 1⟩
            ⟨false, []⟩).entities := by
  have h := EntityIntersectionCircle_subsequence Real.sqrt Real.sqrt_zero
    [⟨7, (6, 8), ((3 : ℝ), 4)⟩, ⟨9, (2, 2), ((100 : ℝ), 100)⟩] ⟨(0, 0), 1⟩ ⟨false, []⟩
  refine ⟨Real.sqrt_zero, h.1, ?_⟩
  refine h.2 ⟨7, (6, 8), ((3 : ℝ), 4)⟩ false false (by simp) (by norm_num) ?_
  simp only [aabbCorner, Bool.false_eq_true, if_false]
  norm_num

/-- One axis of the slab computation for a ray from a corner of the box to the
opposite corner: the two products are `0` and the length `L` of the ray. -/
theorem slab_axis_corner {F : Type} [LinearOrderedField F] (o w L b e : F) (hw : 0 < w)
    (hL : 0 < L)
    (hbe : (b = o - w / 2 ∧ e = o + w / 2) ∨ (b = o + w / 2 ∧ e = o - w / 2)) :
    min ((min (o - w / 2) (o + w / 2) - b) * slabInverse ((e - b) * (1 / L)))
        ((max (o - w / 2) (o + w / 2) - b) * slabInverse ((e - b) * (1 / L))) = 0
      ∧ max ((min (o - w / 2) (o + w / 2) - b) * slabInverse ((e - b) * (1 / L)))
        ((max (o - w / 2) (o + w / 2) - b) * slabInverse ((e - b) * (1 / L))) = L := by
  have hmin : min (o - w / 2) (o + w / 2) = o - w / 2 := min_eq_left (by linarith)
  have hmax : max (o - w / 2) (o + w / 2) = o + w / 2 := max_eq_right (by linarith)
  have hwne : w ≠ 0 := ne_of_gt hw
  have hLne : L ≠ 0 := ne_of_gt hL
  rw [hmin, hmax]
  rcases hbe with ⟨hb, he⟩ | ⟨hb, he⟩
  · subst hb he
    have hn : (o + w / 2 - (o - w / 2)) * (1 / L) ≠ 0 := by
      have : o + w / 2 - (o - w / 2) = w := by ring
      rw [this]
      exact mul_ne_zero hwne (one_div_ne_zero hLne)
    have h0 : (o - w / 2 - (o - w / 2)) * slabInverse ((o + w / 2 - (o - w / 2)) * (1 / L))
        = 0 := by
      rw [sub_self, zero_mul]
    have h1 : (o + w / 2 - (o - w / 2)) * slabInverse ((o + w / 2 - (o - w / 2)) * (1 / L))
        = L := by
      unfold slabInverse
      rw [if_neg hn]
      have : o + w / 2 - (o - w / 2) = w := by ring
      rw [this]
      field_simp
    rw [h0, h1]
    exact ⟨min_eq_left (le_of_lt hL), max_eq_right (le_of_lt hL)⟩
  · subst hb he
    have hn : (o - w / 2 - (o + w / 2)) * (1 / L) ≠ 0 := by
      have : o - w / 2 - (o + w / 2) = -w := by ring
      rw [this]
      exact mul_ne_zero (neg_ne_zero.2 hwne) (one_div_ne_zero hLne)
    have h0 : (o + w / 2 - (o + w / 2)) * slabInverse ((o - w / 2 - (o + w / 2)) * (1 / L))
        = 0 := by
      rw [sub_self, zero_mul]
    have h1 : (o - w / 2 - (o + w / 2)) * slabInverse ((o - w / 2 - (o + w / 2)) * (1 / L))
        = L := by
      unfold slabInverse
      rw [if_neg hn]
      have : o - w / 2 - (o + w / 2) = -w := by ring
      rw [this]
      field_simp
    rw [h0, h1]
    exact ⟨min_eq_right (le_of_lt hL), max_eq_left (le_of_lt hL)⟩

/-- The end of the slab computation when the ray enters the box at its begin
point: the parameter is `0` and the ray is not reported. -/
theorem slabResult_touch {F : Type} [LinearOrderedField F] (L len : F) (hL : 0 < L) :
    slabResult (max (0 : F) 0) (min L L) len = (false, some 0) := by
  unfold slabResult
  rw [max_self, min_self]
  have h1 : ¬ (L < 0 ∨ (0 : F) > L) := by
    rintro (h | h)
    · exact absurd h (not_lt.2 (le_of_lt hL))
    · exact absurd h (not_lt.2 (le_of_lt hL))
  simp only [h1, if_false, lt_irrefl, gt_iff_lt, false_and, decide_False]

/-- A ray from a corner of a box with positive dimensions to the opposite corner
is not reported, and the parameter written is `0`. -/
theorem ray_corner_to_corner {F : Type} [LinearOrderedField F] (sqrt : F → F)
    (hpos : ∀ x, 0 < x → 0 < sqrt x) (aabbOrigin aabbDim : F × F)
    (hd1 : 0 < aabbDim.1) (hd2 : 0 < aabbDim.2) (right top : Bool) :
    IntersectionRayAabb sqrt (aabbCorner aabbOrigin aabbDim right top)
        (aabbCorner aabbOrigin aabbDim (!right) (!top)) aabbOrigin aabbDim
      = (false, some 0) := by
  have hb1 : ((aabbCorner aabbOrigin aabbDim right top).1 = aabbOrigin.1 - aabbDim.1 / 2
        ∧ (aabbCorner aabbOrigin aabbDim (!right) (!top)).1 = aabbOrigin.1 + aabbDim.1 / 2)
      ∨ ((aabbCorner aabbOrigin aabbDim right top).1 = aabbOrigin.1 + aabbDim.1 / 2
        ∧ (aabbCorner aabbOrigin aabbDim (!right) (!top)).1
            = aabbOrigin.1 - aabbDim.1 / 2) := by
    cases right <;> simp [aabbCorner]
  have hb2 : ((aabbCorner aabbOrigin aabbDim right top).2 = aabbOrigin.2 - aabbDim.2 / 2
        ∧ (aabbCorner aabbOrigin aabbDim (!right) (!top)).2 = aabbOrigin.2 + aabbDim.2 / 2)
      ∨ ((aabbCorner aabbOrigin aabbDim right top).2 = aabbOrigin.2 + aabbDim.2 / 2
        ∧ (aabbCorner aabbOrigin aabbDim (!right) (!top)).2
            = aabbOrigin.2 - aabbDim.2 / 2) := by
    cases top <;> simp [aabbCorner]
  have hdot : ((aabbCorner aabbOrigin aabbDim (!right) (!top)).1
          - (aabbCorner aabbOrigin aabbDim right top).1)
        * ((aabbCorner aabbOrigin aabbDim (!right) (!top)).1
          - (aabbCorner aabbOrigin aabbDim right top).1)
      + ((aabbCorner aabbOrigin aabbDim (!right) (!top)).2
          - (aabbCorner aabbOrigin aabbDim right top).2)
        * ((aabbCorner aabbOrigin aabbDim (!right) (!top)).2
          - (aabbCorner aabbOrigin aabbDim right top).2)
      = aabbDim.1 * aabbDim.1 + aabbDim.2 * aabbDim.2 := by
    rcases hb1 with ⟨h1, h2⟩ | ⟨h1, h2⟩ <;> rcases hb2 with ⟨h3, h4⟩ | ⟨h3, h4⟩ <;>
      rw [h1, h2, h3, h4] <;> ring
  have hL : 0 < sqrt (((aabbCorner aabbOrigin aabbDim (!right) (!top)).1
          - (aabbCorner aabbOrigin aabbDim right top).1)
        * ((aabbCorner aabbOrigin aabbDim (!right) (!top)).1
          - (aabbCorner aabbOrigin aabbDim right top).1)
      + ((aabbCorner aabbOrigin aabbDim (!right) (!top)).2
          - (aabbCorner aabbOrigin aabbDim right top).2)
        * ((aabbCorner aabbOrigin aabbDim (!right) (!top)).2
          - (aabbCorner aabbOrigin aabbDim right top).2)) := by
    rw [hdot]
    exact hpos _ (add_pos (mul_pos hd1 hd1) (mul_pos hd2 hd2))
  have hx := slab_axis_corner aabbOrigin.1 aabbDim.1 _ _ _ hd1 hL hb1
  have hy := slab_axis_corner aabbOrigin.2 aabbDim.2 _ _ _ hd2 hL hb2
  unfold IntersectionRayAabb
  rw [rayAabbSlab_eq]
  simp only [vnormalize, GetAabbMin, GetAabbMax]
  rw [hx.1, hx.2, hy.1, hy.2]
  exact slabResult_touch _ _ hL

/-- C12, as stated, fails: over the reals, the ray from the corner `(0, 0)` to
the opposite corner `(6, 8)` of the box with origin `(3, 4)` and dimensions
`(6, 8)` is reported as not intersecting, the parameter written being `0`. -/
theorem IntersectionRayAabb_diagonal_not_reported :
    aabbCorner ((3 : ℝ), 4) (6, 8) false false = (0, 0)
      ∧ aabbCorner ((3 : ℝ), 4) (6, 8) true true = (6, 8)
      ∧ IntersectionRayAabb Real.sqrt ((0 : ℝ), 0) (6, 8) (3, 4) (6, 8) = (false, some 0) := by
  have hc0 : aabbCorner ((3 : ℝ), 4) (6, 8) false false = (0, 0) := by
    simp only [aabbCorner, Bool.false_eq_true, if_false]
    norm_num
  have hc1 : aabbCorner ((3 : ℝ), 4) (6, 8) true true = (6, 8) := by
    simp only [aabbCorner, if_true]
    norm_num
  refine ⟨hc0, hc1, ?_⟩
  have h := ray_corner_to_corner Real.sqrt (fun x hx => Real.sqrt_pos.2 hx) ((3 : ℝ), 4) (6, 8)
    (by norm_num) (by norm_num) false false
  simp only [Bool.not_false] at h
  rw [hc0, hc1] at h
  exact h

/-- C12, amended: for every AABB with positive dimensions, a ray whose begin and
end points are two opposite corners of the AABB, in either direction along
either diagonal, is reported as not intersecting by `IntersectionRayAabb`: the
ray enters the box at its begin point, the parameter written is `0`, and the
test `t > 0` fails. -/
theorem IntersectionRayAabb_opposite_corners {F : Type} [LinearOrderedField F]
    (sqrt : F → F) (hpos : ∀ x, 0 < x → 0 < sqrt x) (aabbOrigin aabbDim : F × F)
    (hd1 : 0 < aabbDim.1) (hd2 : 0 < aabbDim.2) (right top : Bool) :
    IntersectionRayAabb sqrt (aabbCorner aabbOrigin aabbDim right top)
        (aabbCorner aabbOrigin aabbDim (!right) (!top)) aabbOrigin aabbDim
      = (false, some 0) :=
  ray_corner_to_corner sqrt hpos aabbOrigin aabbDim hd1 hd2 right top

/-- C12, amended, over the reals on the diagonal from the upper left to the
lower right corner of the box with origin `(3, 4)` and dimensions `(6, 8)`. -/
theorem IntersectionRayAabb_opposite_corners_witness :
    (∀ x : ℝ, 0 < x → 0 < Real.sqrt x) ∧ (0 : ℝ) < 6 ∧ (0 : ℝ) < 8
      ∧ IntersectionRayAabb Real.sqrt (aabbCorner ((3 : ℝ), 4) (6, 8) false true)
          (aabbCorner ((3 : ℝ), 4) (6, 8) (!false) (!true)) (3, 4) (6, 8)
        = (false, some 0) :=
  ⟨fun _ hx => Real.sqrt_pos.2 hx, by norm_num, by norm_num,
    IntersectionRayAabb_opposite_corners Real.sqrt (fun _ hx => Real.sqrt_pos.2 hx)
      ((3 : ℝ), 4) (6, 8) (by norm_num) (by norm_num) false true⟩

/-- A reported ray: the parameter lies strictly between `0` and the length, and
between the two bounds of the slab computation. -/
theorem slabResult_true {F : Type} [LinearOrderedField F] (tmin tmax len : F)
    (h : (slabResult tmin tmax len).1 = true) :
    ∃ t, slabResult tmin tmax len = (true, some t) ∧ 0 < t ∧ t < len ∧ tmin ≤ t ∧ t ≤ tmax := by
  unfold slabResult at h ⊢
  by_cases hc : tmax < 0 ∨ tmin > tmax
  · rw [if_pos hc] at h
    exact Bool.noConfusion h
  · rw [if_neg hc] at h ⊢
    have hle : tmin ≤ tmax := not_lt.1 (fun hgt => hc (Or.inr hgt))
    simp only [decide_eq_true_eq] at h
    refine ⟨if tmin < 0 then tmax else tmin, ?_, h.1, h.2, ?_, ?_⟩
    · simp only [h, and_self, decide_True]
    · split_ifs
      · exact hle
      · exact le_refl _
    · split_ifs
      · exact le_refl _
      · exact hle

/-- One axis of the slab computation for a direction component that is not `0`:
a parameter between the two products gives a coordinate between the two sides of
the box. -/
theorem slab_axis_inside {F : Type} [LinearOrderedField F] (lo hi b n t : F) (hn : n ≠ 0)
    (hlohi : lo ≤ hi)
    (h1 : min ((lo - b) * slabInverse n) ((hi - b) * slabInverse n) ≤ t)
    (h2 : t ≤ max ((lo - b) * slabInverse n) ((hi - b) * slabInverse n)) :
    lo ≤ b + t * n ∧ b + t * n ≤ hi := by
  unfold slabInverse at h1 h2
  rw [if_neg hn] at h1 h2
  rcases lt_or_gt_of_ne hn with hneg | hpos
  · have hinv : 1 / n < 0 := one_div_neg.2 hneg
    have hord : (hi - b) * (1 / n) ≤ (lo - b) * (1 / n) :=
      mul_le_mul_of_nonpos_right (by linarith) (le_of_lt hinv)
    rw [min_eq_right hord] at h1
    rw [max_eq_left hord] at h2
    have e1 : (hi - b) * (1 / n) * n = hi - b := by field_simp
    have e2 : (lo - b) * (1 / n) * n = lo - b := by field_simp
    have g1 := mul_le_mul_of_nonpos_right h1 (le_of_lt hneg)
    have g2 := mul_le_mul_of_nonpos_right h2 (le_of_lt hneg)
    rw [e1] at g1
    rw [e2] at g2
    constructor <;> linarith
  · have hinv : 0 < 1 / n := one_div_pos.2 hpos
    have hord : (lo - b) * (1 / n) ≤ (hi - b) * (1 / n) :=
      mul_le_mul_of_nonneg_right (by linarith) (le_of_lt hinv)
    rw [min_eq_left hord] at h1
    rw [max_eq_right hord] at h2
    have e1 : (hi - b) * (1 / n) * n = hi - b := by field_simp
    have e2 : (lo - b) * (1 / n) * n = lo - b := by field_simp
    have g1 := mul_le_mul_of_nonneg_right h1 (le_of_lt hpos)
    have g2 := mul_le_mul_of_nonneg_right h2 (le_of_lt hpos)
    rw [e2] at g1
    rw [e1] at g2
    constructor <;> linarith

/-- Away from the axis-aligned rays the function reports no ray that misses the
box: when both components of the direction differ from `0` and the ray is
reported, a point strictly between its begin and end points lies inside the
AABB.  This holds for every square root function. -/
theorem IntersectionRayAabb_oblique_sound {F : Type} [LinearOrderedField F] (sqrt : F → F)
    (rayBegin rayEnd aabbOrigin aabbDim : F × F)
    (hx : rayEnd.1 - rayBegin.1 ≠ 0) (hy : rayEnd.2 - rayBegin.2 ≠ 0)
    (h : (IntersectionRayAabb sqrt rayBegin rayEnd aabbOrigin aabbDim).1 = true) :
    ∃ s, 0 < s ∧ s < 1
      ∧ InsideAabb (rayBegin.1 + s * (rayEnd.1 - rayBegin.1),
          rayBegin.2 + s * (rayEnd.2 - rayBegin.2)) aabbOrigin aabbDim := by
  unfold IntersectionRayAabb at h
  rw [rayAabbSlab_eq] at h
  obtain ⟨t, _, ht0, htL, hmin, hmax⟩ := slabResult_true _ _ _ h
  have hL : 0 < vlength sqrt (rayEnd.1 - rayBegin.1, rayEnd.2 - rayBegin.2) :=
    lt_trans ht0 htL
  have hLne : vlength sqrt (rayEnd.1 - rayBegin.1, rayEnd.2 - rayBegin.2) ≠ 0 := ne_of_gt hL
  have hn1 : (vnormalize sqrt (rayEnd.1 - rayBegin.1, rayEnd.2 - rayBegin.2)).1 ≠ 0 :=
    mul_ne_zero hx (one_div_ne_zero hLne)
  have hn2 : (vnormalize sqrt (rayEnd.1 - rayBegin.1, rayEnd.2 - rayBegin.2)).2 ≠ 0 :=
    mul_ne_zero hy (one_div_ne_zero hLne)
  have hlohi1 : (GetAabbMin aabbOrigin aabbDim).1 ≤ (GetAabbMax aabbOrigin aabbDim).1 :=
    le_trans (min_le_left _ _) (le_max_left _ _)
  have hlohi2 : (GetAabbMin aabbOrigin aabbDim).2 ≤ (GetAabbMax aabbOrigin aabbDim).2 :=
    le_trans (min_le_left _ _) (le_max_left _ _)
  have hax := slab_axis_inside _ _ rayBegin.1 _ t hn1 hlohi1
    (le_trans (le_max_left _ _) hmin) (le_trans hmax (min_le_left _ _))
  have hay := slab_axis_inside _ _ rayBegin.2 _ t hn2 hlohi2
    (le_trans (le_max_right _ _) hmin) (le_trans hmax (min_le_right _ _))
  have e1 : t * (vnormalize sqrt (rayEnd.1 - rayBegin.1, rayEnd.2 - rayBegin.2)).1
      = t / vlength sqrt (rayEnd.1 - rayBegin.1, rayEnd.2 - rayBegin.2)
        * (rayEnd.1 - rayBegin.1) := by
    unfold vnormalize vlength
    ring
  have e2 : t * (vnormalize sqrt (rayEnd.1 - rayBegin.1, rayEnd.2 - rayBegin.2)).2
      = t / vlength sqrt (rayEnd.1 - rayBegin.1, rayEnd.2 - rayBegin.2)
        * (rayEnd.2 - rayBegin.2) := by
    unfold vnormalize vlength
    ring
  rw [e1] at hax
  rw [e2] at hay
  exact ⟨t / vlength sqrt (rayEnd.1 - rayBegin.1, rayEnd.2 - rayBegin.2),
    div_pos ht0 hL, (div_lt_one hL).2 htL, hax.1, hax.2, hay.1, hay.2⟩

/-- C11 fails on a vertical ray: over the reals, no point of the line `x = -3`
lies inside the box with origin `(5, 5)` and dimensions `(10, 10)`, yet the ray
from `(-3, 2)` to `(-3, 8)` is reported as intersecting it, at parameter 3. -/
theorem IntersectionRayAabb_vertical_false_positive :
    (∀ y : ℝ, ¬ InsideAabb ((-3 : ℝ), y) (5, 5) (10, 10))
      ∧ IntersectionRayAabb Real.sqrt ((-3 : ℝ), 2) (-3, 8) (5, 5) (10, 10)
          = (true, some 3) := by
  have h36 : Real.sqrt 36 = 6 := by
    rw [show (36 : ℝ) = 6 * 6 by norm_num]
    exact Real.sqrt_mul_self (by norm_num)
  refine ⟨?_, ?_⟩
  · intro y h
    unfold InsideAabb GetAabbMin at h
    norm_num at h
  · unfold IntersectionRayAabb
    rw [rayAabbSlab_eq]
    simp only [vnormalize, vlength, GetAabbMin, GetAabbMax, slabInverse, slabResult]
    norm_num [h36]

/-! ### Player movement -/

/-- The velocity check when no component is NaN: each component is handled on
its own and the stored velocity is kept. -/
theorem sanitizeVelocity_no_nan {F : Type} [LinearOrderedField F]
    (velocity : FloatVal F × FloatVal F) (storedVelocity : F × F)
    (h1 : velocity.1.isnan = false) (h2 : velocity.2.isnan = false) :
    sanitizeVelocity velocity storedVelocity
      = ((if velocity.1.absGt 1000 then FloatVal.finite 0 else velocity.1,
          if velocity.2.absGt 1000 then FloatVal.finite 0 else velocity.2), storedVelocity) := by
  have hcomp : ∀ v : FloatVal F, v.isnan = false →
      (if v.absGt 1000 then FloatVal.finite 0 else v).isnan = false
        ∧ (if v.absGt 1000 then FloatVal.finite 0 else v).isinf = false := by
    intro v hv
    cases v with
    | finite x =>
      by_cases hx : |x| > 1000 <;> simp [FloatVal.absGt, FloatVal.isnan, FloatVal.isinf, hx]
    | posInf => simp [FloatVal.absGt, FloatVal.isnan, FloatVal.isinf]
    | negInf => simp [FloatVal.absGt, FloatVal.isnan, FloatVal.isinf]
    | nan => exact Bool.noConfusion hv
  unfold sanitizeVelocity
  simp only [(hcomp velocity.1 h1).1, (hcomp velocity.1 h1).2, (hcomp velocity.2 h2).1,
    (hcomp velocity.2 h2).2, Bool.false_eq_true, or_self, if_false]

/-- The velocity check when a component is NaN: both components and the stored
velocity are set to 0. -/
theorem sanitizeVelocity_nan {F : Type} [LinearOrderedField F]
    (velocity : FloatVal F × FloatVal F) (storedVelocity : F × F)
    (h : velocity.1.isnan = true ∨ velocity.2.isnan = true) :
    sanitizeVelocity velocity storedVelocity
      = ((FloatVal.finite 0, FloatVal.finite 0), (0, 0)) := by
  have hcomp : ∀ v : FloatVal F, v.isnan = true →
      (if v.absGt 1000 then FloatVal.finite 0 else v).isnan = true := by
    intro v hv
    cases v with
    | finite x => exact Bool.noConfusion hv
    | posInf => exact Bool.noConfusion hv
    | negInf => exact Bool.noConfusion hv
    | nan => simp [FloatVal.absGt, FloatVal.isnan]
  unfold sanitizeVelocity
  rcases h with h | h
  · simp only [hcomp velocity.1 h, true_or, if_true]
  · simp only [hcomp velocity.2 h, true_or, or_true, if_true]

/-- The velocity check yields finite components of magnitude at most 1000. -/
theorem sanitizeVelocity_finite {F : Type} [LinearOrderedField F]
    (velocity : FloatVal F × FloatVal F) (storedVelocity : F × F) :
    ∃ x y, (sanitizeVelocity velocity storedVelocity).1 = (FloatVal.finite x, FloatVal.finite y)
      ∧ |x| ≤ 1000 ∧ |y| ≤ 1000 := by
  have h0 : |(0 : F)| ≤ 1000 := by norm_num
  have hcomp : ∀ v : FloatVal F, v.isnan = false →
      ∃ x, (if v.absGt 1000 then FloatVal.finite 0 else v) = FloatVal.finite x
        ∧ |x| ≤ 1000 := by
    intro v hv
    cases v with
    | finite x =>
      by_cases hx : |x| > 1000
      · exact ⟨0, by simp [FloatVal.absGt, hx], h0⟩
      · exact ⟨x, by simp [FloatVal.absGt, hx], not_lt.1 hx⟩
    | posInf => exact ⟨0, by simp [FloatVal.absGt], h0⟩
    | negInf => exact ⟨0, by simp [FloatVal.absGt], h0⟩
    | nan => exact Bool.noConfusion hv
  by_cases hnan : velocity.1.isnan = true ∨ velocity.2.isnan = true
  · rw [sanitizeVelocity_nan velocity storedVelocity hnan]
    exact ⟨0, 0, rfl, h0, h0⟩
  · simp only [not_or, Bool.not_eq_true] at hnan
    rw [sanitizeVelocity_no_nan velocity storedVelocity hnan.1 hnan.2]
    obtain ⟨x, hx, hxb⟩ := hcomp velocity.1 hnan.1
    obtain ⟨y, hy, hyb⟩ := hcomp velocity.2 hnan.2
    exact ⟨x, y, by rw [hx, hy], hxb, hyb⟩

/-- The velocity check changes nothing on a velocity it has produced. -/
theorem sanitizeVelocity_idem {F : Type} [LinearOrderedField F]
    (velocity : FloatVal F × FloatVal F) (storedVelocity : F × F) :
    sanitizeVelocity (sanitizeVelocity velocity storedVelocity).1
        (sanitizeVelocity velocity storedVelocity).2
      = sanitizeVelocity velocity storedVelocity := by
  obtain ⟨x, y, hxy, hx, hy⟩ := sanitizeVelocity_finite velocity storedVelocity
  have hpair : sanitizeVelocity velocity storedVelocity
      = ((FloatVal.finite x, FloatVal.finite y),
          (sanitizeVelocity velocity storedVelocity).2) := by
    rw [← hxy]
  rw [sanitizeVelocity_no_nan _ _ (by rw [hxy]; rfl) (by rw [hxy]; rfl), hxy]
  simp only [FloatVal.absGt, not_lt.2 hx, not_lt.2 hy, gt_iff_lt, decide_False,
    Bool.false_eq_true, if_false]
  exact hpair.symm

/-- Next to a NaN component, the component 5, whose magnitude is within the
bound, is not left unchanged: the check sets both components and the stored
velocity to 0. -/
theorem sanitizeVelocity_nan_partner_zeroed :
    |(5 : ℚ)| ≤ 1000
      ∧ sanitizeVelocity (FloatVal.finite (5 : ℚ), FloatVal.nan) (1, 2)
          = ((FloatVal.finite 0, FloatVal.finite 0), (0, 0)) :=
  ⟨by norm_num, sanitizeVelocity_nan (FloatVal.finite (5 : ℚ), FloatVal.nan) (1, 2) (Or.inr rfl)⟩

/-- The fields that the tick leaves alone up to the dash block, and the value
of `frameStartGrounded`. -/
theorem beforeDash_fields {F : Type} [LinearOrderedField F] (glm : GlmLib F)
    (cfg : PlayerConfig F) (msPerFrame : F) (physics : PhysicsPlugin F)
    (controller controllerPrev : ControllerFrame) (player : Player F) :
    (beforeDash glm cfg msPerFrame physics controller controllerPrev player).dashCooldown
        = player.dashCooldown
      ∧ (beforeDash glm cfg msPerFrame physics controller controllerPrev player).midairDashesLeft
        = player.midairDashesLeft
      ∧ (beforeDash glm cfg msPerFrame physics controller controllerPrev
          player).frameStartGrounded
        = (groundTest physics (tickStart player)).grounded
      ∧ (beforeDash glm cfg msPerFrame physics controller controllerPrev
          player).frameVerticalDash = false
      ∧ (beforeDash glm cfg msPerFrame physics controller controllerPrev
          player).frameHorizontalDash = false
      ∧ (beforeDash glm cfg msPerFrame physics controller controllerPrev player).origin
        = player.origin := by
  unfold beforeDash processHorizontal processJump
  simp only []
  split_ifs <;> exact ⟨rfl, rfl, rfl, rfl, rfl, rfl⟩

/-- The dash block when its condition holds. -/
theorem processDash_fired {F : Type} [LinearOrderedField F] (glm : GlmLib F)
    (cfg : PlayerConfig F) (msPerFrame : F) (controller controllerPrev : ControllerFrame)
    (s : TickState F) (h : dashCondition cfg msPerFrame controller controllerPrev s) :
    processDash glm cfg msPerFrame controller controllerPrev s
      = { s with
          frameVerticalDash :=
            decide (controller.movementHorizontal = Movement.None) || s.frameVerticalDash,
          frameHorizontalDash :=
            decide (controller.movementHorizontal ≠ Movement.None) || s.frameHorizontalDash,
          velocity := dashVelocity glm cfg controller s,
          grounded := false,
          dashCooldown := cfg.dashCooldown,
          midairDashesLeft :=
            dashesAfterReset cfg.maxAirDashes s.frameStartGrounded s.midairDashesLeft - 1 } := by
  unfold dashCondition cooldownAfterDecrement dashesAfterReset at h
  unfold processDash dashesAfterReset
  simp only []
  rw [if_pos h]

/-- The dash block when its condition fails. -/
theorem processDash_idle {F : Type} [LinearOrderedField F] (glm : GlmLib F)
    (cfg : PlayerConfig F) (msPerFrame : F) (controller controllerPrev : ControllerFrame)
    (s : TickState F) (h : ¬ dashCondition cfg msPerFrame controller controllerPrev s) :
    processDash glm cfg msPerFrame controller controllerPrev s
      = { s with
          dashCooldown := cooldownAfterDecrement msPerFrame s.dashCooldown,
          midairDashesLeft :=
            dashesAfterReset cfg.maxAirDashes s.frameStartGrounded s.midairDashesLeft } := by
  unfold dashCondition cooldownAfterDecrement dashesAfterReset at h
  unfold processDash dashesAfterReset cooldownAfterDecrement
  simp only []
  rw [if_neg h]

/-- The collision response and the landing write leave the dash state, the
grounded flag and the frame flags alone. -/
theorem afterInputs_fields {F : Type} [LinearOrderedField F] (physics : PhysicsPlugin F)
    (landingFinished : Bool) (s : TickState F) :
    (applyLanding landingFinished (applyPhysics physics s)).dashCooldown = s.dashCooldown
      ∧ (applyLanding landingFinished (applyPhysics physics s)).midairDashesLeft
        = s.midairDashesLeft
      ∧ (applyLanding landingFinished (applyPhysics physics s)).grounded = s.grounded
      ∧ (applyLanding landingFinished (applyPhysics physics s)).frameStartGrounded
        = s.frameStartGrounded
      ∧ (applyLanding landingFinished (applyPhysics physics s)).frameVerticalDash
        = s.frameVerticalDash
      ∧ (applyLanding landingFinished (applyPhysics physics s)).frameHorizontalDash
        = s.frameHorizontalDash := by
  have hphys : (applyPhysics physics s).dashCooldown = s.dashCooldown
      ∧ (applyPhysics physics s).midairDashesLeft = s.midairDashesLeft
      ∧ (applyPhysics physics s).grounded = s.grounded
      ∧ (applyPhysics physics s).frameStartGrounded = s.frameStartGrounded
      ∧ (applyPhysics physics s).frameVerticalDash = s.frameVerticalDash
      ∧ (applyPhysics physics s).frameHorizontalDash = s.frameHorizontalDash := by
    unfold applyPhysics
    simp only []
    split <;> exact ⟨rfl, rfl, rfl, rfl, rfl, rfl⟩
  have hland : ∀ t : TickState F,
      (applyLanding landingFinished t).dashCooldown = t.dashCooldown
      ∧ (applyLanding landingFinished t).midairDashesLeft = t.midairDashesLeft
      ∧ (applyLanding landingFinished t).grounded = t.grounded
      ∧ (applyLanding landingFinished t).frameStartGrounded = t.frameStartGrounded
      ∧ (applyLanding landingFinished t).frameVerticalDash = t.frameVerticalDash
      ∧ (applyLanding landingFinished t).frameHorizontalDash = t.frameHorizontalDash := by
    intro t
    unfold applyLanding
    split_ifs <;> exact ⟨rfl, rfl, rfl, rfl, rfl, rfl⟩
  obtain ⟨a1, a2, a3, a4, a5, a6⟩ := hland (applyPhysics physics s)
  obtain ⟨b1, b2, b3, b4, b5, b6⟩ := hphys
  exact ⟨a1.trans b1, a2.trans b2, a3.trans b3, a4.trans b4, a5.trans b5, a6.trans b6⟩

/-- The two ways a tick can go at the dash block, with the state of the dash at
the end of the tick in each. -/
theorem UpdatePlayer_dash_cases {F : Type} [LinearOrderedField F] (glm : GlmLib F)
    (cfg : PlayerConfig F) (msPerFrame : F) (physics : PhysicsPlugin F)
    (landingFinished : Bool) (controller controllerPrev : ControllerFrame)
    (player : Player F) :
    (UpdatePlayer glm cfg msPerFrame physics landingFinished controller controllerPrev
        player).frameStartGrounded = (groundTest physics (tickStart player)).grounded
      ∧ ((dashCondition cfg msPerFrame controller controllerPrev
              (beforeDash glm cfg msPerFrame physics controller controllerPrev player)
            ∧ (UpdatePlayer glm cfg msPerFrame physics landingFinished controller controllerPrev
                player).dashFired = true
            ∧ (processInputs glm cfg msPerFrame physics controller controllerPrev player).velocity
                = dashVelocity glm cfg controller
                    (beforeDash glm cfg msPerFrame physics controller controllerPrev player)
            ∧ (processInputs glm cfg msPerFrame physics controller controllerPrev
                player).grounded = false
            ∧ (UpdatePlayer glm cfg msPerFrame physics landingFinished controller controllerPrev
                player).grounded = false
            ∧ (UpdatePlayer glm cfg msPerFrame physics landingFinished controller controllerPrev
                player).dashCooldown = cfg.dashCooldown
            ∧ (UpdatePlayer glm cfg msPerFrame physics landingFinished controller controllerPrev
                player).midairDashesLeft
                = dashesAfterReset cfg.maxAirDashes
                    (groundTest physics (tickStart player)).grounded player.midairDashesLeft - 1)
          ∨ (¬ dashCondition cfg msPerFrame controller controllerPrev
              (beforeDash glm cfg msPerFrame physics controller controllerPrev player)
            ∧ (UpdatePlayer glm cfg msPerFrame physics landingFinished controller controllerPrev
                player).dashFired = false
            ∧ (processInputs glm cfg msPerFrame physics controller controllerPrev player).velocity
                = (beforeDash glm cfg msPerFrame physics controller controllerPrev
                    player).velocity
            ∧ (processInputs glm cfg msPerFrame physics controller controllerPrev
                player).grounded
                = (beforeDash glm cfg msPerFrame physics controller controllerPrev
                    player).grounded
            ∧ (UpdatePlayer glm cfg msPerFrame physics landingFinished controller controllerPrev
                player).dashCooldown = cooldownAfterDecrement msPerFrame player.dashCooldown
            ∧ (UpdatePlayer glm cfg msPerFrame physics landingFinished controller controllerPrev
                player).midairDashesLeft
                = dashesAfterReset cfg.maxAirDashes
                    (groundTest physics (tickStart player)).grounded
                    player.midairDashesLeft)) := by
  obtain ⟨hcd, hmid, hfsg, hfv, hfh, _⟩ :=
    beforeDash_fields glm cfg msPerFrame physics controller controllerPrev player
  obtain ⟨a1, a2, a3, a4, a5, a6⟩ := afterInputs_fields physics landingFinished
    (processInputs glm cfg msPerFrame physics controller controllerPrev player)
  by_cases hc : dashCondition cfg msPerFrame controller controllerPrev
      (beforeDash glm cfg msPerFrame physics controller controllerPrev player)
  · have hmidst := processDash_fired glm cfg msPerFrame controller controllerPrev _ hc
    refine ⟨?_, Or.inl ⟨hc, ?_, ?_, ?_, ?_, ?_, ?_⟩⟩
    · unfold UpdatePlayer
      rw [a4]
      unfold processInputs
      rw [hmidst]
      exact hfsg
    · unfold TickState.dashFired UpdatePlayer
      rw [a5, a6]
      unfold processInputs
      rw [hmidst]
      simp only [hfv, hfh, Bool.or_false]
      cases controller.movementHorizontal <;> decide
    · unfold processInputs
      rw [hmidst]
    · unfold processInputs
      rw [hmidst]
    · unfold UpdatePlayer
      rw [a3]
      unfold processInputs
      rw [hmidst]
    · unfold UpdatePlayer
      rw [a1]
      unfold processInputs
      rw [hmidst]
    · unfold UpdatePlayer
      rw [a2]
      unfold processInputs
      rw [hmidst]
      simp only [hfsg, hmid]
  · have hmidst := processDash_idle glm cfg msPerFrame controller controllerPrev _ hc
    refine ⟨?_, Or.inr ⟨hc, ?_, ?_, ?_, ?_, ?_⟩⟩
    · unfold UpdatePlayer
      rw [a4]
      unfold processInputs
      rw [hmidst]
      exact hfsg
    · unfold TickState.dashFired UpdatePlayer
      rw [a5, a6]
      unfold processInputs
      rw [hmidst]
      simp only [hfv, hfh, Bool.or_false]
    · unfold processInputs
      rw [hmidst]
    · unfold processInputs
      rw [hmidst]
    · unfold UpdatePlayer
      rw [a1]
      unfold processInputs
      rw [hmidst]
      simp only [hcd]
    · unfold UpdatePlayer
      rw [a2]
      unfold processInputs
      rw [hmidst]
      simp only [hfsg, hmid]

/-- The condition of the dash block in terms of the player at the start of the
tick. -/
theorem dashCondition_beforeDash {F : Type} [LinearOrderedField F] (glm : GlmLib F)
    (cfg : PlayerConfig F) (msPerFrame : F) (physics : PhysicsPlugin F)
    (controller controllerPrev : ControllerFrame) (player : Player F) :
    dashCondition cfg msPerFrame controller controllerPrev
        (beforeDash glm cfg msPerFrame physics controller controllerPrev player)
      ↔ (controllerPrev.dash = false ∧ controller.dash = true
          ∧ cooldownAfterDecrement msPerFrame player.dashCooldown ≤ 0
          ∧ dashesAfterReset cfg.maxAirDashes (groundTest physics (tickStart player)).grounded
              player.midairDashesLeft > 0) := by
  obtain ⟨hcd, hmid, hfsg, _, _, _⟩ :=
    beforeDash_fields glm cfg msPerFrame physics controller controllerPrev player
  unfold dashCondition
  rw [hcd, hmid, hfsg]

/-- C19: in every tick, `frameStartGrounded` is the outcome of the ground test;
when it is true the air-dash budget is reset to `maxAirDashes` before the dash
test, so that at the end of the tick it is `maxAirDashes` when no dash fires and
`maxAirDashes - 1` when one does; when it is false the budget is not reset: it
keeps its value when no dash fires and loses one when one does; a dash fires
only on a positive budget after the reset. -/
theorem UpdatePlayer_airdash_reset {F : Type} [LinearOrderedField F] (glm : GlmLib F)
    (cfg : PlayerConfig F) (msPerFrame : F) (physics : PhysicsPlugin F)
    (landingFinished : Bool) (controller controllerPrev : ControllerFrame)
    (player : Player F) :
    (UpdatePlayer glm cfg msPerFrame physics landingFinished controller controllerPrev
        player).frameStartGrounded = (groundTest physics (tickStart player)).grounded
      ∧ (UpdatePlayer glm cfg msPerFrame physics landingFinished controller controllerPrev
          player).midairDashesLeft
        = (if (UpdatePlayer glm cfg msPerFrame physics landingFinished controller
                controllerPrev player).frameStartGrounded
            then cfg.maxAirDashes else player.midairDashesLeft)
          - (if (UpdatePlayer glm cfg msPerFrame physics landingFinished controller
                controllerPrev player).dashFired then 1 else 0)
      ∧ ((UpdatePlayer glm cfg msPerFrame physics landingFinished controller controllerPrev
            player).dashFired = true →
          0 < (if (UpdatePlayer glm cfg msPerFrame physics landingFinished controller
                  controllerPrev player).frameStartGrounded
              then cfg.maxAirDashes else player.midairDashesLeft)) := by
  obtain ⟨hfsg, hcases⟩ := UpdatePlayer_dash_cases glm cfg msPerFrame physics landingFinished
    controller controllerPrev player
  refine ⟨hfsg, ?_, ?_⟩
  · rcases hcases with ⟨_, hfired, _, _, _, _, hmid⟩ | ⟨_, hfired, _, _, _, hmid⟩
    · rw [hmid, hfired, hfsg]
      simp only [dashesAfterReset, if_true]
    · rw [hmid, hfired, hfsg]
      simp only [dashesAfterReset, Bool.false_eq_true, if_false, sub_zero]
  · intro hf
    rcases hcases with ⟨hc, _, _, _, _, _, _⟩ | ⟨_, hfired, _⟩
    · have h := ((dashCondition_beforeDash glm cfg msPerFrame physics controller controllerPrev
        player).1 hc).2.2.2
      rw [hfsg]
      exact h
    · rw [hfired] at hf
      exact Bool.noConfusion hf

/-- C20: in every tick a dash fires if and only if dash was not held in the
previous controller frame, is held in the current one, the dash cooldown after
the decrement of this tick is at most 0 and the air-dash budget after the
grounded reset is positive; when it fires the velocity after the dash block is
the dash velocity, grounded is cleared, the cooldown is restarted and the budget
after the reset loses one; when it does not fire the dash block leaves velocity
and grounded alone, the cooldown has only lost the frame time if it was positive
and the budget after the reset is not decremented. -/
theorem UpdatePlayer_dash_iff {F : Type} [LinearOrderedField F] (glm : GlmLib F)
    (cfg : PlayerConfig F) (msPerFrame : F) (physics : PhysicsPlugin F)
    (landingFinished : Bool) (controller controllerPrev : ControllerFrame)
    (player : Player F) :
    ((UpdatePlayer glm cfg msPerFrame physics landingFinished controller controllerPrev
          player).dashFired = true
        ↔ (controllerPrev.dash = false ∧ controller.dash = true
            ∧ cooldownAfterDecrement msPerFrame player.dashCooldown ≤ 0
            ∧ dashesAfterReset cfg.maxAirDashes
                (UpdatePlayer glm cfg msPerFrame physics landingFinished controller
                  controllerPrev player).frameStartGrounded player.midairDashesLeft > 0))
      ∧ ((UpdatePlayer glm cfg msPerFrame physics landingFinished controller controllerPrev
            player).dashFired = true →
          (processInputs glm cfg msPerFrame physics controller controllerPrev player).velocity
              = dashVelocity glm cfg controller
                  (beforeDash glm cfg msPerFrame physics controller controllerPrev player)
            ∧ (processInputs glm cfg msPerFrame physics controller controllerPrev
                player).grounded = false
            ∧ (UpdatePlayer glm cfg msPerFrame physics landingFinished controller controllerPrev
                player).grounded = false
            ∧ (UpdatePlayer glm cfg msPerFrame physics landingFinished controller controllerPrev
                player).dashCooldown = cfg.dashCooldown
            ∧ (UpdatePlayer glm cfg msPerFrame physics landingFinished controller controllerPrev
                player).midairDashesLeft
              = dashesAfterReset cfg.maxAirDashes
                  (UpdatePlayer glm cfg msPerFrame physics landingFinished controller
                    controllerPrev player).frameStartGrounded player.midairDashesLeft - 1)
      ∧ ((UpdatePlayer glm cfg msPerFrame physics landingFinished controller controllerPrev
            player).dashFired = false →
          (processInputs glm cfg msPerFrame physics controller controllerPrev player).velocity
              = (beforeDash glm cfg msPerFrame physics controller controllerPrev
                  player).velocity
            ∧ (processInputs glm cfg msPerFrame physics controller controllerPrev
                player).grounded
              = (beforeDash glm cfg msPerFrame physics controller controllerPrev
                  player).grounded
            ∧ (UpdatePlayer glm cfg msPerFrame physics landingFinished controller controllerPrev
                player).dashCooldown = cooldownAfterDecrement msPerFrame player.dashCooldown
            ∧ (UpdatePlayer glm cfg msPerFrame physics landingFinished controller controllerPrev
                player).midairDashesLeft
              = dashesAfterReset cfg.maxAirDashes
                  (UpdatePlayer glm cfg msPerFrame physics landingFinished controller
                    controllerPrev player).frameStartGrounded player.midairDashesLeft) := by
  obtain ⟨hfsg, hcases⟩ := UpdatePlayer_dash_cases glm cfg msPerFrame physics landingFinished
    controller controllerPrev player
  have hiff := dashCondition_beforeDash glm cfg msPerFrame physics controller controllerPrev
    player
  rw [hfsg]
  rcases hcases with ⟨hc, hfired, hv, hg, hog, hcd, hmid⟩ | ⟨hc, hfired, hv, hg, hcd, hmid⟩
  · refine ⟨⟨fun _ => hiff.1 hc, fun _ => hfired⟩, fun _ => ⟨hv, hg, hog, hcd, hmid⟩, ?_⟩
    intro hf
    rw [hfired] at hf
    exact Bool.noConfusion hf
  · refine ⟨⟨?_, fun h => absurd (hiff.2 h) hc⟩, ?_, fun _ => ⟨hv, hg, hcd, hmid⟩⟩
    · intro hf
      rw [hfired] at hf
      exact Bool.noConfusion hf
    · intro hf
      rw [hfired] at hf
      exact Bool.noConfusion hf

/-- The start of a tick on a finite velocity within the bound. -/
theorem tickStart_finite {F : Type} [LinearOrderedField F] (player : Player F) (x y : F)
    (hv : player.velocity = (FloatVal.finite x, FloatVal.finite y))
    (hx : |x| ≤ 1000) (hy : |y| ≤ 1000) :
    (tickStart player).velocity = (x, y)
      ∧ (tickStart player).storedVelocity = player.storedVelocity := by
  have hs : sanitizeVelocity player.velocity player.storedVelocity
      = ((FloatVal.finite x, FloatVal.finite y), player.storedVelocity) := by
    rw [sanitizeVelocity_no_nan _ _ (by rw [hv]; rfl) (by rw [hv]; rfl), hv]
    simp only [FloatVal.absGt, gt_iff_lt, not_lt.2 hx, not_lt.2 hy, decide_False,
      Bool.false_eq_true, if_false]
  unfold tickStart
  simp only [hs, FloatVal.toField, and_self]

/-- The tick up to the dash block for a player standing still on the ground who
jumps without horizontal input. -/
theorem beforeDash_vertical_jump {F : Type} [LinearOrderedField F] (glm : GlmLib F)
    (cfg : PlayerConfig F) (msPerFrame : F) (physics : PhysicsPlugin F)
    (controller controllerPrev : ControllerFrame) (player : Player F)
    (hv : player.velocity = (FloatVal.finite 0, FloatVal.finite 0))
    (hground : physics.IntersectionPoint (player.origin.1, player.origin.2 + 1) = true)
    (hjump : controller.jump = true)
    (hmh : controller.movementHorizontal = Movement.None) :
    (beforeDash glm cfg msPerFrame physics controller controllerPrev player).velocity
        = (0, -cfg.jumpingVerticalAccel)
      ∧ (beforeDash glm cfg msPerFrame physics controller controllerPrev player).grounded = false
      ∧ (groundTest physics (tickStart player)).grounded = true := by
  have h0 : |(0 : F)| ≤ 1000 := by norm_num
  obtain ⟨hvel, _⟩ := tickStart_finite player 0 0 hv h0 h0
  have hor : (tickStart player).origin = player.origin := rfl
  have hg : (groundTest physics (tickStart player)).grounded = true := by
    unfold groundTest
    simp only [hvel, hor, ge_iff_le, le_refl, if_true, hground]
  have hgv : (groundTest physics (tickStart player)).velocity = (0, 0) := hvel
  have hj : (processJump glm cfg controller (groundTest physics (tickStart player))).velocity
        = (0, -cfg.jumpingVerticalAccel)
      ∧ (processJump glm cfg controller (groundTest physics (tickStart player))).grounded
        = false := by
    unfold processJump
    simp only [hg, hjump, hmh, hgv, if_true, and_self]
  unfold beforeDash processHorizontal
  simp only [hj.1, hj.2, hmh, Movement.toInt, Int.cast_zero, zero_mul, add_zero,
    Bool.false_eq_true, false_and, and_false, if_false, ite_self, hg, and_self]

/-- The collision response when the movement ray is not obstructed: the velocity
is added to the position. -/
theorem applyPhysics_free {F : Type} [LinearOrderedField F] (physics : PhysicsPlugin F)
    (s : TickState F)
    (hfree : (physics.IntersectionRaycast
        (physics.Construct (s.origin.1, s.origin.2 - 2)
          (s.origin.1 + s.velocity.1, s.origin.2 - 2 + s.velocity.2))).1 = false) :
    applyPhysics physics s
      = { s with origin := (s.origin.1 + s.velocity.1, s.origin.2 + s.velocity.2) } := by
  unfold applyPhysics
  simp only []
  split
  · rfl
  · rename_i results heq
    rw [heq] at hfree
    exact Bool.noConfusion hfree

/-- The landing write leaves position and velocity alone. -/
theorem applyLanding_motion {F : Type} (landingFinished : Bool) (s : TickState F) :
    (applyLanding landingFinished s).velocity = s.velocity
      ∧ (applyLanding landingFinished s).origin = s.origin := by
  unfold applyLanding
  split_ifs <;> exact ⟨rfl, rfl⟩

/-- A player found airborne by the ground test is still airborne at the dash
block. -/
theorem beforeDash_airborne {F : Type} [LinearOrderedField F] (glm : GlmLib F)
    (cfg : PlayerConfig F) (msPerFrame : F) (physics : PhysicsPlugin F)
    (controller controllerPrev : ControllerFrame) (player : Player F)
    (hair : (groundTest physics (tickStart player)).grounded = false) :
    (beforeDash glm cfg msPerFrame physics controller controllerPrev player).grounded
      = false := by
  unfold beforeDash processHorizontal processJump
  simp only [hair, Bool.false_eq_true, false_and, if_false]

/-- The block "process inputs / events" leaves the position alone. -/
theorem processInputs_origin {F : Type} [LinearOrderedField F] (glm : GlmLib F)
    (cfg : PlayerConfig F) (msPerFrame : F) (physics : PhysicsPlugin F)
    (controller controllerPrev : ControllerFrame) (player : Player F) :
    (processInputs glm cfg msPerFrame physics controller controllerPrev player).origin
      = player.origin := by
  obtain ⟨_, _, _, _, _, ho⟩ :=
    beforeDash_fields glm cfg msPerFrame physics controller controllerPrev player
  unfold processInputs processDash
  simp only []
  split_ifs <;> exact ho

/-- A tick whose movement ray is not obstructed: the velocity after the inputs
is the velocity at the end of the tick and has been added to the position. -/
theorem UpdatePlayer_free {F : Type} [LinearOrderedField F] (glm : GlmLib F)
    (cfg : PlayerConfig F) (msPerFrame : F) (physics : PhysicsPlugin F)
    (landingFinished : Bool) (controller controllerPrev : ControllerFrame)
    (player : Player F) (v : F × F)
    (hv : (processInputs glm cfg msPerFrame physics controller controllerPrev player).velocity
      = v)
    (hfree : (physics.IntersectionRaycast
        (physics.Construct (player.origin.1, player.origin.2 - 2)
          (player.origin.1 + v.1, player.origin.2 - 2 + v.2))).1 = false) :
    (UpdatePlayer glm cfg msPerFrame physics landingFinished controller controllerPrev
        player).velocity = v
      ∧ (UpdatePlayer glm cfg msPerFrame physics landingFinished controller controllerPrev
          player).origin = (player.origin.1 + v.1, player.origin.2 + v.2) := by
  have ho := processInputs_origin glm cfg msPerFrame physics controller controllerPrev player
  have hfree2 : (physics.IntersectionRaycast
      (physics.Construct
        ((processInputs glm cfg msPerFrame physics controller controllerPrev player).origin.1,
          (processInputs glm cfg msPerFrame physics controller controllerPrev player).origin.2
            - 2)
        ((processInputs glm cfg msPerFrame physics controller controllerPrev player).origin.1
            + (processInputs glm cfg msPerFrame physics controller controllerPrev
                player).velocity.1,
          (processInputs glm cfg msPerFrame physics controller controllerPrev player).origin.2
            - 2
            + (processInputs glm cfg msPerFrame physics controller controllerPrev
                player).velocity.2))).1 = false := by
    rw [ho, hv]
    exact hfree
  obtain ⟨hlv, hlo⟩ := applyLanding_motion landingFinished
    (applyPhysics physics
      (processInputs glm cfg msPerFrame physics controller controllerPrev player))
  unfold UpdatePlayer
  rw [hlv, hlo, applyPhysics_free physics _ hfree2]
  simp only [ho, hv, and_self]

/-- Rounding a value that is an integer gives that integer. -/
theorem glmRound_eq {F : Type} [LinearOrderedField F] [FloorRing F] (x : F) (n : Int)
    (h : x = (n : F)) : glmRound x = n := by
  rw [h]
  exact glmRound_intCast n

/-- The collision response when the movement ray is obstructed: the position is
clamped next to the hit and each velocity component is redirected when its probe
ray hits. -/
theorem applyPhysics_hit {F : Type} [LinearOrderedField F] (physics : PhysicsPlugin F)
    (s : TickState F) (ray : IntersectorRay) (results : IntersectionResults) (oX oY : F)
    (rY rX : Bool × IntersectionResults)
    (hray : physics.Construct (s.origin.1, s.origin.2 - 2)
        (s.origin.1 + s.velocity.1, s.origin.2 - 2 + s.velocity.2) = ray)
    (hhit : physics.IntersectionRaycast ray = (true, results))
    (hoX : (if ray.beginOrigin.1 < ray.endOrigin.1 then (results.origin.1 : F) - 1
        else if ray.beginOrigin.1 > ray.endOrigin.1 then (results.origin.1 : F) + 1
        else s.origin.1) = oX)
    (hoY : (if ray.beginOrigin.2 < ray.endOrigin.2 then (results.origin.2 : F) - 1
        else if ray.beginOrigin.2 > ray.endOrigin.2 then (results.origin.2 : F) + 3
        else s.origin.2) = oY)
    (hrY : physics.IntersectionRaycast (physics.Construct (oX, oY + 1) (oX, oY + -3)) = rY)
    (hrX : physics.IntersectionRaycast (physics.Construct (oX + 2, oY) (oX + -2, oY)) = rX) :
    (applyPhysics physics s).origin = (oX, oY)
      ∧ (applyPhysics physics s).velocity
        = (if rX.1 then redirectVelocity oX (rX.2.origin.1 : F) s.velocity.1 else s.velocity.1,
            if rY.1 then redirectVelocity oY (rY.2.origin.2 : F) s.velocity.2
            else s.velocity.2) := by
  unfold applyPhysics
  simp only [hray, hhit, hoX, hoY, hrY, hrX]
  obtain ⟨bY, resY⟩ := rY
  obtain ⟨bX, resX⟩ := rX
  cases bY <;> cases bX <;> simp

/-- A player at rest on the ground who jumps with no horizontal input and also
presses dash on a fresh edge with the vertical input held at -1: the dash block
runs after the jump and sets the velocity to `(0, -10)`. -/
theorem jump_then_dash_tick :
    (UpdatePlayer ⟨Real.sqrt, Real.sin, Real.cos, fun x => x * (Real.pi / 180)⟩
        (PlayerConfig.initial ℝ) 10 (openScene true) false
        (pressedFrame Movement.None Movement.Negative true true)
        idleFrame (restingPlayer true 0 1)).velocity = (0, -10) := by
  have h81 : Real.sqrt 81 = 9 := by
    rw [show (81 : ℝ) = 9 * 9 by norm_num]
    exact Real.sqrt_mul_self (by norm_num)
  obtain ⟨hpv, hpg, hgt⟩ := beforeDash_vertical_jump
    ⟨Real.sqrt, Real.sin, Real.cos, fun x => x * (Real.pi / 180)⟩ (PlayerConfig.initial ℝ) 10
    (openScene true)
    (pressedFrame Movement.None Movement.Negative true true)
    idleFrame (restingPlayer true 0 1) rfl rfl rfl rfl
  have hc := (dashCondition_beforeDash
    ⟨Real.sqrt, Real.sin, Real.cos, fun x => x * (Real.pi / 180)⟩ (PlayerConfig.initial ℝ) 10
    (openScene true)
    (pressedFrame Movement.None Movement.Negative true true)
    idleFrame (restingPlayer true 0 1)).2 ⟨rfl, rfl, by
      simp only [cooldownAfterDecrement, restingPlayer, gt_iff_lt, lt_self_iff_false, if_false,
        le_refl], by
      rw [hgt]
      decide⟩
  have hmid : (processInputs ⟨Real.sqrt, Real.sin, Real.cos, fun x => x * (Real.pi / 180)⟩
      (PlayerConfig.initial ℝ) 10 (openScene true)
      (pressedFrame Movement.None Movement.Negative true true)
      idleFrame (restingPlayer true 0 1)).velocity = (0, -10) := by
    unfold processInputs
    rw [processDash_fired _ _ _ _ _ _ hc]
    show dashVelocity _ _ _ _ = _
    unfold dashVelocity
    rw [hpv, hpg]
    simp only [vlength, vnormalize, dashDirection, pressedFrame, Movement.toInt,
      PlayerConfig.initial, Bool.false_eq_true, if_false]
    norm_num [h81]
  exact (UpdatePlayer_free _ _ _ _ false _ _ _ _ hmid rfl).1

/-- A player at rest on the floor `y ≥ 1` of a room whose ceiling fills `y ≤ -5`,
who jumps with nothing else pressed: the movement ray from `(0, -2)` to
`(0, -11)` is obstructed at `(0, -5)`, the position is clamped to `(0, -2)`, the
vertical probe ray hits the ceiling above the player and the vertical velocity
is redirected to `0`. -/
theorem jump_under_ceiling_state :
    (UpdatePlayer ⟨Real.sqrt, Real.sin, Real.cos, fun x => x * (Real.pi / 180)⟩
        (PlayerConfig.initial ℝ) 10 (roomScene 100 (-5) 1) false
        (pressedFrame Movement.None Movement.None true false) idleFrame
        (restingPlayer true 0 1)).origin = (0, -2)
      ∧ (processInputs ⟨Real.sqrt, Real.sin, Real.cos, fun x => x * (Real.pi / 180)⟩
          (PlayerConfig.initial ℝ) 10 (roomScene 100 (-5) 1)
          (pressedFrame Movement.None Movement.None true false) idleFrame
          (restingPlayer true 0 1)).velocity = (0, -9)
      ∧ (UpdatePlayer ⟨Real.sqrt, Real.sin, Real.cos, fun x => x * (Real.pi / 180)⟩
          (PlayerConfig.initial ℝ) 10 (roomScene 100 (-5) 1) false
          (pressedFrame Movement.None Movement.None true false) idleFrame
          (restingPlayer true 0 1)).velocity = (0, 0) := by
  obtain ⟨hpv, hpg, hgt⟩ := beforeDash_vertical_jump
    ⟨Real.sqrt, Real.sin, Real.cos, fun x => x * (Real.pi / 180)⟩ (PlayerConfig.initial ℝ) 10
    (roomScene 100 (-5) 1) (pressedFrame Movement.None Movement.None true false)
    idleFrame (restingPlayer true 0 1) rfl
    (by simp [roomScene, restingPlayer]) rfl rfl
  have hc : ¬ dashCondition (PlayerConfig.initial ℝ) 10
      (pressedFrame Movement.None Movement.None true false) idleFrame
      (beforeDash ⟨Real.sqrt, Real.sin, Real.cos, fun x => x * (Real.pi / 180)⟩
        (PlayerConfig.initial ℝ) 10 (roomScene 100 (-5) 1)
        (pressedFrame Movement.None Movement.None true false) idleFrame
        (restingPlayer true 0 1)) := fun h => Bool.noConfusion h.2.1
  have hmid : (processInputs ⟨Real.sqrt, Real.sin, Real.cos, fun x => x * (Real.pi / 180)⟩
      (PlayerConfig.initial ℝ) 10 (roomScene 100 (-5) 1)
      (pressedFrame Movement.None Movement.None true false)
      idleFrame (restingPlayer true 0 1)).velocity = (0, -9) := by
    unfold processInputs
    rw [processDash_idle _ _ _ _ _ _ hc]
    exact hpv
  have ho := processInputs_origin ⟨Real.sqrt, Real.sin, Real.cos, fun x => x * (Real.pi / 180)⟩
      (PlayerConfig.initial ℝ) 10 (roomScene 100 (-5) 1)
      (pressedFrame Movement.None Movement.None true false)
      idleFrame (restingPlayer true 0 1)
  have hs := applyPhysics_hit (roomScene 100 (-5) 1)
    (processInputs ⟨Real.sqrt, Real.sin, Real.cos, fun x => x * (Real.pi / 180)⟩
      (PlayerConfig.initial ℝ) 10 (roomScene 100 (-5) 1)
      (pressedFrame Movement.None Movement.None true false)
      idleFrame (restingPlayer true 0 1))
    ⟨(0, -2), (0, -11)⟩ ⟨true, (0, -5), SENTINEL, SENTINEL⟩ 0 (-2)
    (true, ⟨true, (0, -5), SENTINEL, SENTINEL⟩) (false, IntersectionResults.noCollision)
    (by
      rw [ho, hmid]
      simp only [roomScene, roundedRay, restingPlayer, IntersectorRay.mk.injEq, Prod.mk.injEq]
      exact ⟨⟨glmRound_eq _ _ (by norm_num), glmRound_eq _ _ (by norm_num)⟩,
        glmRound_eq _ _ (by norm_num), glmRound_eq _ _ (by norm_num)⟩)
    rfl
    (by rw [ho]; simp [restingPlayer])
    (by norm_num)
    (by
      simp only [roomScene, roundedRay]
      rw [glmRound_eq (0 : ℝ) 0 (by norm_num), glmRound_eq ((-2 : ℝ) + 1) (-1) (by norm_num),
        glmRound_eq ((-2 : ℝ) + -3) (-5) (by norm_num)]
      rfl)
    (by
      simp only [roomScene, roundedRay]
      rw [glmRound_eq ((0 : ℝ) + 2) 2 (by norm_num), glmRound_eq ((0 : ℝ) + -2) (-2) (by norm_num),
        glmRound_eq (-2 : ℝ) (-2) (by norm_num)]
      rfl)
  refine ⟨?_, hmid, ?_⟩
  · unfold UpdatePlayer
    rw [(applyLanding_motion _ _).2, hs.1]
  · unfold UpdatePlayer
    rw [(applyLanding_motion _ _).1, hs.2, hmid]
    norm_num [redirectVelocity]

/-- The velocity at the end of the jump under the ceiling. -/
theorem jump_under_ceiling_tick :
    (UpdatePlayer ⟨Real.sqrt, Real.sin, Real.cos, fun x => x * (Real.pi / 180)⟩
        (PlayerConfig.initial ℝ) 10 (roomScene 100 (-5) 1) false
        (pressedFrame Movement.None Movement.None true false) idleFrame
        (restingPlayer true 0 1)).velocity = (0, 0) :=
  jump_under_ceiling_state.2.2

/-- C16, as stated, fails, in two ways. A player with zero velocity for whom
the ground query hits, with jump held and no horizontal input, who also presses
dash on a fresh edge with the vertical input at -1, ends the tick with vertical
velocity -10: the dash block overwrites the jump. The same player with only
jump held, under a ceiling that obstructs the movement ray, ends the tick with
vertical velocity 0: the collision response redirects it. In both,
`-jumpingVerticalAccel` is -9. -/
theorem UpdatePlayer_jump_velocity_overridden :
    (restingPlayer true (0 : ℝ) 1).velocity = (FloatVal.finite 0, FloatVal.finite 0)
      ∧ -(PlayerConfig.initial ℝ).jumpingVerticalAccel = -9
      ∧ ((openScene true : PhysicsPlugin ℝ).IntersectionPoint
            ((restingPlayer true (0 : ℝ) 1).origin.1,
              (restingPlayer true (0 : ℝ) 1).origin.2 + 1) = true
          ∧ (pressedFrame Movement.None Movement.Negative true true).jump = true
          ∧ (pressedFrame Movement.None Movement.Negative true true).movementHorizontal
              = Movement.None
          ∧ (UpdatePlayer ⟨Real.sqrt, Real.sin, Real.cos, fun x => x * (Real.pi / 180)⟩
              (PlayerConfig.initial ℝ) 10 (openScene true) false
              (pressedFrame Movement.None Movement.Negative true true)
              idleFrame (restingPlayer true 0 1)).velocity = (0, -10))
      ∧ ((roomScene 100 (-5) 1 : PhysicsPlugin ℝ).IntersectionPoint
            ((restingPlayer true (0 : ℝ) 1).origin.1,
              (restingPlayer true (0 : ℝ) 1).origin.2 + 1) = true
          ∧ (pressedFrame Movement.None Movement.None true false).jump = true
          ∧ (pressedFrame Movement.None Movement.None true false).movementHorizontal
              = Movement.None
          ∧ (UpdatePlayer ⟨Real.sqrt, Real.sin, Real.cos, fun x => x * (Real.pi / 180)⟩
              (PlayerConfig.initial ℝ) 10 (roomScene 100 (-5) 1) false
              (pressedFrame Movement.None Movement.None true false) idleFrame
              (restingPlayer true 0 1)).velocity = (0, 0)) :=
  ⟨rfl, rfl, ⟨rfl, rfl, rfl, jump_then_dash_tick⟩,
    ⟨by simp [roomScene, restingPlayer], rfl, rfl, jump_under_ceiling_tick⟩⟩

/-- C16, amended: for a player with zero velocity for whom the ground point
query one unit below the origin hits, and a controller frame with jump held and
no horizontal input, when the dash condition of the tick does not hold and the
movement ray from two units above the origin along the jump velocity is not
obstructed, after one `UpdatePlayer` tick the velocity is
`(0, -jumpingVerticalAccel)`, grounded is false, and the position has moved by
that velocity. -/
theorem UpdatePlayer_vertical_jump {F : Type} [LinearOrderedField F] (glm : GlmLib F)
    (cfg : PlayerConfig F) (msPerFrame : F) (physics : PhysicsPlugin F)
    (landingFinished : Bool) (controller controllerPrev : ControllerFrame)
    (player : Player F)
    (hv : player.velocity = (FloatVal.finite 0, FloatVal.finite 0))
    (hground : physics.IntersectionPoint (player.origin.1, player.origin.2 + 1) = true)
    (hjump : controller.jump = true)
    (hmh : controller.movementHorizontal = Movement.None)
    (hnodash : ¬ (controllerPrev.dash = false ∧ controller.dash = true
      ∧ cooldownAfterDecrement msPerFrame player.dashCooldown ≤ 0 ∧ cfg.maxAirDashes > 0))
    (hfree : (physics.IntersectionRaycast
        (physics.Construct (player.origin.1, player.origin.2 - 2)
          (player.origin.1 + 0, player.origin.2 - 2 + -cfg.jumpingVerticalAccel))).1 = false) :
    (UpdatePlayer glm cfg msPerFrame physics landingFinished controller controllerPrev
        player).velocity = (0, -cfg.jumpingVerticalAccel)
      ∧ (UpdatePlayer glm cfg msPerFrame physics landingFinished controller controllerPrev
          player).grounded = false
      ∧ (UpdatePlayer glm cfg msPerFrame physics landingFinished controller controllerPrev
          player).origin
        = (player.origin.1 + 0, player.origin.2 + -cfg.jumpingVerticalAccel) := by
  obtain ⟨hpv, hpg, hgt⟩ := beforeDash_vertical_jump glm cfg msPerFrame physics controller
    controllerPrev player hv hground hjump hmh
  have hc : ¬ dashCondition cfg msPerFrame controller controllerPrev
      (beforeDash glm cfg msPerFrame physics controller controllerPrev player) := by
    rw [dashCondition_beforeDash, hgt]
    exact hnodash
  have hidle := processDash_idle glm cfg msPerFrame controller controllerPrev _ hc
  have hmid : (processInputs glm cfg msPerFrame physics controller controllerPrev
      player).velocity = (0, -cfg.jumpingVerticalAccel) := by
    unfold processInputs
    rw [hidle]
    exact hpv
  have hmg : (processInputs glm cfg msPerFrame physics controller controllerPrev
      player).grounded = false := by
    unfold processInputs
    rw [hidle]
    exact hpg
  obtain ⟨h1, h2⟩ := UpdatePlayer_free glm cfg msPerFrame physics landingFinished controller
    controllerPrev player _ hmid hfree
  refine ⟨h1, ?_, h2⟩
  unfold UpdatePlayer
  rw [(afterInputs_fields physics landingFinished _).2.2.1]
  exact hmg

/-- C16, amended, over the reals with the initial tunables in a scene with
nothing in the way: a player at rest on the ground with jump held and nothing
else pressed leaves the tick with velocity `(0, -9)`, not grounded, at position
`(0, -9)`. -/
theorem UpdatePlayer_vertical_jump_witness :
    (UpdatePlayer ⟨Real.sqrt, Real.sin, Real.cos, fun x => x * (Real.pi / 180)⟩
          (PlayerConfig.initial ℝ) 10 (openScene true) false
          (pressedFrame Movement.None Movement.None true false) idleFrame (restingPlayer true 0 1)).velocity
        = (0, -9)
      ∧ (UpdatePlayer ⟨Real.sqrt, Real.sin, Real.cos, fun x => x * (Real.pi / 180)⟩
          (PlayerConfig.initial ℝ) 10 (openScene true) false
          (pressedFrame Movement.None Movement.None true false) idleFrame (restingPlayer true 0 1)).grounded = false
      ∧ (UpdatePlayer ⟨Real.sqrt, Real.sin, Real.cos, fun x => x * (Real.pi / 180)⟩
          (PlayerConfig.initial ℝ) 10 (openScene true) false
          (pressedFrame Movement.None Movement.None true false) idleFrame (restingPlayer true 0 1)).origin
        = (0 + 0, 0 + -9) :=
  UpdatePlayer_vertical_jump ⟨Real.sqrt, Real.sin, Real.cos, fun x => x * (Real.pi / 180)⟩
    (PlayerConfig.initial ℝ) 10 (openScene true) false (pressedFrame Movement.None Movement.None true false)
    idleFrame (restingPlayer true 0 1) rfl rfl rfl rfl
    (fun h => Bool.noConfusion h.2.1) rfl

/-- The ground test of a player with zero velocity is the point query one unit
below the origin. -/
theorem groundTest_at_rest {F : Type} [LinearOrderedField F] (physics : PhysicsPlugin F)
    (player : Player F)
    (hv : player.velocity = (FloatVal.finite 0, FloatVal.finite 0)) :
    (groundTest physics (tickStart player)).grounded
      = physics.IntersectionPoint (player.origin.1, player.origin.2 + 1) := by
  have h0 : |(0 : F)| ≤ 1000 := by norm_num
  obtain ⟨hvel, _⟩ := tickStart_finite player 0 0 hv h0 h0
  have hor : (tickStart player).origin = player.origin := rfl
  unfold groundTest
  simp only [hvel, hor, ge_iff_le, le_refl, if_true]

/-- The velocity set by the dash block for an airborne player with horizontal
input only: the multiplier along the input direction. -/
theorem dashVelocity_horizontal {F : Type} [LinearOrderedField F] (glm : GlmLib F)
    (cfg : PlayerConfig F) (controller : ControllerFrame) (s : TickState F)
    (hsqrt : ∀ x, glm.sqrt (x * x) = |x|)
    (hg : s.grounded = false)
    (hmh : controller.movementHorizontal ≠ Movement.None)
    (hmv : controller.movementVertical = Movement.None) :
    dashVelocity glm cfg controller s
      = (max (cfg.dashMultiplier + vlength glm.sqrt s.velocity) cfg.dashMinimumVelocity
          * (controller.movementHorizontal.toInt : F), 0) := by
  have hone : glm.sqrt 1 = 1 := by
    have h := hsqrt 1
    rwa [mul_one, abs_one] at h
  unfold dashVelocity dashDirection vnormalize
  rw [hg, hmv]
  cases hm : controller.movementHorizontal with
  | None => exact absurd hm hmh
  | Negative =>
    simp only [Movement.toInt, Bool.false_eq_true, if_false, Int.cast_neg, Int.cast_one,
      Int.cast_zero, mul_zero, add_zero, neg_mul_neg, mul_one, hone, one_div, inv_one, zero_mul]
  | Positive =>
    simp only [Movement.toInt, Bool.false_eq_true, if_false, Int.cast_one,
      Int.cast_zero, mul_zero, add_zero, mul_one, hone, one_div, inv_one, zero_mul]

/-- The length of a vector along the horizontal axis. -/
theorem vlength_horizontal {F : Type} [LinearOrderedField F] (sqrt : F → F)
    (hsqrt : ∀ x, sqrt (x * x) = |x|) (x : F) : vlength sqrt (x, 0) = |x| := by
  unfold vlength
  simp only [mul_zero, add_zero]
  exact hsqrt x

/-- The tick up to the dash block for a player at rest in the air, with neither
walk nor crouch held: one frame of air acceleration and of gravity. -/
theorem beforeDash_falling {F : Type} [LinearOrderedField F] (glm : GlmLib F)
    (cfg : PlayerConfig F) (msPerFrame : F) (physics : PhysicsPlugin F)
    (controller controllerPrev : ControllerFrame) (player : Player F)
    (hv : player.velocity = (FloatVal.finite 0, FloatVal.finite 0))
    (hq : physics.IntersectionPoint (player.origin.1, player.origin.2 + 1) = false)
    (hwalk : controller.walk = false) (hcrouch : controller.crouch = false) :
    (beforeDash glm cfg msPerFrame physics controller controllerPrev player).velocity
      = (0 + (controller.movementHorizontal.toInt : F) * cfg.inputAirAccelMultiplier,
          0 + cfg.gravity) := by
  have h0 : |(0 : F)| ≤ 1000 := by norm_num
  obtain ⟨hvel, _⟩ := tickStart_finite player 0 0 hv h0 h0
  have hg : (groundTest physics (tickStart player)).grounded = false := by
    rw [groundTest_at_rest physics player hv]
    exact hq
  have hgv : (groundTest physics (tickStart player)).velocity = (0, 0) := hvel
  have hj : (processJump glm cfg controller (groundTest physics (tickStart player))).velocity
        = (0, 0 + cfg.gravity)
      ∧ (processJump glm cfg controller (groundTest physics (tickStart player))).grounded
        = false := by
    unfold processJump
    simp only [hg, hgv, Bool.false_eq_true, false_and, if_false, and_self]
  unfold beforeDash processHorizontal
  simp only [hj.1, hj.2, hwalk, hcrouch, Bool.false_eq_true, false_and, and_false, if_false]

/-- An airborne player with two air-dashes left whose dash cooldown has not run
out (300 ms left, 10 ms per frame) does not dash when dash is pressed on a fresh
edge with horizontal input only: the budget is still 2 and the cooldown is
290. -/
theorem dash_on_cooldown_tick :
    (UpdatePlayer ⟨Real.sqrt, Real.sin, Real.cos, fun x => x * (Real.pi / 180)⟩
          { PlayerConfig.initial ℝ with maxAirDashes := 2 } 10 (openScene false) false
          (pressedFrame Movement.Positive Movement.None false true) idleFrame
          (restingPlayer false 300 2)).midairDashesLeft = 2
      ∧ (UpdatePlayer ⟨Real.sqrt, Real.sin, Real.cos, fun x => x * (Real.pi / 180)⟩
          { PlayerConfig.initial ℝ with maxAirDashes := 2 } 10 (openScene false) false
          (pressedFrame Movement.Positive Movement.None false true) idleFrame
          (restingPlayer false 300 2)).dashCooldown = 290 := by
  have hair : (groundTest (openScene false : PhysicsPlugin ℝ)
      (tickStart (restingPlayer false 300 2))).grounded = false :=
    groundTest_at_rest (openScene false) (restingPlayer false 300 2) rfl
  have hcd : cooldownAfterDecrement (10 : ℝ) (restingPlayer false (300 : ℝ) 2).dashCooldown
      = 290 := by
    simp only [cooldownAfterDecrement, restingPlayer]
    norm_num
  rcases (UpdatePlayer_dash_cases
      ⟨Real.sqrt, Real.sin, Real.cos, fun x => x * (Real.pi / 180)⟩
      { PlayerConfig.initial ℝ with maxAirDashes := 2 } 10 (openScene false) false
      (pressedFrame Movement.Positive Movement.None false true) idleFrame
      (restingPlayer false 300 2)).2 with
    ⟨hc, _⟩ | ⟨_, _, _, _, hcool, hmid⟩
  · have h := ((dashCondition_beforeDash _ _ _ _ _ _ _).1 hc).2.2.1
    rw [hcd] at h
    norm_num at h
  · refine ⟨?_, ?_⟩
    · rw [hmid, hair]
      rfl
    · rw [hcool, hcd]

/-- An airborne player at rest with two air-dashes left and no cooldown running,
three cells to the left of a wall filling `x ≥ 3`, who dashes to the right: the
dash fires with multiplier 6, the movement ray from `(0, -2)` to `(6, -2)` is
obstructed at `(3, -2)`, the position is clamped to `(2, 0)`, the horizontal
probe ray hits the wall and the horizontal velocity is redirected to `0`. -/
theorem dash_into_wall_tick :
    max ((1 : ℝ) + vlength Real.sqrt
        (beforeDash ⟨Real.sqrt, Real.sin, Real.cos, fun x => x * (Real.pi / 180)⟩
          { PlayerConfig.initial ℝ with maxAirDashes := 2 } 10 (roomScene 3 (-100) 100)
          (pressedFrame Movement.Positive Movement.None false true) idleFrame
          (restingPlayer false 0 2)).velocity) 6 = 6
      ∧ (UpdatePlayer ⟨Real.sqrt, Real.sin, Real.cos, fun x => x * (Real.pi / 180)⟩
          { PlayerConfig.initial ℝ with maxAirDashes := 2 } 10 (roomScene 3 (-100) 100) false
          (pressedFrame Movement.Positive Movement.None false true) idleFrame
          (restingPlayer false 0 2)).velocity = (0, 0) := by
  have hq : (roomScene 3 (-100) 100 : PhysicsPlugin ℝ).IntersectionPoint
      ((restingPlayer false (0 : ℝ) 2).origin.1, (restingPlayer false (0 : ℝ) 2).origin.2 + 1)
      = false := by
    simp only [roomScene, restingPlayer]
    norm_num
  have hair : (groundTest (roomScene 3 (-100) 100 : PhysicsPlugin ℝ)
      (tickStart (restingPlayer false 0 2))).grounded = false := by
    rw [groundTest_at_rest _ _ rfl]
    exact hq
  have hpv := beforeDash_falling
    ⟨Real.sqrt, Real.sin, Real.cos, fun x => x * (Real.pi / 180)⟩
    { PlayerConfig.initial ℝ with maxAirDashes := 2 } 10 (roomScene 3 (-100) 100)
    (pressedFrame Movement.Positive Movement.None false true) idleFrame
    (restingPlayer false 0 2) rfl hq rfl rfl
  have hpg := beforeDash_airborne
    ⟨Real.sqrt, Real.sin, Real.cos, fun x => x * (Real.pi / 180)⟩
    { PlayerConfig.initial ℝ with maxAirDashes := 2 } 10 (roomScene 3 (-100) 100)
    (pressedFrame Movement.Positive Movement.None false true) idleFrame
    (restingPlayer false 0 2) hair
  have hm : max ((1 : ℝ) + vlength Real.sqrt
      (beforeDash ⟨Real.sqrt, Real.sin, Real.cos, fun x => x * (Real.pi / 180)⟩
        { PlayerConfig.initial ℝ with maxAirDashes := 2 } 10 (roomScene 3 (-100) 100)
        (pressedFrame Movement.Positive Movement.None false true) idleFrame
        (restingPlayer false 0 2)).velocity) 6 = 6 := by
    rw [hpv]
    apply max_eq_right
    have h5 : vlength Real.sqrt
        ((0 : ℝ) + (((pressedFrame Movement.Positive Movement.None false
            true).movementHorizontal.toInt : Int) : ℝ)
          * ({ PlayerConfig.initial ℝ with maxAirDashes := 2 }
              : PlayerConfig ℝ).inputAirAccelMultiplier,
          (0 : ℝ) + ({ PlayerConfig.initial ℝ with maxAirDashes := 2 }
              : PlayerConfig ℝ).gravity) ≤ 5 := by
      unfold vlength
      rw [Real.sqrt_le_left (by norm_num)]
      simp only [pressedFrame, Movement.toInt, PlayerConfig.initial]
      norm_num
    linarith
  refine ⟨hm, ?_⟩
  have hc := (dashCondition_beforeDash
    ⟨Real.sqrt, Real.sin, Real.cos, fun x => x * (Real.pi / 180)⟩
    { PlayerConfig.initial ℝ with maxAirDashes := 2 } 10 (roomScene 3 (-100) 100)
    (pressedFrame Movement.Positive Movement.None false true) idleFrame
    (restingPlayer false 0 2)).2 ⟨rfl, rfl, by
      simp only [cooldownAfterDecrement, restingPlayer, gt_iff_lt, lt_self_iff_false, if_false,
        le_refl], by
      rw [hair]
      decide⟩
  have hmid : (processInputs ⟨Real.sqrt, Real.sin, Real.cos, fun x => x * (Real.pi / 180)⟩
      { PlayerConfig.initial ℝ with maxAirDashes := 2 } 10 (roomScene 3 (-100) 100)
      (pressedFrame Movement.Positive Movement.None false true) idleFrame
      (restingPlayer false 0 2)).velocity = (6, 0) := by
    unfold processInputs
    rw [processDash_fired _ _ _ _ _ _ hc]
    show dashVelocity _ _ _ _ = _
    rw [dashVelocity_horizontal _ _ _ _ Real.sqrt_mul_self_eq_abs hpg (by decide) rfl]
    show (max ((1 : ℝ) + _) 6 * _, (0 : ℝ)) = _
    rw [hm]
    simp only [pressedFrame, Movement.toInt, Int.cast_one, mul_one]
  have ho := processInputs_origin ⟨Real.sqrt, Real.sin, Real.cos, fun x => x * (Real.pi / 180)⟩
    { PlayerConfig.initial ℝ with maxAirDashes := 2 } 10 (roomScene 3 (-100) 100)
    (pressedFrame Movement.Positive Movement.None false true) idleFrame
    (restingPlayer false 0 2)
  have hs := applyPhysics_hit (roomScene 3 (-100) 100)
    (processInputs ⟨Real.sqrt, Real.sin, Real.cos, fun x => x * (Real.pi / 180)⟩
      { PlayerConfig.initial ℝ with maxAirDashes := 2 } 10 (roomScene 3 (-100) 100)
      (pressedFrame Movement.Positive Movement.None false true) idleFrame
      (restingPlayer false 0 2))
    ⟨(0, -2), (6, -2)⟩ ⟨true, (3, -2), SENTINEL, SENTINEL⟩ 2 0
    (false, IntersectionResults.noCollision) (true, ⟨true, (4, 0), SENTINEL, SENTINEL⟩)
    (by
      rw [ho, hmid]
      simp only [roomScene, roundedRay, restingPlayer, IntersectorRay.mk.injEq, Prod.mk.injEq]
      exact ⟨⟨glmRound_eq _ _ (by norm_num), glmRound_eq _ _ (by norm_num)⟩,
        glmRound_eq _ _ (by norm_num), glmRound_eq _ _ (by norm_num)⟩)
    rfl
    (by norm_num)
    (by rw [ho]; simp [restingPlayer])
    (by
      simp only [roomScene, roundedRay]
      rw [glmRound_eq (2 : ℝ) 2 (by norm_num), glmRound_eq ((0 : ℝ) + 1) 1 (by norm_num),
        glmRound_eq ((0 : ℝ) + -3) (-3) (by norm_num)]
      rfl)
    (by
      simp only [roomScene, roundedRay]
      rw [glmRound_eq ((2 : ℝ) + 2) 4 (by norm_num), glmRound_eq ((2 : ℝ) + -2) 0 (by norm_num),
        glmRound_eq (0 : ℝ) 0 (by norm_num)]
      rfl)
  unfold UpdatePlayer
  rw [(applyLanding_motion _ _).1, hs.2, hmid]
  norm_num [redirectVelocity]

/-- C17, as stated, fails, in two ways. An airborne player with two air-dashes
left whose dash cooldown has not run out (300 ms left, 10 ms per frame) does not
dash when dash is pressed on a fresh edge with horizontal input only: the budget
is still 2 and the cooldown is 290, not the configured 300. The same player with
no cooldown running, next to a wall that obstructs the movement ray, dashes, but
ends the tick with velocity `(0, 0)` while the multiplier
`max(dashMultiplier + priorSpeed, dashMinimumVelocity)` is 6. -/
theorem UpdatePlayer_blocked_air_dash :
    ({ PlayerConfig.initial ℝ with maxAirDashes := 2 } : PlayerConfig ℝ).dashCooldown = 300
      ∧ ({ PlayerConfig.initial ℝ with maxAirDashes := 2 } : PlayerConfig ℝ).dashMultiplier = 1
      ∧ ({ PlayerConfig.initial ℝ with maxAirDashes := 2 }
          : PlayerConfig ℝ).dashMinimumVelocity = 6
      ∧ ((groundTest (openScene false : PhysicsPlugin ℝ)
            (tickStart (restingPlayer false 300 2))).grounded = false
          ∧ (restingPlayer false (300 : ℝ) 2).midairDashesLeft = 2
          ∧ (UpdatePlayer ⟨Real.sqrt, Real.sin, Real.cos, fun x => x * (Real.pi / 180)⟩
              { PlayerConfig.initial ℝ with maxAirDashes := 2 } 10 (openScene false) false
              (pressedFrame Movement.Positive Movement.None false true) idleFrame
              (restingPlayer false 300 2)).midairDashesLeft = 2
          ∧ (UpdatePlayer ⟨Real.sqrt, Real.sin, Real.cos, fun x => x * (Real.pi / 180)⟩
              { PlayerConfig.initial ℝ with maxAirDashes := 2 } 10 (openScene false) false
              (pressedFrame Movement.Positive Movement.None false true) idleFrame
              (restingPlayer false 300 2)).dashCooldown = 290)
      ∧ ((groundTest (roomScene 3 (-100) 100 : PhysicsPlugin ℝ)
            (tickStart (restingPlayer false 0 2))).grounded = false
          ∧ (restingPlayer false (0 : ℝ) 2).midairDashesLeft = 2
          ∧ max ((1 : ℝ) + vlength Real.sqrt
              (beforeDash ⟨Real.sqrt, Real.sin, Real.cos, fun x => x * (Real.pi / 180)⟩
                { PlayerConfig.initial ℝ with maxAirDashes := 2 } 10 (roomScene 3 (-100) 100)
                (pressedFrame Movement.Positive Movement.None false true) idleFrame
                (restingPlayer false 0 2)).velocity) 6 = 6
          ∧ (UpdatePlayer ⟨Real.sqrt, Real.sin, Real.cos, fun x => x * (Real.pi / 180)⟩
              { PlayerConfig.initial ℝ with maxAirDashes := 2 } 10 (roomScene 3 (-100) 100)
              false (pressedFrame Movement.Positive Movement.None false true) idleFrame
              (restingPlayer false 0 2)).velocity = (0, 0)
          ∧ vlength Real.sqrt ((0 : ℝ), 0) = 0) := by
  refine ⟨rfl, rfl, rfl,
    ⟨groundTest_at_rest (openScene false) (restingPlayer false 300 2) rfl, rfl,
      dash_on_cooldown_tick.1, dash_on_cooldown_tick.2⟩,
    ⟨?_, rfl, dash_into_wall_tick.1, dash_into_wall_tick.2, ?_⟩⟩
  · rw [groundTest_at_rest _ _ rfl]
    simp only [roomScene, restingPlayer]
    norm_num
  · unfold vlength
    simp

/-- C17, amended: for a player found airborne by the ground test with at least
one air-dash left (two included), and a controller frame where dash is pressed
on a fresh edge with horizontal input only, when the dash cooldown after the
decrement of the tick is at most 0, `dashMinimumVelocity` is not negative, the
square root returns `|x|` on `x * x`, and the movement ray along the dash
velocity is not obstructed, after one `UpdatePlayer` tick the velocity is the
multiplier `max(dashMultiplier + priorSpeed, dashMinimumVelocity)` along the
input direction, its magnitude is that multiplier, `midairDashesLeft` has
decreased by exactly 1 and `dashCooldown` is the configured cooldown; the prior
speed is the length of the velocity at the dash block. -/
theorem UpdatePlayer_air_dash {F : Type} [LinearOrderedField F] (glm : GlmLib F)
    (cfg : PlayerConfig F) (msPerFrame : F) (physics : PhysicsPlugin F)
    (landingFinished : Bool) (controller controllerPrev : ControllerFrame)
    (player : Player F)
    (hsqrt : ∀ x, glm.sqrt (x * x) = |x|)
    (hmin : 0 ≤ cfg.dashMinimumVelocity)
    (hair : (groundTest physics (tickStart player)).grounded = false)
    (hbudget : 0 < player.midairDashesLeft)
    (hprev : controllerPrev.dash = false)
    (hdash : controller.dash = true)
    (hmh : controller.movementHorizontal ≠ Movement.None)
    (hmv : controller.movementVertical = Movement.None)
    (hcool : cooldownAfterDecrement msPerFrame player.dashCooldown ≤ 0)
    (hfree : (physics.IntersectionRaycast
        (physics.Construct (player.origin.1, player.origin.2 - 2)
          (player.origin.1
            + max (cfg.dashMultiplier + vlength glm.sqrt
                  (beforeDash glm cfg msPerFrame physics controller controllerPrev
                    player).velocity) cfg.dashMinimumVelocity
              * (controller.movementHorizontal.toInt : F),
            player.origin.2 - 2 + 0))).1 = false) :
    (UpdatePlayer glm cfg msPerFrame physics landingFinished controller controllerPrev
        player).velocity
        = (max (cfg.dashMultiplier + vlength glm.sqrt
                (beforeDash glm cfg msPerFrame physics controller controllerPrev
                  player).velocity) cfg.dashMinimumVelocity
            * (controller.movementHorizontal.toInt : F), 0)
      ∧ vlength glm.sqrt
          (UpdatePlayer glm cfg msPerFrame physics landingFinished controller controllerPrev
            player).velocity
        = max (cfg.dashMultiplier + vlength glm.sqrt
              (beforeDash glm cfg msPerFrame physics controller controllerPrev
                player).velocity) cfg.dashMinimumVelocity
      ∧ (UpdatePlayer glm cfg msPerFrame physics landingFinished controller controllerPrev
          player).midairDashesLeft = player.midairDashesLeft - 1
      ∧ (UpdatePlayer glm cfg msPerFrame physics landingFinished controller controllerPrev
          player).dashCooldown = cfg.dashCooldown := by
  have hpg := beforeDash_airborne glm cfg msPerFrame physics controller controllerPrev player
    hair
  have hc : dashCondition cfg msPerFrame controller controllerPrev
      (beforeDash glm cfg msPerFrame physics controller controllerPrev player) := by
    rw [dashCondition_beforeDash, hair]
    exact ⟨hprev, hdash, hcool, hbudget⟩
  have hmid : (processInputs glm cfg msPerFrame physics controller controllerPrev
      player).velocity
      = (max (cfg.dashMultiplier + vlength glm.sqrt
              (beforeDash glm cfg msPerFrame physics controller controllerPrev
                player).velocity) cfg.dashMinimumVelocity
          * (controller.movementHorizontal.toInt : F), 0) := by
    unfold processInputs
    rw [processDash_fired _ _ _ _ _ _ hc]
    exact dashVelocity_horizontal glm cfg controller _ hsqrt hpg hmh hmv
  obtain ⟨h1, _⟩ := UpdatePlayer_free glm cfg msPerFrame physics landingFinished controller
    controllerPrev player _ hmid hfree
  obtain ⟨a1, a2, _⟩ := afterInputs_fields physics landingFinished
    (processInputs glm cfg msPerFrame physics controller controllerPrev player)
  obtain ⟨_, hmidl, _⟩ :=
    beforeDash_fields glm cfg msPerFrame physics controller controllerPrev player
  have hfsg := (beforeDash_fields glm cfg msPerFrame physics controller controllerPrev
    player).2.2.1
  refine ⟨h1, ?_, ?_, ?_⟩
  · rw [h1, vlength_horizontal glm.sqrt hsqrt, abs_mul]
    have hd : |((controller.movementHorizontal.toInt : Int) : F)| = 1 := by
      cases hm : controller.movementHorizontal with
      | None => exact absurd hm hmh
      | Negative => simp only [Movement.toInt, Int.cast_neg, Int.cast_one, abs_neg, abs_one]
      | Positive => simp only [Movement.toInt, Int.cast_one, abs_one]
    rw [hd, mul_one]
    exact abs_of_nonneg (le_trans hmin (le_max_right _ _))
  · unfold UpdatePlayer
    rw [a2]
    unfold processInputs
    rw [processDash_fired _ _ _ _ _ _ hc]
    simp only [hfsg, hair, hmidl, dashesAfterReset, Bool.false_eq_true, if_false]
  · unfold UpdatePlayer
    rw [a1]
    unfold processInputs
    rw [processDash_fired _ _ _ _ _ _ hc]

/-- C17, amended, over the reals with two air-dashes configured, in a scene with
nothing in the way: an airborne player at rest with two air-dashes left and no
cooldown running dashes to the right; the speed is the multiplier, one air-dash
is left and the cooldown is 300. -/
theorem UpdatePlayer_air_dash_witness :
    (groundTest (openScene false : PhysicsPlugin ℝ)
        (tickStart (restingPlayer false 0 2))).grounded = false
      ∧ (restingPlayer false (0 : ℝ) 2).midairDashesLeft = 2
      ∧ vlength Real.sqrt
          (UpdatePlayer ⟨Real.sqrt, Real.sin, Real.cos, fun x => x * (Real.pi / 180)⟩
            { PlayerConfig.initial ℝ with maxAirDashes := 2 } 10 (openScene false) false
            (pressedFrame Movement.Positive Movement.None false true) idleFrame
            (restingPlayer false 0 2)).velocity
        = max (1 + vlength Real.sqrt
            (beforeDash ⟨Real.sqrt, Real.sin, Real.cos, fun x => x * (Real.pi / 180)⟩
              { PlayerConfig.initial ℝ with maxAirDashes := 2 } 10 (openScene false)
              (pressedFrame Movement.Positive Movement.None false true) idleFrame
              (restingPlayer false 0 2)).velocity) 6
      ∧ (UpdatePlayer ⟨Real.sqrt, Real.sin, Real.cos, fun x => x * (Real.pi / 180)⟩
            { PlayerConfig.initial ℝ with maxAirDashes := 2 } 10 (openScene false) false
            (pressedFrame Movement.Positive Movement.None false true) idleFrame
            (restingPlayer false 0 2)).midairDashesLeft = 1
      ∧ (UpdatePlayer ⟨Real.sqrt, Real.sin, Real.cos, fun x => x * (Real.pi / 180)⟩
            { PlayerConfig.initial ℝ with maxAirDashes := 2 } 10 (openScene false) false
            (pressedFrame Movement.Positive Movement.None false true) idleFrame
            (restingPlayer false 0 2)).dashCooldown = 300 := by
  have hair : (groundTest (openScene false : PhysicsPlugin ℝ)
      (tickStart (restingPlayer false 0 2))).grounded = false :=
    groundTest_at_rest (openScene false) (restingPlayer false 0 2) rfl
  have h := UpdatePlayer_air_dash
    ⟨Real.sqrt, Real.sin, Real.cos, fun x => x * (Real.pi / 180)⟩
    { PlayerConfig.initial ℝ with maxAirDashes := 2 } 10 (openScene false) false
    (pressedFrame Movement.Positive Movement.None false true) idleFrame
    (restingPlayer false 0 2) Real.sqrt_mul_self_eq_abs
    (show (0 : ℝ) ≤ 6 by norm_num) hair (by decide) rfl rfl (by decide) rfl
    (by simp only [cooldownAfterDecrement, restingPlayer, gt_iff_lt, lt_self_iff_false,
      if_false, le_refl]) rfl
  exact ⟨hair, rfl, h.2.1, h.2.2.1, h.2.2.2⟩

/-! ### The air-dash budget -/

/-- The air-dash budget at the end of a tick lies between `0` and
`maxAirDashes` when it did so at the start and `maxAirDashes` is not
negative. -/
theorem airdash_budget_bounds {F : Type} [LinearOrderedField F] (glm : GlmLib F)
    (cfg : PlayerConfig F) (msPerFrame : F) (physics : PhysicsPlugin F)
    (landingFinished : Bool) (controller controllerPrev : ControllerFrame)
    (player : Player F) (hmax : 0 ≤ cfg.maxAirDashes)
    (hlo : 0 ≤ player.midairDashesLeft) (hhi : player.midairDashesLeft ≤ cfg.maxAirDashes) :
    0 ≤ (UpdatePlayer glm cfg msPerFrame physics landingFinished controller controllerPrev
        player).midairDashesLeft
      ∧ (UpdatePlayer glm cfg msPerFrame physics landingFinished controller controllerPrev
          player).midairDashesLeft ≤ cfg.maxAirDashes := by
  obtain ⟨_, hcases⟩ := UpdatePlayer_dash_cases glm cfg msPerFrame physics landingFinished
    controller controllerPrev player
  rcases hcases with ⟨hc, _, _, _, _, _, hmid⟩ | ⟨_, _, _, _, _, hmid⟩
  · have hpos := ((dashCondition_beforeDash glm cfg msPerFrame physics controller
      controllerPrev player).1 hc).2.2.2
    rw [hmid]
    unfold dashesAfterReset at hpos ⊢
    split_ifs at hpos ⊢ <;> constructor <;> omega
  · rw [hmid]
    unfold dashesAfterReset
    split_ifs <;> constructor <;> omega

/-- C24: with `maxAirDashes` not negative and the same before and after the
tick, the predicate `0 ≤ midairDashesLeft ≤ maxAirDashes` is preserved by every
`UpdatePlayer` tick, for every controller input and every physics plugin: it
holds of the state at the end of the tick and of the player component stored
from it. -/
theorem UpdatePlayer_airdash_budget_invariant {F : Type} [LinearOrderedField F]
    (glm : GlmLib F) (cfg : PlayerConfig F) (msPerFrame : F) (physics : PhysicsPlugin F)
    (landingFinished : Bool) (controller controllerPrev : ControllerFrame)
    (player : Player F) (hmax : 0 ≤ cfg.maxAirDashes)
    (hlo : 0 ≤ player.midairDashesLeft) (hhi : player.midairDashesLeft ≤ cfg.maxAirDashes) :
    0 ≤ (UpdatePlayer glm cfg msPerFrame physics landingFinished controller controllerPrev
        player).midairDashesLeft
      ∧ (UpdatePlayer glm cfg msPerFrame physics landingFinished controller controllerPrev
          player).midairDashesLeft ≤ cfg.maxAirDashes
      ∧ 0 ≤ (UpdatePlayer glm cfg msPerFrame physics landingFinished controller controllerPrev
          player).toPlayer.midairDashesLeft
      ∧ (UpdatePlayer glm cfg msPerFrame physics landingFinished controller controllerPrev
          player).toPlayer.midairDashesLeft ≤ cfg.maxAirDashes :=
  ⟨(airdash_budget_bounds glm cfg msPerFrame physics landingFinished controller controllerPrev
      player hmax hlo hhi).1,
    (airdash_budget_bounds glm cfg msPerFrame physics landingFinished controller controllerPrev
      player hmax hlo hhi).2,
    (airdash_budget_bounds glm cfg msPerFrame physics landingFinished controller controllerPrev
      player hmax hlo hhi).1,
    (airdash_budget_bounds glm cfg msPerFrame physics landingFinished controller controllerPrev
      player hmax hlo hhi).2⟩

/-- C24 over the reals with the initial tunables (`maxAirDashes = 1`): a player on
the ground with one air-dash left who dashes ends the tick with a budget between
0 and 1. -/
theorem UpdatePlayer_airdash_budget_invariant_witness :
    0 ≤ (PlayerConfig.initial ℝ).maxAirDashes
      ∧ 0 ≤ (restingPlayer true (0 : ℝ) 1).midairDashesLeft
      ∧ (restingPlayer true (0 : ℝ) 1).midairDashesLeft ≤ (PlayerConfig.initial ℝ).maxAirDashes
      ∧ 0 ≤ (UpdatePlayer ⟨Real.sqrt, Real.sin, Real.cos, fun x => x * (Real.pi / 180)⟩
          (PlayerConfig.initial ℝ) 10 (openScene true) false
          (pressedFrame Movement.Positive Movement.None false true) idleFrame
          (restingPlayer true 0 1)).midairDashesLeft
      ∧ (UpdatePlayer ⟨Real.sqrt, Real.sin, Real.cos, fun x => x * (Real.pi / 180)⟩
          (PlayerConfig.initial ℝ) 10 (openScene true) false
          (pressedFrame Movement.Positive Movement.None false true) idleFrame
          (restingPlayer true 0 1)).midairDashesLeft ≤ 1 := by
  have h := UpdatePlayer_airdash_budget_invariant
    ⟨Real.sqrt, Real.sin, Real.cos, fun x => x * (Real.pi / 180)⟩
    (PlayerConfig.initial ℝ) 10 (openScene true) false
    (pressedFrame Movement.Positive Movement.None false true) idleFrame
    (restingPlayer true 0 1) (by decide) (by decide) (by decide)
  exact ⟨by decide, by decide, by decide, h.1, h.2.1⟩

/-! ### The collision flag of the entity queries -/

/-- A loop whose body either leaves the results alone or sets the flag and
appends one entity: the flag after the loop is the flag before it or the fact
that the entity list has grown, and the list never shrinks. -/
theorem foldl_flag_of_step {α : Type}
    (step : EntityIntersectionResults → α → EntityIntersectionResults)
    (hstep : ∀ r e, step r e = r
      ∨ ∃ x, step r e = { collision := true, entities := r.entities ++ [x] })
    (view : List α) (results : EntityIntersectionResults) :
    (view.foldl step results).collision
        = (results.collision
          || decide (results.entities.length < (view.foldl step results).entities.length))
      ∧ results.entities.length ≤ (view.foldl step results).entities.length := by
  induction view generalizing results with
  | nil => simp
  | cons e es ih =>
    rw [List.foldl_cons]
    obtain ⟨ih1, ih2⟩ := ih (step results e)
    rcases hstep results e with h | ⟨x, h⟩
    · rw [h] at ih1 ih2 ⊢
      exact ⟨ih1, ih2⟩
    · rw [h] at ih1 ih2 ⊢
      simp only [List.length_append, List.length_singleton, Bool.true_or] at ih1 ih2
      have hlt : results.entities.length
          < (es.foldl step { collision := true, entities := results.entities ++ [x] }
              ).entities.length := by omega
      refine ⟨?_, by omega⟩
      rw [ih1]
      simp only [hlt, decide_True, Bool.or_true]

/-- The body of the ray loop leaves the results alone or sets the flag and
appends one entity. -/
theorem entityRaycastStep_cases {F : Type} [LinearOrderedField F] [FloorRing F]
    (sqrt : F → F) (rayOriginBegin rayOriginEnd : F × F) (r : EntityIntersectionResults)
    (e : HitboxEntity F) :
    entityRaycastStep sqrt rayOriginBegin rayOriginEnd r e = r
      ∨ ∃ x, entityRaycastStep sqrt rayOriginBegin rayOriginEnd r e
          = { collision := true, entities := r.entities ++ [x] } := by
  unfold entityRaycastStep
  split
  · exact Or.inr ⟨_, rfl⟩
  · exact Or.inl rfl

/-- The body of the circle loop leaves the results alone or sets the flag and
appends one entity. -/
theorem entityCircleStep_cases {F : Type} [LinearOrderedField F] [FloorRing F]
    (sqrt : F → F) (circle : IntersectorCircle F) (r : EntityIntersectionResults)
    (e : HitboxEntity F) :
    entityCircleStep sqrt circle r e = r
      ∨ ∃ x, entityCircleStep sqrt circle r e
          = { collision := true, entities := r.entities ++ [x] } := by
  unfold entityCircleStep
  split
  · exact Or.inr ⟨_, rfl⟩
  · exact Or.inl rfl

/-- The collision flag after either entity query: the flag passed in, or the
fact that the returned entity list is not empty.  With a flag passed in as
`false` the flag is true exactly when the list is not empty; a flag passed in as
`true` stays true whatever the list. -/
theorem entity_query_collision_flag {F : Type} [LinearOrderedField F] [FloorRing F]
    (sqrt : F → F) (view : List (HitboxEntity F)) (ray : IntersectorRay)
    (circle : IntersectorCircle F) (results : EntityIntersectionResults) :
    (Physics_EntityIntersectionRaycast sqrt view ray results).collision
        = (results.collision
          || decide ((Physics_EntityIntersectionRaycast sqrt view ray results).entities ≠ []))
      ∧ (Physics_EntityIntersectionCircle sqrt view circle results).collision
        = (results.collision
          || decide ((Physics_EntityIntersectionCircle sqrt view circle results).entities
              ≠ [])) := by
  constructor
  · unfold Physics_EntityIntersectionRaycast
    rw [(foldl_flag_of_step _ (entityRaycastStep_cases sqrt _ _) view _).1]
    simp only [List.length_nil, List.length_pos, ne_eq]
  · unfold Physics_EntityIntersectionCircle
    rw [(foldl_flag_of_step _ (entityCircleStep_cases sqrt circle) view _).1]
    simp only [List.length_nil, List.length_pos, ne_eq]

/-- C22 fails on a reused results object: over the reals, with one hitbox of
dimensions `(4, 4)` at `(2, 3)` in the view and a results object whose flag is
true and whose list holds a hit of an earlier query, the ray from `(10, 10)` to
`(20, 10)` and the circle of radius 1 at `(100, 100)` both miss the hitbox; the
entity list returned is empty and the collision flag is still true. -/
theorem EntityIntersection_stale_collision_flag :
    Physics_EntityIntersectionRaycast Real.sqrt [⟨7, (4, 4), ((2 : ℝ), 3)⟩]
        ⟨(10, 10), (20, 10)⟩ ⟨true, [((1, 1), 7)]⟩ = ⟨true, []⟩
      ∧ Physics_EntityIntersectionCircle Real.sqrt [⟨7, (4, 4), ((2 : ℝ), 3)⟩]
          ⟨(100, 100), 1⟩ ⟨true, [((1, 1), 7)]⟩ = ⟨true, []⟩ := by
  have h100 : Real.sqrt 100 = 10 := by
    rw [show (100 : ℝ) = 10 * 10 by norm_num]
    exact Real.sqrt_mul_self (by norm_num)
  constructor
  · unfold Physics_EntityIntersectionRaycast
    rw [foldl_raycast_none]
    intro e he
    rw [List.mem_singleton] at he
    subst he
    unfold IntersectionRayAabb
    rw [rayAabbSlab_eq]
    simp only [vnormalize, vlength, GetAabbMin, GetAabbMax, slabInverse, slabResult]
    norm_num [h100]
  · unfold Physics_EntityIntersectionCircle
    simp only [List.foldl_cons, List.foldl_nil, entityCircleStep, IntersectionCircleAabb,
      glmClamp, GetAabbMin, GetAabbMax, vlength]
    norm_num

/-! ### The direction of a dash -/

/-- The direction handed to `normalize` by the dash block is the zero vector
exactly when the player is not grounded at the dash block and neither axis of
the controller is held. -/
theorem dashDirection_eq_zero_iff {F : Type} [LinearOrderedField F]
    (controller : ControllerFrame) (grounded : Bool) :
    (dashDirection controller grounded : F × F) = (0, 0)
      ↔ grounded = false ∧ controller.movementHorizontal = Movement.None
        ∧ controller.movementVertical = Movement.None := by
  unfold dashDirection
  cases grounded <;> cases controller.movementHorizontal <;>
    cases controller.movementVertical <;>
    simp [Movement.toInt] <;> norm_num

/-- C23 fails for a player in the air with no direction held: over the reals
with the initial tunables, a player at rest in the air with one air-dash left
and no cooldown running, whose controller frame presses dash on a fresh edge
with both axes at 0, satisfies the dash condition, the dash fires, and the
direction handed to `normalize` is `(0, 0)`. -/
theorem UpdatePlayer_dash_zero_direction :
    dashCondition (PlayerConfig.initial ℝ) 10
        (pressedFrame Movement.None Movement.None false true) idleFrame
        (beforeDash ⟨Real.sqrt, Real.sin, Real.cos, fun x => x * (Real.pi / 180)⟩
          (PlayerConfig.initial ℝ) 10 (openScene false)
          (pressedFrame Movement.None Movement.None false true) idleFrame
          (restingPlayer false 0 1))
      ∧ (UpdatePlayer ⟨Real.sqrt, Real.sin, Real.cos, fun x => x * (Real.pi / 180)⟩
          (PlayerConfig.initial ℝ) 10 (openScene false) false
          (pressedFrame Movement.None Movement.None false true) idleFrame
          (restingPlayer false 0 1)).dashFired = true
      ∧ (dashDirection (pressedFrame Movement.None Movement.None false true)
          (beforeDash ⟨Real.sqrt, Real.sin, Real.cos, fun x => x * (Real.pi / 180)⟩
            (PlayerConfig.initial ℝ) 10 (openScene false)
            (pressedFrame Movement.None Movement.None false true) idleFrame
            (restingPlayer false 0 1)).grounded : ℝ × ℝ) = (0, 0) := by
  have hair : (groundTest (openScene false : PhysicsPlugin ℝ)
      (tickStart (restingPlayer false 0 1))).grounded = false :=
    groundTest_at_rest (openScene false) (restingPlayer false 0 1) rfl
  have hpg := beforeDash_airborne
    ⟨Real.sqrt, Real.sin, Real.cos, fun x => x * (Real.pi / 180)⟩
    (PlayerConfig.initial ℝ) 10 (openScene false)
    (pressedFrame Movement.None Movement.None false true) idleFrame
    (restingPlayer false 0 1) hair
  have hc := (dashCondition_beforeDash
    ⟨Real.sqrt, Real.sin, Real.cos, fun x => x * (Real.pi / 180)⟩ (PlayerConfig.initial ℝ) 10
    (openScene false) (pressedFrame Movement.None Movement.None false true)
    idleFrame (restingPlayer false 0 1)).2 ⟨rfl, rfl, by
      simp only [cooldownAfterDecrement, restingPlayer, gt_iff_lt, lt_self_iff_false, if_false,
        le_refl], by
      rw [hair]
      decide⟩
  refine ⟨hc, ?_, ?_⟩
  · rcases (UpdatePlayer_dash_cases
        ⟨Real.sqrt, Real.sin, Real.cos, fun x => x * (Real.pi / 180)⟩
        (PlayerConfig.initial ℝ) 10 (openScene false) false
        (pressedFrame Movement.None Movement.None false true) idleFrame
        (restingPlayer false 0 1)).2 with
      ⟨_, hfired, _⟩ | ⟨hnc, _⟩
    · exact hfired
    · exact absurd hc hnc
  · rw [hpg]
    exact (dashDirection_eq_zero_iff _ false).2 ⟨rfl, rfl, rfl⟩

/-! ### The clamp of the position -/

/-- The tick up to the dash block for a player in the air with no horizontal
velocity and a downward velocity within the bound, with neither walk nor crouch
held: one frame of air acceleration and of gravity. -/
theorem beforeDash_drop {F : Type} [LinearOrderedField F] (glm : GlmLib F)
    (cfg : PlayerConfig F) (msPerFrame : F) (physics : PhysicsPlugin F)
    (controller controllerPrev : ControllerFrame) (player : Player F) (y : F)
    (hv : player.velocity = (FloatVal.finite 0, FloatVal.finite y))
    (hy0 : 0 ≤ y) (hy : y ≤ 1000)
    (hq : physics.IntersectionPoint (player.origin.1, player.origin.2 + 1) = false)
    (hwalk : controller.walk = false) (hcrouch : controller.crouch = false) :
    (beforeDash glm cfg msPerFrame physics controller controllerPrev player).velocity
      = (0 + (controller.movementHorizontal.toInt : F) * cfg.inputAirAccelMultiplier,
          y + cfg.gravity) := by
  have h0 : |(0 : F)| ≤ 1000 := by norm_num
  have hya : |y| ≤ 1000 := by rwa [abs_of_nonneg hy0]
  obtain ⟨hvel, _⟩ := tickStart_finite player 0 y hv h0 hya
  have hor : (tickStart player).origin = player.origin := rfl
  have hg : (groundTest physics (tickStart player)).grounded = false := by
    unfold groundTest
    simp only [hvel, hor, ge_iff_le, hy0, if_true, hq]
  have hgv : (groundTest physics (tickStart player)).velocity = (0, y) := hvel
  have hj : (processJump glm cfg controller (groundTest physics (tickStart player))).velocity
        = (0, y + cfg.gravity)
      ∧ (processJump glm cfg controller (groundTest physics (tickStart player))).grounded
        = false := by
    unfold processJump
    simp only [hg, hgv, Bool.false_eq_true, false_and, if_false, and_self]
  unfold beforeDash processHorizontal
  simp only [hj.1, hj.2, hwalk, hcrouch, Bool.false_eq_true, false_and, and_false, if_false]

/-- A player falling at speed 9.7 in a room whose floor fills `y ≥ 5`, with
nothing pressed: after gravity the velocity is `(0, 10)`, the movement ray from
`(0, -2)` to `(0, 8)` is obstructed at `(0, 5)`, and the position is clamped to
`(0, 4)`. -/
theorem fall_onto_floor_state :
    (processInputs ⟨Real.sqrt, Real.sin, Real.cos, fun x => x * (Real.pi / 180)⟩
        (PlayerConfig.initial ℝ) 10 (roomScene 100 (-100) 5) idleFrame idleFrame
        (fallingPlayer (97 / 10))).velocity = (0, 10)
      ∧ (roomScene 100 (-100) 5 : PhysicsPlugin ℝ).Construct
          ((fallingPlayer (97 / 10 : ℝ)).origin.1, (fallingPlayer (97 / 10 : ℝ)).origin.2 - 2)
          ((fallingPlayer (97 / 10 : ℝ)).origin.1
            + (processInputs ⟨Real.sqrt, Real.sin, Real.cos, fun x => x * (Real.pi / 180)⟩
                (PlayerConfig.initial ℝ) 10 (roomScene 100 (-100) 5) idleFrame idleFrame
                (fallingPlayer (97 / 10))).velocity.1,
            (fallingPlayer (97 / 10 : ℝ)).origin.2 - 2
            + (processInputs ⟨Real.sqrt, Real.sin, Real.cos, fun x => x * (Real.pi / 180)⟩
                (PlayerConfig.initial ℝ) 10 (roomScene 100 (-100) 5) idleFrame idleFrame
                (fallingPlayer (97 / 10))).velocity.2)
        = ⟨(0, -2), (0, 8)⟩
      ∧ (UpdatePlayer ⟨Real.sqrt, Real.sin, Real.cos, fun x => x * (Real.pi / 180)⟩
          (PlayerConfig.initial ℝ) 10 (roomScene 100 (-100) 5) false idleFrame idleFrame
          (fallingPlayer (97 / 10))).origin = (0, 4) := by
  have hq : (roomScene 100 (-100) 5 : PhysicsPlugin ℝ).IntersectionPoint
      ((fallingPlayer (97 / 10 : ℝ)).origin.1, (fallingPlayer (97 / 10 : ℝ)).origin.2 + 1)
      = false := by
    simp only [roomScene, fallingPlayer]
    norm_num
  have hpv := beforeDash_drop
    ⟨Real.sqrt, Real.sin, Real.cos, fun x => x * (Real.pi / 180)⟩ (PlayerConfig.initial ℝ) 10
    (roomScene 100 (-100) 5) idleFrame idleFrame (fallingPlayer (97 / 10)) (97 / 10) rfl
    (by norm_num) (by norm_num) hq rfl rfl
  have hc : ¬ dashCondition (PlayerConfig.initial ℝ) 10 idleFrame idleFrame
      (beforeDash ⟨Real.sqrt, Real.sin, Real.cos, fun x => x * (Real.pi / 180)⟩
        (PlayerConfig.initial ℝ) 10 (roomScene 100 (-100) 5) idleFrame idleFrame
        (fallingPlayer (97 / 10))) := fun h => Bool.noConfusion h.2.1
  have hmid : (processInputs ⟨Real.sqrt, Real.sin, Real.cos, fun x => x * (Real.pi / 180)⟩
      (PlayerConfig.initial ℝ) 10 (roomScene 100 (-100) 5) idleFrame idleFrame
      (fallingPlayer (97 / 10))).velocity = (0, 10) := by
    unfold processInputs
    rw [processDash_idle _ _ _ _ _ _ hc]
    show (beforeDash _ _ _ _ _ _ _).velocity = _
    rw [hpv]
    simp only [idleFrame, Movement.toInt, PlayerConfig.initial]
    norm_num
  have ho := processInputs_origin ⟨Real.sqrt, Real.sin, Real.cos, fun x => x * (Real.pi / 180)⟩
    (PlayerConfig.initial ℝ) 10 (roomScene 100 (-100) 5) idleFrame idleFrame
    (fallingPlayer (97 / 10))
  have hray : (roomScene 100 (-100) 5 : PhysicsPlugin ℝ).Construct
      ((fallingPlayer (97 / 10 : ℝ)).origin.1, (fallingPlayer (97 / 10 : ℝ)).origin.2 - 2)
      ((fallingPlayer (97 / 10 : ℝ)).origin.1
        + (processInputs ⟨Real.sqrt, Real.sin, Real.cos, fun x => x * (Real.pi / 180)⟩
            (PlayerConfig.initial ℝ) 10 (roomScene 100 (-100) 5) idleFrame idleFrame
            (fallingPlayer (97 / 10))).velocity.1,
        (fallingPlayer (97 / 10 : ℝ)).origin.2 - 2
        + (processInputs ⟨Real.sqrt, Real.sin, Real.cos, fun x => x * (Real.pi / 180)⟩
            (PlayerConfig.initial ℝ) 10 (roomScene 100 (-100) 5) idleFrame idleFrame
            (fallingPlayer (97 / 10))).velocity.2)
      = ⟨(0, -2), (0, 8)⟩ := by
    rw [hmid]
    simp only [roomScene, roundedRay, fallingPlayer, IntersectorRay.mk.injEq, Prod.mk.injEq]
    exact ⟨⟨glmRound_eq _ _ (by norm_num), glmRound_eq _ _ (by norm_num)⟩,
      glmRound_eq _ _ (by norm_num), glmRound_eq _ _ (by norm_num)⟩
  refine ⟨hmid, hray, ?_⟩
  have hs := applyPhysics_hit (roomScene 100 (-100) 5)
    (processInputs ⟨Real.sqrt, Real.sin, Real.cos, fun x => x * (Real.pi / 180)⟩
      (PlayerConfig.initial ℝ) 10 (roomScene 100 (-100) 5) idleFrame idleFrame
      (fallingPlayer (97 / 10)))
    ⟨(0, -2), (0, 8)⟩ ⟨true, (0, 5), SENTINEL, SENTINEL⟩ 0 4
    (true, ⟨true, (0, 5), SENTINEL, SENTINEL⟩) (false, IntersectionResults.noCollision)
    (by rw [ho]; exact hray)
    (by decide)
    (by rw [ho]; simp [fallingPlayer])
    (by norm_num)
    (by
      simp only [roomScene, roundedRay]
      rw [glmRound_eq (0 : ℝ) 0 (by norm_num), glmRound_eq ((4 : ℝ) + 1) 5 (by norm_num),
        glmRound_eq ((4 : ℝ) + -3) 1 (by norm_num)]
      rfl)
    (by
      simp only [roomScene, roundedRay]
      rw [glmRound_eq ((0 : ℝ) + 2) 2 (by norm_num), glmRound_eq ((0 : ℝ) + -2) (-2) (by norm_num),
        glmRound_eq (4 : ℝ) 4 (by norm_num)]
      rfl)
  unfold UpdatePlayer
  rw [(applyLanding_motion _ _).2, hs.1]

/-- The position at the end of a tick: with `ray` the movement ray, from two
units above the origin along the velocity after the inputs, an unobstructed ray
adds that velocity to the position; an obstructed ray places the position per
axis from the hit cell. -/
theorem collision_clamp {F : Type} [LinearOrderedField F] (glm : GlmLib F)
    (cfg : PlayerConfig F) (msPerFrame : F) (physics : PhysicsPlugin F)
    (landingFinished : Bool) (controller controllerPrev : ControllerFrame)
    (player : Player F) (ray : IntersectorRay) (results : IntersectionResults)
    (hray : physics.Construct (player.origin.1, player.origin.2 - 2)
        (player.origin.1
          + (processInputs glm cfg msPerFrame physics controller controllerPrev
              player).velocity.1,
          player.origin.2 - 2
          + (processInputs glm cfg msPerFrame physics controller controllerPrev
              player).velocity.2) = ray) :
    ((physics.IntersectionRaycast ray).1 = false →
        (UpdatePlayer glm cfg msPerFrame physics landingFinished controller controllerPrev
            player).origin
          = (player.origin.1
              + (processInputs glm cfg msPerFrame physics controller controllerPrev
                  player).velocity.1,
            player.origin.2
              + (processInputs glm cfg msPerFrame physics controller controllerPrev
                  player).velocity.2))
      ∧ (physics.IntersectionRaycast ray = (true, results) →
        (UpdatePlayer glm cfg msPerFrame physics landingFinished controller controllerPrev
            player).origin
          = (if ray.beginOrigin.1 < ray.endOrigin.1 then (results.origin.1 : F) - 1
              else if ray.beginOrigin.1 > ray.endOrigin.1 then (results.origin.1 : F) + 1
              else player.origin.1,
            if ray.beginOrigin.2 < ray.endOrigin.2 then (results.origin.2 : F) - 1
              else if ray.beginOrigin.2 > ray.endOrigin.2 then (results.origin.2 : F) + 3
              else player.origin.2)) := by
  have ho := processInputs_origin glm cfg msPerFrame physics controller controllerPrev player
  constructor
  · intro hfree
    rw [← hray] at hfree
    exact (UpdatePlayer_free glm cfg msPerFrame physics landingFinished controller
      controllerPrev player _ rfl hfree).2
  · intro hhit
    have hs := applyPhysics_hit physics
      (processInputs glm cfg msPerFrame physics controller controllerPrev player)
      ray results _ _ _ _ (by rw [ho]; exact hray) hhit rfl rfl rfl rfl
    unfold UpdatePlayer
    rw [(applyLanding_motion _ _).2, hs.1, ho]

/-- C21, as stated, fails: the two vertical margins are the other way round.
A player falling (the `+y` direction of the ground test) whose movement ray from
`(0, -2)` to `(0, 8)` is obstructed at the floor cell `(0, 5)` is placed at
`(0, 4)`, 1 unit short of the hit and not 3. A player jumping (the `-y`
direction) whose movement ray from `(0, -2)` to `(0, -11)` is obstructed at the
ceiling cell `(0, -5)` is placed at `(0, -2)`, 3 units from the hit and not
1. -/
theorem UpdatePlayer_clamp_margins_swapped :
    ((processInputs ⟨Real.sqrt, Real.sin, Real.cos, fun x => x * (Real.pi / 180)⟩
          (PlayerConfig.initial ℝ) 10 (roomScene 100 (-100) 5) idleFrame idleFrame
          (fallingPlayer (97 / 10))).velocity = (0, 10)
        ∧ (roomScene 100 (-100) 5 : PhysicsPlugin ℝ).Construct
            ((fallingPlayer (97 / 10 : ℝ)).origin.1,
              (fallingPlayer (97 / 10 : ℝ)).origin.2 - 2)
            ((fallingPlayer (97 / 10 : ℝ)).origin.1
              + (processInputs ⟨Real.sqrt, Real.sin, Real.cos, fun x => x * (Real.pi / 180)⟩
                  (PlayerConfig.initial ℝ) 10 (roomScene 100 (-100) 5) idleFrame idleFrame
                  (fallingPlayer (97 / 10))).velocity.1,
              (fallingPlayer (97 / 10 : ℝ)).origin.2 - 2
              + (processInputs ⟨Real.sqrt, Real.sin, Real.cos, fun x => x * (Real.pi / 180)⟩
                  (PlayerConfig.initial ℝ) 10 (roomScene 100 (-100) 5) idleFrame idleFrame
                  (fallingPlayer (97 / 10))).velocity.2)
          = ⟨(0, -2), (0, 8)⟩
        ∧ (roomScene 100 (-100) 5 : PhysicsPlugin ℝ).IntersectionRaycast ⟨(0, -2), (0, 8)⟩
          = (true, ⟨true, (0, 5), SENTINEL, SENTINEL⟩)
        ∧ (UpdatePlayer ⟨Real.sqrt, Real.sin, Real.cos, fun x => x * (Real.pi / 180)⟩
            (PlayerConfig.initial ℝ) 10 (roomScene 100 (-100) 5) false idleFrame idleFrame
            (fallingPlayer (97 / 10))).origin = (0, 4))
      ∧ ((processInputs ⟨Real.sqrt, Real.sin, Real.cos, fun x => x * (Real.pi / 180)⟩
          (PlayerConfig.initial ℝ) 10 (roomScene 100 (-5) 1)
          (pressedFrame Movement.None Movement.None true false) idleFrame
          (restingPlayer true 0 1)).velocity = (0, -9)
        ∧ (roomScene 100 (-5) 1 : PhysicsPlugin ℝ).Construct
            ((restingPlayer true (0 : ℝ) 1).origin.1, (restingPlayer true (0 : ℝ) 1).origin.2 - 2)
            ((restingPlayer true (0 : ℝ) 1).origin.1
              + (processInputs ⟨Real.sqrt, Real.sin, Real.cos, fun x => x * (Real.pi / 180)⟩
                  (PlayerConfig.initial ℝ) 10 (roomScene 100 (-5) 1)
                  (pressedFrame Movement.None Movement.None true false) idleFrame
                  (restingPlayer true 0 1)).velocity.1,
              (restingPlayer true (0 : ℝ) 1).origin.2 - 2
              + (processInputs ⟨Real.sqrt, Real.sin, Real.cos, fun x => x * (Real.pi / 180)⟩
                  (PlayerConfig.initial ℝ) 10 (roomScene 100 (-5) 1)
                  (pressedFrame Movement.None Movement.None true false) idleFrame
                  (restingPlayer true 0 1)).velocity.2)
          = ⟨(0, -2), (0, -11)⟩
        ∧ (roomScene 100 (-5) 1 : PhysicsPlugin ℝ).IntersectionRaycast ⟨(0, -2), (0, -11)⟩
          = (true, ⟨true, (0, -5), SENTINEL, SENTINEL⟩)
        ∧ (UpdatePlayer ⟨Real.sqrt, Real.sin, Real.cos, fun x => x * (Real.pi / 180)⟩
            (PlayerConfig.initial ℝ) 10 (roomScene 100 (-5) 1) false
            (pressedFrame Movement.None Movement.None true false) idleFrame
            (restingPlayer true 0 1)).origin = (0, -2)) := by
  refine ⟨⟨fall_onto_floor_state.1, fall_onto_floor_state.2.1, by decide,
      fall_onto_floor_state.2.2⟩,
    ⟨jump_under_ceiling_state.2.1, ?_, by decide, jump_under_ceiling_state.1⟩⟩
  rw [jump_under_ceiling_state.2.1]
  simp only [roomScene, roundedRay, restingPlayer, IntersectorRay.mk.injEq, Prod.mk.injEq]
  exact ⟨⟨glmRound_eq _ _ (by norm_num), glmRound_eq _ _ (by norm_num)⟩,
    glmRound_eq _ _ (by norm_num), glmRound_eq _ _ (by norm_num)⟩

/-- C21, amended: for every `UpdatePlayer` tick, with `ray` the movement ray
(from the origin minus `(0, 2)` along the velocity after the inputs): when the
ray is unobstructed the new origin is the old origin plus that velocity; when it
is obstructed at hit cell `h`, on each axis along which the ray moves the origin
is placed 1 unit short of `h` on the leading edge (`h - 1` when the ray moves in
the positive direction, downward included, `h.x + 1` when it moves to the left),
except that when the ray moves upward (the `-y` direction) the vertical origin
is placed at `h.y + 3`, to compensate for the offset ray origin; an axis along
which the ray does not move keeps its coordinate. -/
theorem UpdatePlayer_collision_clamp {F : Type} [LinearOrderedField F] (glm : GlmLib F)
    (cfg : PlayerConfig F) (msPerFrame : F) (physics : PhysicsPlugin F)
    (landingFinished : Bool) (controller controllerPrev : ControllerFrame)
    (player : Player F) (ray : IntersectorRay) (h : IntersectionResults)
    (hray : physics.Construct (player.origin.1, player.origin.2 - 2)
        (player.origin.1
          + (processInputs glm cfg msPerFrame physics controller controllerPrev
              player).velocity.1,
          player.origin.2 - 2
          + (processInputs glm cfg msPerFrame physics controller controllerPrev
              player).velocity.2) = ray) :
    ((physics.IntersectionRaycast ray).1 = false →
        (UpdatePlayer glm cfg msPerFrame physics landingFinished controller controllerPrev
            player).origin
          = (player.origin.1
              + (processInputs glm cfg msPerFrame physics controller controllerPrev
                  player).velocity.1,
            player.origin.2
              + (processInputs glm cfg msPerFrame physics controller controllerPrev
                  player).velocity.2))
      ∧ (physics.IntersectionRaycast ray = (true, h) →
        (ray.beginOrigin.1 < ray.endOrigin.1 →
            (UpdatePlayer glm cfg msPerFrame physics landingFinished controller controllerPrev
              player).origin.1 = (h.origin.1 : F) - 1)
          ∧ (ray.endOrigin.1 < ray.beginOrigin.1 →
            (UpdatePlayer glm cfg msPerFrame physics landingFinished controller controllerPrev
              player).origin.1 = (h.origin.1 : F) + 1)
          ∧ (ray.beginOrigin.1 = ray.endOrigin.1 →
            (UpdatePlayer glm cfg msPerFrame physics landingFinished controller controllerPrev
              player).origin.1 = player.origin.1)
          ∧ (ray.beginOrigin.2 < ray.endOrigin.2 →
            (UpdatePlayer glm cfg msPerFrame physics landingFinished controller controllerPrev
              player).origin.2 = (h.origin.2 : F) - 1)
          ∧ (ray.endOrigin.2 < ray.beginOrigin.2 →
            (UpdatePlayer glm cfg msPerFrame physics landingFinished controller controllerPrev
              player).origin.2 = (h.origin.2 : F) + 3)
          ∧ (ray.beginOrigin.2 = ray.endOrigin.2 →
            (UpdatePlayer glm cfg msPerFrame physics landingFinished controller controllerPrev
              player).origin.2 = player.origin.2)) := by
  obtain ⟨hfree, hhit⟩ := collision_clamp glm cfg msPerFrame physics landingFinished
    controller controllerPrev player ray h hray
  refine ⟨hfree, fun hh => ?_⟩
  rw [hhit hh]
  refine ⟨?_, ?_, ?_, ?_, ?_, ?_⟩
  · intro hlt
    simp only [hlt, if_true]
  · intro hgt
    simp only [not_lt.2 (le_of_lt hgt), gt_iff_lt, hgt, if_true, if_false]
  · intro heq
    simp only [heq, lt_irrefl, gt_iff_lt, if_false]
  · intro hlt
    simp only [hlt, if_true]
  · intro hgt
    simp only [not_lt.2 (le_of_lt hgt), gt_iff_lt, hgt, if_true, if_false]
  · intro heq
    simp only [heq, lt_irrefl, gt_iff_lt, if_false]

/-- C21, amended, over the reals on the falling player: the movement ray from
`(0, -2)` to `(0, 8)` is obstructed at `(0, 5)`; the ray does not move
horizontally and the horizontal coordinate is kept, the ray moves downward and
the vertical coordinate is `5 - 1`. -/
theorem UpdatePlayer_collision_clamp_witness :
    (roomScene 100 (-100) 5 : PhysicsPlugin ℝ).IntersectionRaycast ⟨(0, -2), (0, 8)⟩
        = (true, ⟨true, (0, 5), SENTINEL, SENTINEL⟩)
      ∧ (UpdatePlayer ⟨Real.sqrt, Real.sin, Real.cos, fun x => x * (Real.pi / 180)⟩
          (PlayerConfig.initial ℝ) 10 (roomScene 100 (-100) 5) false idleFrame idleFrame
          (fallingPlayer (97 / 10))).origin.1 = (fallingPlayer (97 / 10 : ℝ)).origin.1
      ∧ (UpdatePlayer ⟨Real.sqrt, Real.sin, Real.cos, fun x => x * (Real.pi / 180)⟩
          (PlayerConfig.initial ℝ) 10 (roomScene 100 (-100) 5) false idleFrame idleFrame
          (fallingPlayer (97 / 10))).origin.2 = ((5 : Int) : ℝ) - 1 := by
  have h := (UpdatePlayer_collision_clamp
    ⟨Real.sqrt, Real.sin, Real.cos, fun x => x * (Real.pi / 180)⟩
    (PlayerConfig.initial ℝ) 10 (roomScene 100 (-100) 5) false idleFrame idleFrame
    (fallingPlayer (97 / 10)) ⟨(0, -2), (0, 8)⟩ ⟨true, (0, 5), SENTINEL, SENTINEL⟩
    fall_onto_floor_state.2.1).2 (by decide)
  exact ⟨by decide, h.2.2.1 rfl, h.2.2.2.1 (by decide)⟩

/-! ### The velocity check and the position -/

/-- A player in the air falling at speed 1000, the bound of the velocity check,
with nothing pressed and nothing in the way: the check leaves the velocity
alone, gravity raises it to 1000.3, and that velocity is added to the
position. -/
theorem fall_at_bound_tick :
    (sanitizeVelocity (fallingPlayer (1000 : ℝ)).velocity
        (fallingPlayer (1000 : ℝ)).storedVelocity).1
        = (FloatVal.finite 0, FloatVal.finite 1000)
      ∧ (processInputs ⟨Real.sqrt, Real.sin, Real.cos, fun x => x * (Real.pi / 180)⟩
          (PlayerConfig.initial ℝ) 10 (openScene false) idleFrame idleFrame
          (fallingPlayer 1000)).velocity = (0, 10003 / 10)
      ∧ (UpdatePlayer ⟨Real.sqrt, Real.sin, Real.cos, fun x => x * (Real.pi / 180)⟩
          (PlayerConfig.initial ℝ) 10 (openScene false) false idleFrame idleFrame
          (fallingPlayer 1000)).origin = (0, 10003 / 10) := by
  have hpv := beforeDash_drop
    ⟨Real.sqrt, Real.sin, Real.cos, fun x => x * (Real.pi / 180)⟩ (PlayerConfig.initial ℝ) 10
    (openScene false) idleFrame idleFrame (fallingPlayer 1000) 1000 rfl
    (by norm_num) (le_refl 1000) rfl rfl rfl
  have hc : ¬ dashCondition (PlayerConfig.initial ℝ) 10 idleFrame idleFrame
      (beforeDash ⟨Real.sqrt, Real.sin, Real.cos, fun x => x * (Real.pi / 180)⟩
        (PlayerConfig.initial ℝ) 10 (openScene false) idleFrame idleFrame
        (fallingPlayer 1000)) := fun h => Bool.noConfusion h.2.1
  have hmid : (processInputs ⟨Real.sqrt, Real.sin, Real.cos, fun x => x * (Real.pi / 180)⟩
      (PlayerConfig.initial ℝ) 10 (openScene false) idleFrame idleFrame
      (fallingPlayer 1000)).velocity = (0, 10003 / 10) := by
    unfold processInputs
    rw [processDash_idle _ _ _ _ _ _ hc]
    show (beforeDash _ _ _ _ _ _ _).velocity = _
    rw [hpv]
    simp only [idleFrame, Movement.toInt, PlayerConfig.initial]
    norm_num
  refine ⟨?_, hmid, ?_⟩
  · rw [sanitizeVelocity_no_nan (fallingPlayer (1000 : ℝ)).velocity
      (fallingPlayer (1000 : ℝ)).storedVelocity rfl rfl]
    simp only [fallingPlayer, FloatVal.absGt]
    norm_num
  · have h := (UpdatePlayer_free _ _ _ _ false _ _ _ _ hmid rfl).2
    rw [h]
    simp only [fallingPlayer]
    norm_num

/-- C18, as stated, fails, in two ways. Next to a NaN component, the component
5, whose magnitude is within the bound, is not left unchanged: both components
and the stored velocity are set to 0. And a velocity beyond the bound is added
to the position: a player falling at speed 1000 passes the check unchanged,
gravity raises the speed to 1000.3 and the position moves by 1000.3. -/
theorem UpdatePlayer_sanitize_limits :
    (|(5 : ℚ)| ≤ 1000
        ∧ sanitizeVelocity (FloatVal.finite (5 : ℚ), FloatVal.nan) (1, 2)
            = ((FloatVal.finite 0, FloatVal.finite 0), (0, 0)))
      ∧ ((sanitizeVelocity (fallingPlayer (1000 : ℝ)).velocity
            (fallingPlayer (1000 : ℝ)).storedVelocity).1
            = (FloatVal.finite 0, FloatVal.finite 1000)
        ∧ (fallingPlayer (1000 : ℝ)).origin = (0, 0)
        ∧ (processInputs ⟨Real.sqrt, Real.sin, Real.cos, fun x => x * (Real.pi / 180)⟩
            (PlayerConfig.initial ℝ) 10 (openScene false) idleFrame idleFrame
            (fallingPlayer 1000)).velocity = (0, 10003 / 10)
        ∧ (UpdatePlayer ⟨Real.sqrt, Real.sin, Real.cos, fun x => x * (Real.pi / 180)⟩
            (PlayerConfig.initial ℝ) 10 (openScene false) false idleFrame idleFrame
            (fallingPlayer 1000)).origin = (0, 10003 / 10)
        ∧ (1000 : ℝ) < |10003 / 10|) :=
  ⟨sanitizeVelocity_nan_partner_zeroed,
    ⟨fall_at_bound_tick.1, rfl, fall_at_bound_tick.2.1, fall_at_bound_tick.2.2, by
      rw [abs_of_pos (by norm_num)]
      norm_num⟩⟩

/-- C18, amended: for every player velocity, after the velocity check at the
start of `UpdatePlayer` each component is finite with magnitude at most 1000,
and this is the velocity the rest of the tick starts from; a component whose
magnitude exceeded 1000 (an infinity included) is 0; when no component is NaN a
component within the bound is left unchanged and the stored velocity is kept;
when a component is NaN both components and the stored velocity are set to 0;
the whole tick is the tick of the player with the checked velocity and stored
velocity; when the movement ray is not obstructed, the velocity added to the
position is the one that the inputs of the tick (gravity, jump, horizontal
input, dash) produce from the checked velocity. -/
theorem UpdatePlayer_sanitize {F : Type} [LinearOrderedField F] (glm : GlmLib F)
    (cfg : PlayerConfig F) (msPerFrame : F) (physics : PhysicsPlugin F)
    (landingFinished : Bool) (controller controllerPrev : ControllerFrame)
    (player : Player F) :
    (∃ x y, (sanitizeVelocity player.velocity player.storedVelocity).1
          = (FloatVal.finite x, FloatVal.finite y)
        ∧ |x| ≤ 1000 ∧ |y| ≤ 1000 ∧ (tickStart player).velocity = (x, y))
      ∧ (player.velocity.1.absGt 1000 = true →
          (sanitizeVelocity player.velocity player.storedVelocity).1.1 = FloatVal.finite 0)
      ∧ (player.velocity.2.absGt 1000 = true →
          (sanitizeVelocity player.velocity player.storedVelocity).1.2 = FloatVal.finite 0)
      ∧ (player.velocity.1.isnan = false → player.velocity.2.isnan = false →
          (player.velocity.1.absGt 1000 = false →
            (sanitizeVelocity player.velocity player.storedVelocity).1.1 = player.velocity.1)
          ∧ (player.velocity.2.absGt 1000 = false →
            (sanitizeVelocity player.velocity player.storedVelocity).1.2 = player.velocity.2)
          ∧ (sanitizeVelocity player.velocity player.storedVelocity).2 = player.storedVelocity)
      ∧ (player.velocity.1.isnan = true ∨ player.velocity.2.isnan = true →
          sanitizeVelocity player.velocity player.storedVelocity
            = ((FloatVal.finite 0, FloatVal.finite 0), (0, 0)))
      ∧ UpdatePlayer glm cfg msPerFrame physics landingFinished controller controllerPrev player
          = UpdatePlayer glm cfg msPerFrame physics landingFinished controller controllerPrev
              { player with
                velocity := (sanitizeVelocity player.velocity player.storedVelocity).1,
                storedVelocity := (sanitizeVelocity player.velocity player.storedVelocity).2 }
      ∧ ((physics.IntersectionRaycast
            (physics.Construct (player.origin.1, player.origin.2 - 2)
              (player.origin.1
                + (processInputs glm cfg msPerFrame physics controller controllerPrev
                    { player with
                      velocity := (sanitizeVelocity player.velocity player.storedVelocity).1,
                      storedVelocity :=
                        (sanitizeVelocity player.velocity player.storedVelocity).2
                    }).velocity.1,
                player.origin.2 - 2
                + (processInputs glm cfg msPerFrame physics controller controllerPrev
                    { player with
                      velocity := (sanitizeVelocity player.velocity player.storedVelocity).1,
                      storedVelocity :=
                        (sanitizeVelocity player.velocity player.storedVelocity).2
                    }).velocity.2))).1 = false →
          (UpdatePlayer glm cfg msPerFrame physics landingFinished controller controllerPrev
              player).origin
            = (player.origin.1
                + (processInputs glm cfg msPerFrame physics controller controllerPrev
                    { player with
                      velocity := (sanitizeVelocity player.velocity player.storedVelocity).1,
                      storedVelocity :=
                        (sanitizeVelocity player.velocity player.storedVelocity).2
                    }).velocity.1,
              player.origin.2
                + (processInputs glm cfg msPerFrame physics controller controllerPrev
                    { player with
                      velocity := (sanitizeVelocity player.velocity player.storedVelocity).1,
                      storedVelocity :=
                        (sanitizeVelocity player.velocity player.storedVelocity).2
                    }).velocity.2)) := by
  have hsame : processInputs glm cfg msPerFrame physics controller controllerPrev
        { player with
          velocity := (sanitizeVelocity player.velocity player.storedVelocity).1,
          storedVelocity := (sanitizeVelocity player.velocity player.storedVelocity).2 }
      = processInputs glm cfg msPerFrame physics controller controllerPrev player := by
    unfold processInputs beforeDash tickStart
    simp only [sanitizeVelocity_idem]
  have hzero : ∀ (first : Bool), (if first then player.velocity.1 else player.velocity.2).absGt 1000
        = true →
      (if first then (sanitizeVelocity player.velocity player.storedVelocity).1.1
        else (sanitizeVelocity player.velocity player.storedVelocity).1.2) = FloatVal.finite 0 := by
    intro first hgt
    by_cases hnan : player.velocity.1.isnan = true ∨ player.velocity.2.isnan = true
    · rw [sanitizeVelocity_nan _ _ hnan]
      cases first <;> rfl
    · simp only [not_or, Bool.not_eq_true] at hnan
      rw [sanitizeVelocity_no_nan _ _ hnan.1 hnan.2]
      cases first
      · simp only [Bool.false_eq_true, if_false] at hgt ⊢
        simp only [hgt, if_true]
      · simp only [if_true] at hgt ⊢
        simp only [hgt, if_true]
  refine ⟨?_, ?_, ?_, ?_, ?_, ?_, ?_⟩
  · obtain ⟨x, y, hxy, hx, hy⟩ := sanitizeVelocity_finite player.velocity player.storedVelocity
    refine ⟨x, y, hxy, hx, hy, ?_⟩
    unfold tickStart
    simp only [hxy, FloatVal.toField]
  · intro h
    exact hzero true h
  · intro h
    exact hzero false h
  · intro h1 h2
    rw [sanitizeVelocity_no_nan _ _ h1 h2]
    refine ⟨?_, ?_, rfl⟩
    · intro h
      simp only [h, Bool.false_eq_true, if_false]
    · intro h
      simp only [h, Bool.false_eq_true, if_false]
  · intro h
    exact sanitizeVelocity_nan _ _ h
  · unfold UpdatePlayer processInputs beforeDash tickStart
    simp only [sanitizeVelocity_idem]
  · intro hfree
    rw [hsame] at hfree ⊢
    exact (UpdatePlayer_free glm cfg msPerFrame physics landingFinished controller
      controllerPrev player _ rfl hfree).2

end Pulcher
